import Mathlib

/-!
# Sathi Construction backend: availability, identifier, progress, finance and material rules

A shallow embedding of the Express route handlers in `backend/routes/manpower.js`,
`backend/routes/projects.js`, `backend/routes/progress.js`, `backend/routes/finance.js` and
`backend/routes/materials.js`, together with the Mongoose schemas of
`backend/models/Manpower.js`, `backend/models/Project.js`, `backend/models/Progress.js`,
`backend/models/Finance.js` and `backend/models/Material.js`, the form validators of the
employee and project identifiers in `frontend/src/utils/validation.js`, and the request
bodies built by the screens `AddMaterialScreen.js` and `AddProjectScreen.js`.

Handlers are functions from the database (the collections as lists of documents)
and the request to a response and the database afterwards.  JSON values are
modelled by `JVal`; a request body is a record holding the keys the handler or
the schema reads by name, and the remaining keys as a field list.  Of the update
operators that Mongoose reads in an object given to `findByIdAndUpdate`, the `$set` of
a manpower update and the `$inc` of the progress of a project are followed.  The
amounts of the finance records are doubles (`Num`), with the rounding of each
operation; percentages are integers.  An `ObjectId` is written with lower-case digits,
as `castObjectId` writes it; a handler that takes the route parameter as an `ObjectId`
takes the id that the parameter denotes.
-/

set_option autoImplicit false

namespace Sathi

/-! ## JavaScript values -/

/-- A MongoDB ObjectId, written as its 24 hexadecimal digits. -/
abbrev ObjectId := String

/-- A JSON value as found under a key of `req.body`.  `obj` is a JSON object of which
only the `_id` member (when it is a string) is kept; it is what Mongoose looks at
when it casts an object to an ObjectId.  Numbers are integers (a fractional number
behaves like a non-zero integer wherever the handlers look at it). -/
inductive JVal where
  | null
  | bool (b : Bool)
  | num (n : Int)
  | str (s : String)
  | obj (id : Option String)
  deriving DecidableEq, Repr

/-- An object seen as its list of own properties. -/
abbrev Fields := List (String × JVal)

/-- Truthiness of a property read: `none` is `undefined` (the key is absent). -/
def jsTruthy : Option JVal → Bool
  | none => false
  | some .null => false
  | some (.bool b) => b
  | some (.num n) => n != 0
  | some (.str s) => s != ""
  | some (.obj _) => true

/-- The check `x === null`. -/
def isNull : Option JVal → Bool
  | some .null => true
  | _ => false

/-- The check `x === ''`. -/
def isEmptyString : Option JVal → Bool
  | some (.str s) => s == ""
  | _ => false

/-- The check `obj.hasOwnProperty(key)` on a key read as an `Option`. -/
def hasOwnProperty (x : Option JVal) : Bool := x.isSome

/-- White space in the sense of the regular expression class `\s`. -/
def isJsSpace (c : Char) : Bool :=
  c.toNat == 9 || c.toNat == 10 || c.toNat == 11 || c.toNat == 12 || c.toNat == 13 ||
  c.toNat == 32 || c.toNat == 160 || c.toNat == 5760 ||
  (8192 ≤ c.toNat && c.toNat ≤ 8202) ||
  c.toNat == 8232 || c.toNat == 8233 || c.toNat == 8239 || c.toNat == 8287 ||
  c.toNat == 12288 || c.toNat == 65279

/-- The method `String.prototype.trim`, also the `trim()` sanitizer and the schema
option `trim: true`. -/
def jsTrim (s : String) : String :=
  String.mk ((s.toList.dropWhile isJsSpace).reverse.dropWhile isJsSpace).reverse

/-- Upper-casing of one character, for the letters `a`..`z`. -/
def upperChar (c : Char) : Char :=
  if 97 ≤ c.toNat ∧ c.toNat ≤ 122 then Char.ofNat (c.toNat - 32) else c

/-- The method `String.prototype.toUpperCase` on the ASCII letters; other characters are
kept.  It stands for the schema option `uppercase: true`, which the create handler
reaches only with strings that passed the identifier pattern, on which nothing else can
occur. -/
def toUpperCase (s : String) : String := String.mk (s.toList.map upperChar)

/-- One hexadecimal digit. -/
def isHexDigit (c : Char) : Bool :=
  (48 ≤ c.toNat && c.toNat ≤ 57) || (65 ≤ c.toNat && c.toNat ≤ 70) ||
  (97 ≤ c.toNat && c.toNat ≤ 102)

/-- A string that the ObjectId constructor accepts: 24 hexadecimal digits. -/
def isObjectIdString (s : String) : Bool :=
  s.toList.length == 24 && s.toList.all isHexDigit

/-! ## Mongoose casting -/

/-- Lower-casing of one hexadecimal digit. -/
def lowerHexChar (c : Char) : Char :=
  if 65 ≤ c.toNat ∧ c.toNat ≤ 70 then Char.ofNat (c.toNat + 32) else c

/-- The ObjectId that the constructor builds from an accepted string.  An ObjectId is the
12 bytes the digits denote, so `65A0..` and `65a0..` are the same id; it is written here
the way `toString()` writes it, with the digits in lower case. -/
def toHexString (s : String) : ObjectId := String.mk (s.toList.map lowerHexChar)

/-- Mongoose's cast of a value to an ObjectId path: `none` is a CastError,
`some none` stores null, `some (some i)` stores the id. -/
def castObjectId : JVal → Option (Option ObjectId)
  | .null => some none
  | .str s => if isObjectIdString s then some (some (toHexString s)) else none
  | .obj (some i) => if isObjectIdString i then some (some (toHexString i)) else none
  | .obj none => none
  | .bool _ => none
  | .num _ => none

/-- Mongoose's cast of a value to a Boolean path: `none` is a CastError,
`some none` stores null. -/
def castBoolean : JVal → Option (Option Bool)
  | .null => some none
  | .bool b => some (some b)
  | .num n => if n = 1 then some (some true) else if n = 0 then some (some false) else none
  | .str s =>
    if s = "true" ∨ s = "1" ∨ s = "yes" then some (some true)
    else if s = "false" ∨ s = "0" ∨ s = "no" then some (some false)
    else none
  | .obj _ => none

/-- What a schema does with one of the paths that this development does not follow
(phone, email, experience, skills, createdBy, dates, unknown keys). -/
inductive PathCast where
  | reject
  | ignore
  | store (v : JVal)
  deriving DecidableEq, Repr

/-- Casting and validation of the paths that are not followed by name: one rejected
path rejects the whole write. -/
def castFields (c : String → JVal → PathCast) : Fields → Option Fields
  | [] => some []
  | (k, v) :: rest =>
    match c k v, castFields c rest with
    | .reject, _ => none
    | _, none => none
    | .ignore, some r => some r
    | .store w, some r => some ((k, w) :: r)

/-- The effect of `$set` on stored fields: keys of the update replace stored ones. -/
def mergeFields (upd doc : Fields) : Fields :=
  upd ++ doc.filter (fun kv => !(upd.any (fun u => u.1 == kv.1)))

/-- A schema that stores every extra path as it is sent. -/
def storeAsSent : String → JVal → PathCast := fun _ v => .store v

/-! ## Responses -/

/-- The JSON answer of a handler with its HTTP status. -/
structure Response (α : Type) where
  status : Nat
  success : Bool
  message : Option String := none
  errors : List String := []
  data : Option α := none
  deriving DecidableEq, Repr

/-! ## Manpower -/

/-- A stored Manpower document (`models/Manpower.js`); `createdAt` and `updatedAt` are
left out, the other paths are in `extra`. -/
structure Manpower where
  _id : ObjectId
  employeeId : String
  name : String
  role : String
  assignedProject : Option ObjectId
  isAvailable : Option Bool
  extra : Fields
  deriving DecidableEq, Repr

/-- The schema paths of a manpower document as an object names them: `none` is an absent
key; the three text keys carry strings when present. -/
structure ManpowerPaths where
  employeeId : Option String := none
  name : Option String := none
  role : Option String := none
  assignedProject : Option JVal := none
  isAvailable : Option JVal := none
  extra : Fields := []
  deriving DecidableEq, Repr

/-- The body of a manpower request.  `none` is an absent key; the three text keys carry
strings when present.  `setOperator` is the object under the key `$set`, which Mongoose
reads as an update operator when the body is handed to `findByIdAndUpdate`; any other key
is in `extra`. -/
structure ManpowerBody where
  employeeId : Option String := none
  name : Option String := none
  role : Option String := none
  assignedProject : Option JVal := none
  isAvailable : Option JVal := none
  extra : Fields := []
  setOperator : Option ManpowerPaths := none
  deriving DecidableEq, Repr

/-- Whether an object has an own property under one of the keys that are not followed by
name. -/
def ownKey (fs : Fields) (k : String) : Bool := fs.any (fun kv => kv.1 == k)

/-- The block of `router.put('/:id')` in `routes/manpower.js` that derives `updateData` from
`req.body` and the document read by `findById`.  `none` when the block throws: the
expression `updateData.hasOwnProperty` is the value of the body under the key
`hasOwnProperty` when it has one, and calling it is a TypeError. -/
def updateData (manpower : Manpower) (body : ManpowerBody) : Option ManpowerBody :=
  let updateData := body
  -- If assignedProject is being set, make unavailable
  if jsTruthy updateData.assignedProject && !isNull updateData.assignedProject
      && !isEmptyString updateData.assignedProject then
    some { updateData with isAvailable := some (.bool false) }
  -- If assignedProject is being removed (null or empty), make available
  else if isNull updateData.assignedProject || isEmptyString updateData.assignedProject then
    some { updateData with isAvailable := some (.bool true), assignedProject := some .null }
  else if ownKey updateData.extra "hasOwnProperty" then
    none
  -- If assignedProject is not in update, sync isAvailable with the current record
  else if !hasOwnProperty updateData.assignedProject then
    if manpower.assignedProject.isSome then
      some { updateData with isAvailable := some (.bool false) }
    else
      some { updateData with isAvailable := some (.bool true) }
  -- If isAvailable is manually set, ensure it matches assignedProject
  else if hasOwnProperty updateData.isAvailable && !hasOwnProperty updateData.assignedProject then
    if manpower.assignedProject.isSome then
      some { updateData with isAvailable := some (.bool false) }
    else
      some { updateData with isAvailable := some (.bool true) }
  else
    some updateData

/-- The hook `ManpowerSchema.pre('save')` of `models/Manpower.js` (the time stamp aside). -/
def preSave (doc : Manpower) : Manpower :=
  -- Auto-set isAvailable based on assignedProject
  if doc.assignedProject.isSome then
    { doc with isAvailable := some false }
  else
    { doc with isAvailable := some true }

/-- The invariant `isAvailable == (assignedProject == null)` of a stored document. -/
def availabilityInvariant (m : Manpower) : Bool :=
  m.isAvailable == some (m.assignedProject == none)

/-! ## Project -/

/-- The values of `enum` on the path `status` of `models/Project.js`. -/
def projectStatusEnum : List String := ["Planning", "In Progress", "On Hold", "Completed"]

/-- An entry of a `timeline` array as found in a request body, and also as the update
handler rebuilds it.  `none` is an absent key; the text keys carry strings when present;
`date` is the value sent, or for a rebuilt entry the value the `Date` object was made
from; `extra` holds every other key, such as `_id`. -/
structure TimelineItem where
  title : Option String := none
  description : Option String := none
  icon : Option String := none
  date : Option JVal := none
  extra : Fields := []
  deriving DecidableEq, Repr

/-- A stored entry of the `timeline` of a project (`models/Project.js`); the `_id` that
the store gives to each entry is left out. -/
structure StoredMilestone where
  title : String
  description : Option String
  date : JVal
  icon : String
  deriving DecidableEq, Repr

/-- A stored Project document (`models/Project.js`); the paths not followed by name are
in `extra`. -/
structure Project where
  _id : ObjectId
  projectId : String
  name : String
  location : String
  status : String
  progress : Int
  extra : Fields
  timeline : List StoredMilestone := []
  deriving DecidableEq, Repr

/-- The body of a project request.  `none` is an absent key; text keys carry strings,
`progress` an integer and `timeline` an array of objects when present (a `progress` with
a fraction, or `null`, which the schema stores as well, is not among the bodies).
`incProgress` is
the number under `progress` in the object under the key `$inc`, which Mongoose reads as an
update operator when the body is handed to `findByIdAndUpdate`. -/
structure ProjectBody where
  projectId : Option String := none
  name : Option String := none
  location : Option String := none
  status : Option String := none
  progress : Option Int := none
  extra : Fields := []
  timeline : Option (List TimelineItem) := none
  incProgress : Option Int := none
  deriving DecidableEq, Repr

/-- The regular expression `/^[A-Z]{3}-[0-9]{3}$/`. -/
def matchesProjectIdPattern (s : String) : Bool :=
  match s.toList with
  | [a, b, c, d, e, f, g] =>
    (65 ≤ a.toNat && a.toNat ≤ 90) && (65 ≤ b.toNat && b.toNat ≤ 90) &&
    (65 ≤ c.toNat && c.toNat ≤ 90) && d == '-' &&
    (48 ≤ e.toNat && e.toNat ≤ 57) && (48 ≤ f.toNat && f.toNat ≤ 57) &&
    (48 ≤ g.toNat && g.toNat ≤ 57)
  | _ => false

/-! ## Progress reports -/

/-- The values of `enum` on the path `status` of `models/Progress.js`. -/
def progressStatusEnum : List String := ["Started", "Not Started"]

/-- A stored Progress document (`models/Progress.js`); `createdAt` is left out, the text
paths (`materialStatus`, `notes`, `notStartedReason`) are in `extra`. -/
structure Progress where
  _id : ObjectId
  project : ObjectId
  reportedBy : ObjectId
  workCompleted : Int
  status : String
  extra : Fields
  deriving DecidableEq, Repr

/-- The body of a progress request.  `none` is an absent key; `workCompleted` carries an
integer and `status` a string when present. -/
structure ProgressBody where
  project : Option JVal := none
  workCompleted : Option Int := none
  status : Option String := none
  reportedBy : Option JVal := none
  extra : Fields := []
  deriving DecidableEq, Repr

/-- The authenticated user `req.user` set by the `protect` middleware. -/
structure User where
  id : ObjectId
  role : String
  deriving DecidableEq, Repr

/-! ## JavaScript numbers -/

/-- A JavaScript Number, that is an IEEE 754 double.  `fin neg num shift` is the finite
number `± num / 2 ^ shift`, written with `shift = 0` or `num` odd; `fin true 0 0` is the
negative zero. -/
inductive Num where
  | fin (neg : Bool) (num : Nat) (shift : Nat)
  | inf (neg : Bool)
  | nan
  deriving DecidableEq, Repr

/-- The number of binary digits of `n`; the first argument bounds the recursion. -/
def bitLength : Nat → Nat → Nat
  | 0, _ => 0
  | fuel + 1, n => if n = 0 then 0 else bitLength fuel (n / 2) + 1

/-- The fraction `num / 2 ^ shift` in lowest terms. -/
def reduceShift : Nat → Nat → Nat × Nat
  | num, 0 => (num, 0)
  | num, shift + 1 =>
    if num % 2 = 0 then reduceShift (num / 2) shift else (num, shift + 1)

/-- The double nearest to `± n / d`, for `d > 0`, with a tie going to the even
significand: the rounding of every arithmetic operation.  An integer below `2 ^ 53` is a
double as it stands. -/
def roundToDouble (neg : Bool) (n d : Nat) : Num :=
  if n = 0 then .fin neg 0 0
  else if d = 1 ∧ n < 2 ^ 53 then .fin neg n 0
  else
    let e0 : Int := (bitLength n n : Int) - (bitLength d d : Int)
    -- the exponent `e` with `2 ^ e ≤ n / d < 2 ^ (e + 1)`
    let e : Int := if d * 2 ^ e0.toNat ≤ n * 2 ^ (-e0).toNat then e0 else e0 - 1
    -- the doubles near `n / d` are the multiples of `2 ^ q`
    let q : Int := max (e - 52) (-1074)
    let N := n * 2 ^ (-q).toNat
    let D := d * 2 ^ q.toNat
    let k := N / D
    let r := N % D
    let k := if D < 2 * r ∨ (2 * r = D ∧ k % 2 = 1) then k + 1 else k
    -- `k * 2 ^ q` is `2 ^ 1024` or more
    if 1025 ≤ (bitLength k k : Int) + q then .inf neg
    else if 0 ≤ q then .fin neg (k * 2 ^ q.toNat) 0
    else .fin neg (reduceShift k (-q).toNat).1 (reduceShift k (-q).toNat).2

/-- The Number of an integer literal. -/
def Num.ofInt (a : Int) : Num := roundToDouble (decide (a < 0)) a.natAbs 1

instance (n : Nat) : OfNat Num n := ⟨Num.ofInt n⟩

/-- An integer with a sign. -/
def signed (neg : Bool) (n : Nat) : Int := if neg then -(n : Int) else n

/-- The operator `+` on Numbers. -/
def Num.add : Num → Num → Num
  | .nan, _ => .nan
  | _, .nan => .nan
  | .inf a, .inf b => if a = b then .inf a else .nan
  | .inf a, .fin _ _ _ => .inf a
  | .fin _ _ _, .inf b => .inf b
  | .fin na a sa, .fin nb b sb =>
    let s := max sa sb
    let z : Int := signed na (a * 2 ^ (s - sa)) + signed nb (b * 2 ^ (s - sb))
    if z = 0 then .fin (na && nb) 0 0
    else roundToDouble (decide (z < 0)) z.natAbs (2 ^ s)

/-- The unary `-` on Numbers. -/
def Num.neg : Num → Num
  | .nan => .nan
  | .inf a => .inf (!a)
  | .fin a n s => .fin (!a) n s

/-- The operator `-` on Numbers. -/
def Num.sub (x y : Num) : Num := x.add y.neg

/-- The operator `*` on Numbers. -/
def Num.mul : Num → Num → Num
  | .nan, _ => .nan
  | _, .nan => .nan
  | .inf a, .inf b => .inf (a != b)
  | .inf a, .fin nb b _ => if b = 0 then .nan else .inf (a != nb)
  | .fin na a _, .inf b => if a = 0 then .nan else .inf (na != b)
  | .fin na a sa, .fin nb b sb => roundToDouble (na != nb) (a * b) (2 ^ (sa + sb))

/-- The operator `/` on Numbers. -/
def Num.div : Num → Num → Num
  | .nan, _ => .nan
  | _, .nan => .nan
  | .inf _, .inf _ => .nan
  | .inf a, .fin nb _ _ => .inf (a != nb)
  | .fin na _ _, .inf b => .fin (na != b) 0 0
  | .fin na a sa, .fin nb b sb =>
    if b = 0 then (if a = 0 then .nan else .inf (na != nb))
    else roundToDouble (na != nb) (a * 2 ^ sb) (b * 2 ^ sa)

/-- The test `x > 0` on a Number. -/
def Num.isPositive : Num → Bool
  | .nan => false
  | .inf a => !a
  | .fin a n _ => !a && decide (0 < n)

/-- Two decimal digits. -/
def twoDigits (n : Nat) : String :=
  String.mk [Char.ofNat (48 + n / 10 % 10), Char.ofNat (48 + n % 10)]

/-- The number of hundredths that `toFixed(2)` prints for `num / 2 ^ shift`: the integer
nearest to a hundred times the number, the larger one at a tie. -/
def hundredths (num shift : Nat) : Nat := (200 * num + 2 ^ shift) / (2 * 2 ^ shift)

/-- The method `toFixed(2)`.  A number of magnitude `10 ^ 21` or more is printed by
`ToString` instead, as the shortest decimal that reads back as the number; that string is
not followed here and is `none`. -/
def toFixed2 : Num → Option String
  | .nan => some "NaN"
  | .inf a => some (if a then "-Infinity" else "Infinity")
  | .fin a n s =>
    if 10 ^ 21 * 2 ^ s ≤ n then none
    else
      some ((if a && decide (n ≠ 0) then "-" else "") ++ toString (hundredths n s / 100)
        ++ "." ++ twoDigits (hundredths n s % 100))

/-! ## Finance records and materials -/

/-- A stored Finance document (`models/Finance.js`).  Amounts are Numbers; `none` is a
missing value; the line items and the dates are left out. -/
structure Finance where
  _id : ObjectId
  project : ObjectId
  totalInvested : Option Num
  ableToBill : Option Num
  updatedBy : Option ObjectId
  deriving DecidableEq, Repr

/-- The values of `enum` on the path `type` of `models/Material.js`. -/
def materialTypeEnum : List String := ["Available", "Required"]

/-- The values of `enum` on the path `status` of `models/Material.js`. -/
def materialStatusEnum : List String := ["Pending", "Ordered", "Delivered", "In Stock"]

/-- The values of `enum` on the path `priority` of `models/Material.js`. -/
def materialPriorityEnum : List String := ["Low", "Medium", "High"]

/-- A stored Material document (`models/Material.js`); the dates are left out, the other
paths (`location`, `neededBy`, `reportedBy`) are in `extra`. -/
structure Material where
  _id : ObjectId
  project : ObjectId
  name : String
  quantity : String
  type : String
  status : String
  priority : String
  extra : Fields
  deriving DecidableEq, Repr

/-- The body of a material request.  `none` is an absent key; the text keys carry strings
when present. -/
structure MaterialBody where
  project : Option JVal := none
  name : Option String := none
  quantity : Option String := none
  type : Option String := none
  status : Option String := none
  priority : Option String := none
  extra : Fields := []
  deriving DecidableEq, Repr

/-! ## The database -/

/-- The collections read and written by the handlers. -/
structure Db where
  manpower : List Manpower := []
  projects : List Project := []
  progress : List Progress := []
  finance : List Finance := []
  materials : List Material := []
  deriving DecidableEq, Repr

/-- Why a write was refused by Mongoose or MongoDB. -/
inductive WriteError where
  | validation
  | duplicateKey
  deriving DecidableEq, Repr

/-- The query `Manpower.findById`. -/
def Manpower.findById (coll : List Manpower) (id : ObjectId) : Option Manpower :=
  coll.find? (fun d => d._id == id)

/-- The query `Manpower.findOne({ employeeId })`. -/
def Manpower.findOne (coll : List Manpower) (employeeId : String) : Option Manpower :=
  coll.find? (fun d => d.employeeId == employeeId)

/-- The query `Project.findById`. -/
def Project.findById (coll : List Project) (id : ObjectId) : Option Project :=
  coll.find? (fun d => d._id == id)

/-- The query `Project.findOne({ projectId })`. -/
def Project.findOne (coll : List Project) (projectId : String) : Option Project :=
  coll.find? (fun d => d.projectId == projectId)

/-- Replaces the first document with the given id. -/
def replaceManpower (id : ObjectId) (doc : Manpower) : List Manpower → List Manpower
  | [] => []
  | d :: ds => if d._id == id then doc :: ds else d :: replaceManpower id doc ds

/-- A text path with `required` and `trim: true`: the trimmed value, refused when empty. -/
def castRequiredText (s : String) : Option String :=
  if jsTrim s == "" then none else some (jsTrim s)

/-- An update after casting against `ManpowerSchema`: for each path, `none` when the
update does not mention it. -/
structure ManpowerSet where
  employeeId : Option String
  name : Option String
  role : Option String
  assignedProject : Option (Option ObjectId)
  isAvailable : Option (Option Bool)
  extra : Fields
  deriving DecidableEq, Repr

/-- Lifts a cast over an optional key: an absent key is left out of the update. -/
def castKey {α β : Type} (cast : α → Option β) : Option α → Option (Option β)
  | none => some none
  | some v => (cast v).map some

/-- How Mongoose reads the object given to `findByIdAndUpdate`: a key that is no operator
stands for the same key under `$set`, and is written into the `$set` object of the update,
over what that object holds under the key. -/
def setSugar (upd : ManpowerBody) : ManpowerPaths :=
  match upd.setOperator with
  | none =>
    { employeeId := upd.employeeId, name := upd.name, role := upd.role,
      assignedProject := upd.assignedProject, isAvailable := upd.isAvailable,
      extra := upd.extra }
  | some set =>
    { employeeId := upd.employeeId.orElse (fun _ => set.employeeId)
      name := upd.name.orElse (fun _ => set.name)
      role := upd.role.orElse (fun _ => set.role)
      assignedProject := upd.assignedProject.orElse (fun _ => set.assignedProject)
      isAvailable := upd.isAvailable.orElse (fun _ => set.isAvailable)
      extra := mergeFields upd.extra set.extra }

/-- Casting and validation of an update against `ManpowerSchema` (`runValidators: true`),
path by path of its `$set`; `none` when a path is refused. -/
def castManpowerUpdate (c : String → JVal → PathCast) (upd : ManpowerBody) : Option ManpowerSet :=
  let upd := setSugar upd
  match castKey castRequiredText upd.employeeId, castKey castRequiredText upd.name,
      castKey castRequiredText upd.role, castKey castObjectId upd.assignedProject,
      castKey castBoolean upd.isAvailable, castFields c upd.extra with
  | some employeeId, some name, some role, some assignedProject, some isAvailable, some extra =>
    some { employeeId := employeeId, name := name, role := role,
           assignedProject := assignedProject, isAvailable := isAvailable, extra := extra }
  | _, _, _, _, _, _ => none

/-- The document after `$set` of a cast update. -/
def applyManpowerSet (doc : Manpower) (u : ManpowerSet) : Manpower :=
  { _id := doc._id
    employeeId := u.employeeId.getD doc.employeeId
    name := u.name.getD doc.name
    role := u.role.getD doc.role
    assignedProject := u.assignedProject.getD doc.assignedProject
    isAvailable := u.isAvailable.getD doc.isAvailable
    extra := mergeFields u.extra doc.extra }

/-- The call `Manpower.findByIdAndUpdate(id, update, { new: true, runValidators: true })`:
the update is cast, the document is looked up, the unique index on `employeeId` is
checked, and the new document is returned (`none` inside when no document has the id). -/
def Manpower.findByIdAndUpdate (c : String → JVal → PathCast) (coll : List Manpower)
    (id : ObjectId) (upd : ManpowerBody) : Except WriteError (Option Manpower × List Manpower) :=
  match castManpowerUpdate c upd with
  | none => .error .validation
  | some u =>
    match Manpower.findById coll id with
    | none => .ok (none, coll)
    | some doc =>
      let doc1 := applyManpowerSet doc u
      if u.employeeId.isSome && coll.any (fun d => d._id != id && d.employeeId == doc1.employeeId) then
        .error .duplicateKey
      else
        .ok (some doc1, replaceManpower id doc1 coll)

/-- The handler `router.put('/:id')` of `routes/manpower.js` (UpdateManpower), after the
`protect` and `authorize('admin')` middleware. -/
def manpowerPut (c : String → JVal → PathCast) (db : Db) (id : ObjectId) (body : ManpowerBody) :
    Response Manpower × Db :=
  match Manpower.findById db.manpower id with
  | none => ({ status := 404, success := false, message := some "Manpower not found" }, db)
  | some manpower =>
    match updateData manpower body with
    | none => ({ status := 500, success := false, message := some "Server error" }, db)
    | some updateData =>
      match Manpower.findByIdAndUpdate c db.manpower id updateData with
      | .error _ => ({ status := 500, success := false, message := some "Server error" }, db)
      | .ok (manpower, coll) =>
        ({ status := 200, success := true, data := manpower }, { db with manpower := coll })

/-- The call `Manpower.create(doc)`: casting and validation against the schema, the
`pre('save')` hook, then the insert under the unique indexes.  `newId` is the `_id` given
to the new document. -/
def Manpower.create (c : String → JVal → PathCast) (coll : List Manpower) (newId : ObjectId)
    (body : ManpowerBody) : Except WriteError (Manpower × List Manpower) :=
  match castRequiredText (body.employeeId.getD ""), castRequiredText (body.name.getD ""),
      castRequiredText (body.role.getD ""), castKey castObjectId body.assignedProject,
      castKey castBoolean body.isAvailable, castFields c body.extra with
  | some employeeId, some name, some role, some assignedProject, some isAvailable, some extra =>
    let doc : Manpower :=
      { _id := newId, employeeId := employeeId, name := name, role := role,
        assignedProject := assignedProject.getD none,
        isAvailable := isAvailable.getD (some true),
        extra := extra }
    let doc := preSave doc
    if coll.any (fun d => d._id == newId || d.employeeId == doc.employeeId) then
      .error .duplicateKey
    else
      .ok (doc, coll ++ [doc])
  | _, _, _, _, _, _ => .error .validation

/-- The assignment of one key in an object literal after a spread. -/
def setKey (k : String) (v : JVal) (fs : Fields) : Fields :=
  fs.filter (fun kv => kv.1 != k) ++ [(k, v)]

/-- The validation chain of `router.post('/')` in `routes/manpower.js`: each
`body(key).trim().notEmpty()` reports its message when the trimmed value is empty. -/
def manpowerPostErrors (body : ManpowerBody) : List String :=
  (if jsTrim (body.employeeId.getD "") == "" then ["Employee ID is required"] else []) ++
  (if jsTrim (body.name.getD "") == "" then ["Name is required"] else []) ++
  (if jsTrim (body.role.getD "") == "" then ["Role is required"] else [])

/-- The handler `router.post('/')` of `routes/manpower.js` (CreateManpower), after the
`protect` and `authorize('admin')` middleware; `userId` is `req.user.id`. -/
def manpowerPost (c : String → JVal → PathCast) (db : Db) (newId userId : ObjectId)
    (body : ManpowerBody) : Response Manpower × Db :=
  let errors := manpowerPostErrors body
  if !errors.isEmpty then
    ({ status := 400, success := false, errors := errors }, db)
  else
    -- the trim() sanitizers have written the trimmed values back to req.body
    let employeeId := jsTrim (body.employeeId.getD "")
    let body := { body with employeeId := some employeeId,
                            name := some (jsTrim (body.name.getD "")),
                            role := some (jsTrim (body.role.getD "")) }
    -- Check if employee ID exists
    match Manpower.findOne db.manpower employeeId with
    | some _ =>
      ({ status := 400, success := false, message := some "Employee ID already exists" }, db)
    | none =>
      match Manpower.create c db.manpower newId
          { body with extra := setKey "createdBy" (.str userId) body.extra } with
      | .ok (manpower, coll) =>
        ({ status := 201, success := true, data := some manpower }, { db with manpower := coll })
      | .error .duplicateKey =>
        ({ status := 400, success := false, message := some "Employee ID already exists" }, db)
      | .error .validation =>
        ({ status := 500, success := false, message := some "Server error" }, db)

/-- Mongoose's cast of one entry of a `timeline` array to a subdocument: `title` is
required and trimmed, `description` is trimmed, `date` is required and its cast is left to
the schema parameter under the path name `timeline.date`, `icon` has the default
`checkmark-circle`; other keys are not kept.  `none` when the entry is refused. -/
def castMilestone (c : String → JVal → PathCast) (item : TimelineItem) : Option StoredMilestone :=
  match castRequiredText (item.title.getD ""), item.date with
  | some title, some d =>
    match c "timeline.date" d with
    | .store w =>
      some { title := title, description := item.description.map jsTrim, date := w,
             icon := item.icon.getD "checkmark-circle" }
    | _ => none
  | _, _ => none

/-- The cast of a whole `timeline` array: one refused entry refuses the array. -/
def castTimeline (c : String → JVal → PathCast) : List TimelineItem → Option (List StoredMilestone)
  | [] => some []
  | item :: rest =>
    match castMilestone c item, castTimeline c rest with
    | some m, some ms => some (m :: ms)
    | _, _ => none

/-- The call `Project.create(doc)`: casting and validation against `ProjectSchema`
(`uppercase: true` and `match` on `projectId`, `enum` on `status`, `min` and `max` on
`progress`, the entries of `timeline`, the defaults), then the insert under the unique
indexes. -/
def Project.create (c : String → JVal → PathCast) (coll : List Project) (newId : ObjectId)
    (body : ProjectBody) : Except WriteError (Project × List Project) :=
  let projectId := toUpperCase (body.projectId.getD "")
  let status := body.status.getD "Planning"
  let progress := body.progress.getD 0
  match castRequiredText (body.name.getD ""), castRequiredText (body.location.getD ""),
      castFields c body.extra, castTimeline c (body.timeline.getD []) with
  | some name, some location, some extra, some timeline =>
    if !matchesProjectIdPattern projectId || !projectStatusEnum.contains status
        || progress < 0 || 100 < progress then
      .error .validation
    else
      let doc : Project :=
        { _id := newId, projectId := projectId, name := name, location := location,
          status := status, progress := progress, extra := extra, timeline := timeline }
      if coll.any (fun d => d._id == newId || d.projectId == doc.projectId) then
        .error .duplicateKey
      else
        .ok (doc, coll ++ [doc])
  | _, _, _, _ => .error .validation

/-- The validation chain of `router.post('/')` in `routes/projects.js`:
`body('projectId').matches(...)` tests the value as it was sent, the two
`trim().notEmpty()` chains test the trimmed values. -/
def projectsPostErrors (body : ProjectBody) : List String :=
  (if matchesProjectIdPattern (body.projectId.getD "") then []
    else ["Project ID must be in format: XXX-000"]) ++
  (if jsTrim (body.name.getD "") == "" then ["Project name is required"] else []) ++
  (if jsTrim (body.location.getD "") == "" then ["Location is required"] else [])

/-- The handler `router.post('/')` of `routes/projects.js` (CreateProject), after the
`protect` and `authorize('admin')` middleware; `userId` is `req.user.id`. -/
def projectsPost (c : String → JVal → PathCast) (db : Db) (newId userId : ObjectId)
    (body : ProjectBody) : Response Project × Db :=
  let errors := projectsPostErrors body
  if !errors.isEmpty then
    ({ status := 400, success := false, errors := errors }, db)
  else
    -- the trim() sanitizers have written the trimmed values back to req.body
    let body := { body with name := some (jsTrim (body.name.getD "")),
                            location := some (jsTrim (body.location.getD "")) }
    -- Check if project ID exists
    let projectIdUpper := toUpperCase (body.projectId.getD "")
    match Project.findOne db.projects projectIdUpper with
    | some _ =>
      ({ status := 400, success := false, message := some "Project ID already exists" }, db)
    | none =>
      match Project.create c db.projects newId
          { body with projectId := some projectIdUpper,
                      extra := setKey "createdBy" (.str userId) body.extra } with
      | .ok (project, coll) =>
        ({ status := 201, success := true, data := some project }, { db with projects := coll })
      | .error .duplicateKey =>
        ({ status := 400, success := false, message := some "Project ID already exists" }, db)
      | .error .validation =>
        ({ status := 500, success := false, message := some "Server error" }, db)

/-! ## Sample data -/

/-- The worker `MP-03` of `scripts/seed.js`, who is on no project. -/
def seedWorker : Manpower :=
  { _id := "65a000000000000000000003", employeeId := "MP-03", name := "Arun Kumar",
    role := "Electricians", assignedProject := none, isAvailable := some true,
    extra := [("phone", .str "9876543213"), ("experience", .str "4+ years")] }

/-- A database holding that one worker and no project. -/
def seedDb : Db := { manpower := [seedWorker], projects := [] }

/-- A well-formed ObjectId that is the `_id` of no document of `seedDb`. -/
def strayId : ObjectId := "65a0000000000000000000f1"

/-- The body `{"$set": {"assignedProject": "65a0000000000000000000f1"}}`. -/
def setAssignBody : ManpowerBody :=
  { setOperator := some { assignedProject := some (.str strayId) } }

/-- The body of the seed entry `MP-01`: a project is given and `isAvailable: true` is sent. -/
def seedAssignedBody : ManpowerBody :=
  { employeeId := some "MP-01", name := some "Rahul Verma", role := some "Masons",
    assignedProject := some (.str strayId), isAvailable := some (.bool true),
    extra := [("phone", .str "9876543211"), ("experience", .str "5+ years")] }

/-- A create body without `assignedProject` that sends `isAvailable: false`. -/
def unassignedBody : ManpowerBody :=
  { employeeId := some "MP-04", name := some "Neha Singh", role := some "Carpenters",
    isAvailable := some (.bool false) }

/-- The database after the first two steps of the assignment round trip: the worker of
`unassignedBody` is created, then assigned to a project. -/
def roundTripDb : Db :=
  (manpowerPut storeAsSent
    (manpowerPost storeAsSent {} strayId "65a0000000000000000000aa" unassignedBody).2
    strayId { assignedProject := some (.str "65a0000000000000000000b1") }).2

/-- The project `PJT-001` of `scripts/seed.js`. -/
def seedProject : Project :=
  { _id := "65a0000000000000000000b1", projectId := "PJT-001", name := "Site A - Foundation",
    location := "Block A, Zakir Nagar", status := "In Progress", progress := 45, extra := [] }

/-- A database holding that project and the seed worker. -/
def seedProjectDb : Db := { manpower := [seedWorker], projects := [seedProject] }

/-- A create body for a project with the given identifier. -/
def projectBody (projectId : String) : ProjectBody :=
  { projectId := some projectId, name := some "Site D - Survey",
    location := some "Block D, Zakir Nagar" }

/-! ## Progress projection -/

/-- The query `Progress.findById`. -/
def Progress.findById (coll : List Progress) (id : ObjectId) : Option Progress :=
  coll.find? (fun d => d._id == id)

/-- Replaces the first project with the given id. -/
def replaceProject (id : ObjectId) (doc : Project) : List Project → List Project
  | [] => []
  | d :: ds => if d._id == id then doc :: ds else d :: replaceProject id doc ds

/-- Replaces the first progress report with the given id. -/
def replaceProgress (id : ObjectId) (doc : Progress) : List Progress → List Progress
  | [] => []
  | d :: ds => if d._id == id then doc :: ds else d :: replaceProgress id doc ds

/-- The query `Project.findById(value)` on a value of the request: the value is cast to
an ObjectId first, and a value that does not cast makes the query throw. -/
def Project.findByIdValue (coll : List Project) (v : JVal) :
    Except WriteError (Option Project) :=
  match castObjectId v with
  | none => .error .validation
  | some none => .ok none
  | some (some i) => .ok (Project.findById coll i)

/-- The call `project.save()` on a document loaded from the collection: validation of
`status` (`enum`) and `progress` (`min`, `max`) against `ProjectSchema`, then the write.
The `pre('save')` hook only sets the time stamp. -/
def Project.save (coll : List Project) (project : Project) : Except WriteError (List Project) :=
  if !projectStatusEnum.contains project.status || project.progress < 0
      || 100 < project.progress then
    .error .validation
  else
    .ok (replaceProject project._id project coll)

/-- The validator `notEmpty()`: the value converted to a string is not the empty string
(an absent key and `null` convert to the empty string). -/
def notEmpty : Option JVal → Bool
  | none => false
  | some .null => false
  | some (.str s) => s != ""
  | some _ => true

/-- The validation chain of `router.post('/')` in `routes/progress.js`. -/
def progressPostErrors (body : ProgressBody) : List String :=
  (if notEmpty body.project then [] else ["Project ID is required"]) ++
  (match body.workCompleted with
    | some w => if 0 ≤ w ∧ w ≤ 100 then [] else ["Work completed must be between 0 and 100"]
    | none => ["Work completed must be between 0 and 100"]) ++
  (if progressStatusEnum.contains (body.status.getD "") then []
    else ["Status must be Started or Not Started"])

/-- The call `Progress.create(doc)`: casting and validation against `ProgressSchema`
(`required` on `project`, `reportedBy`, `workCompleted` and `status`, `min` and `max` on
`workCompleted`, `enum` on `status`), then the insert. -/
def Progress.create (c : String → JVal → PathCast) (coll : List Progress) (newId : ObjectId)
    (body : ProgressBody) : Except WriteError (Progress × List Progress) :=
  match castKey castObjectId body.project, castKey castObjectId body.reportedBy,
      body.workCompleted, body.status, castFields c body.extra with
  | some (some (some project)), some (some (some reportedBy)), some workCompleted, some status,
      some extra =>
    if workCompleted < 0 || 100 < workCompleted || !progressStatusEnum.contains status then
      .error .validation
    else
      let doc : Progress :=
        { _id := newId, project := project, reportedBy := reportedBy,
          workCompleted := workCompleted, status := status, extra := extra }
      if coll.any (fun d => d._id == newId) then
        .error .duplicateKey
      else
        .ok (doc, coll ++ [doc])
  | _, _, _, _, _ => .error .validation

/-- The handler `router.post('/')` of `routes/progress.js` (SubmitProgress), after the
`protect` middleware; `user` is `req.user`. -/
def progressPost (c : String → JVal → PathCast) (db : Db) (newId : ObjectId) (user : User)
    (body : ProgressBody) : Response Progress × Db :=
  let errors := progressPostErrors body
  if !errors.isEmpty then
    ({ status := 400, success := false, errors := errors }, db)
  else
    -- Check if project exists (the key is present: validation has passed)
    match Project.findByIdValue db.projects (body.project.getD .null) with
    | .error _ => ({ status := 500, success := false, message := some "Server error" }, db)
    | .ok none => ({ status := 404, success := false, message := some "Project not found" }, db)
    | .ok (some project) =>
      match Progress.create c db.progress newId
          { body with reportedBy := some (.str user.id) } with
      | .error _ => ({ status := 500, success := false, message := some "Server error" }, db)
      | .ok (progress, coll) =>
        let db1 : Db := { db with progress := coll }
        -- Update project progress
        match body.workCompleted with
        | none => ({ status := 201, success := true, data := some progress }, db1)
        | some workCompleted =>
          let project := { project with progress := workCompleted }
          let project :=
            if workCompleted > 0 then { project with status := "In Progress" } else project
          match Project.save db1.projects project with
          | .error _ =>
            ({ status := 500, success := false, message := some "Server error" }, db1)
          | .ok projects =>
            ({ status := 201, success := true, data := some progress },
             { db1 with projects := projects })

/-- An update after casting against `ProgressSchema`: for each path, `none` when the
update does not mention it. -/
structure ProgressSet where
  project : Option ObjectId
  reportedBy : Option ObjectId
  workCompleted : Option Int
  status : Option String
  extra : Fields
  deriving DecidableEq, Repr

/-- The cast of a required ObjectId path in an update: an absent key is left out, `null`
and a value that does not cast are refused. -/
def castRequiredRef : Option JVal → Option (Option ObjectId)
  | none => some none
  | some v =>
    match castObjectId v with
    | some (some i) => some (some i)
    | _ => none

/-- Casting and validation of an update against `ProgressSchema` (`runValidators: true`);
`none` when a path is refused. -/
def castProgressUpdate (c : String → JVal → PathCast) (upd : ProgressBody) : Option ProgressSet :=
  match castRequiredRef upd.project, castRequiredRef upd.reportedBy, castFields c upd.extra with
  | some project, some reportedBy, some extra =>
    if (match upd.workCompleted with
        | some w => decide (w < 0) || decide (100 < w)
        | none => false)
      || (match upd.status with
        | some s => !progressStatusEnum.contains s
        | none => false) then
      none
    else
      some { project := project, reportedBy := reportedBy, workCompleted := upd.workCompleted,
             status := upd.status, extra := extra }
  | _, _, _ => none

/-- The report after `$set` of a cast update. -/
def applyProgressSet (doc : Progress) (u : ProgressSet) : Progress :=
  { _id := doc._id
    project := u.project.getD doc.project
    reportedBy := u.reportedBy.getD doc.reportedBy
    workCompleted := u.workCompleted.getD doc.workCompleted
    status := u.status.getD doc.status
    extra := mergeFields u.extra doc.extra }

/-- The call `Progress.findByIdAndUpdate(id, update, { new: true, runValidators: true })`
(`none` inside when no report has the id). -/
def Progress.findByIdAndUpdate (c : String → JVal → PathCast) (coll : List Progress)
    (id : ObjectId) (upd : ProgressBody) : Except WriteError (Option Progress × List Progress) :=
  match castProgressUpdate c upd with
  | none => .error .validation
  | some u =>
    match Progress.findById coll id with
    | none => .ok (none, coll)
    | some doc =>
      let doc1 := applyProgressSet doc u
      .ok (some doc1, replaceProgress id doc1 coll)

/-- The handler `router.put('/:id')` of `routes/progress.js` (the update of a report), after
the `protect` middleware; `user` is `req.user`. -/
def progressPut (c : String → JVal → PathCast) (db : Db) (id : ObjectId) (user : User)
    (body : ProgressBody) : Response Progress × Db :=
  match Progress.findById db.progress id with
  | none =>
    ({ status := 404, success := false, message := some "Progress report not found" }, db)
  | some progress =>
    -- Check if user is the reporter or admin
    if progress.reportedBy != user.id && user.role != "admin" then
      ({ status := 403, success := false,
         message := some "Not authorized to update this report" }, db)
    else
      match Progress.findByIdAndUpdate c db.progress id body with
      | .error _ => ({ status := 500, success := false, message := some "Server error" }, db)
      | .ok (progress, coll) =>
        let db1 : Db := { db with progress := coll }
        -- Update project progress if workCompleted changed
        match body.workCompleted with
        | none => ({ status := 200, success := true, data := progress }, db1)
        | some workCompleted =>
          match progress with
          | none => ({ status := 500, success := false, message := some "Server error" }, db1)
          | some report =>
            match Project.findById db1.projects report.project with
            | none => ({ status := 200, success := true, data := progress }, db1)
            | some project =>
              let project := { project with progress := workCompleted }
              match Project.save db1.projects project with
              | .error _ =>
                ({ status := 500, success := false, message := some "Server error" }, db1)
              | .ok projects =>
                ({ status := 200, success := true, data := progress },
                 { db1 with projects := projects })

/-! ## Project update -/

/-- An update after casting against `ProjectSchema`: for each path, `none` when the update
does not mention it. -/
structure ProjectSet where
  projectId : Option String
  name : Option String
  location : Option String
  status : Option String
  progress : Option Int
  extra : Fields
  timeline : Option (List StoredMilestone) := none
  incProgress : Option Int := none
  deriving DecidableEq, Repr

/-- Casting and validation of an update against `ProjectSchema` (`runValidators: true`):
`uppercase` and `match` on `projectId`, `trim` and `required` on the texts, `enum` on
`status`, `min` and `max` on `progress`, the entries of `timeline`; `none` when a path is
refused.  The validators run on the paths that are set; the amount of a `$inc` is cast to
a number and not validated.  An update that sets `progress` and increments it is refused
by MongoDB as a conflict. -/
def castProjectUpdate (c : String → JVal → PathCast) (upd : ProjectBody) : Option ProjectSet :=
  match castKey castRequiredText upd.name, castKey castRequiredText upd.location,
      castFields c upd.extra, castKey (castTimeline c) upd.timeline with
  | some name, some location, some extra, some timeline =>
    if (match upd.projectId with
        | some s => !matchesProjectIdPattern (toUpperCase s)
        | none => false)
      || (match upd.status with
        | some s => !projectStatusEnum.contains s
        | none => false)
      || (match upd.progress with
        | some n => decide (n < 0) || decide (100 < n)
        | none => false)
      || (upd.progress.isSome && upd.incProgress.isSome) then
      none
    else
      some { projectId := upd.projectId.map toUpperCase, name := name, location := location,
             status := upd.status, progress := upd.progress, extra := extra,
             timeline := timeline, incProgress := upd.incProgress }
  | _, _, _, _ => none

/-- The project after `$set` and `$inc` of a cast update; a `timeline` in the update
replaces the stored array as a whole. -/
def applyProjectSet (doc : Project) (u : ProjectSet) : Project :=
  { _id := doc._id
    projectId := u.projectId.getD doc.projectId
    name := u.name.getD doc.name
    location := u.location.getD doc.location
    status := u.status.getD doc.status
    progress :=
      match u.incProgress with
      | some n => doc.progress + n
      | none => u.progress.getD doc.progress
    extra := mergeFields u.extra doc.extra
    timeline := u.timeline.getD doc.timeline }

/-- The call `Project.findByIdAndUpdate(id, update, { new: true, runValidators: true })`:
the update is cast, the document is looked up, the unique index on `projectId` is checked
(`none` inside when no project has the id). -/
def Project.findByIdAndUpdate (c : String → JVal → PathCast) (coll : List Project)
    (id : ObjectId) (upd : ProjectBody) : Except WriteError (Option Project × List Project) :=
  match castProjectUpdate c upd with
  | none => .error .validation
  | some u =>
    match Project.findById coll id with
    | none => .ok (none, coll)
    | some doc =>
      let doc1 := applyProjectSet doc u
      if u.projectId.isSome && coll.any (fun d => d._id != id && d.projectId == doc1.projectId) then
        .error .duplicateKey
      else
        .ok (some doc1, replaceProject id doc1 coll)

/-- The expression `x || d` on a key that carries a string when present. -/
def orText (x : Option String) (d : String) : String :=
  match x with
  | some s => if s != "" then s else d
  | none => d

/-- The function mapped over `updateData.timeline` in `router.put('/:id')` of
`routes/projects.js`: `cleanedItem` has the `title`, the `description` or `''`, the `icon` or
`'checkmark-circle'`, and `new Date(item.date)` when `item.date` is truthy; nothing else
of the entry is copied. -/
def cleanedItem (item : TimelineItem) : TimelineItem :=
  { title := item.title
    description := some (orText item.description "")
    icon := some (orText item.icon "checkmark-circle")
    date := if jsTruthy item.date then item.date else none
    extra := [] }

/-- The block of `router.put('/:id')` in `routes/projects.js` that derives `updateData` from
`req.body`: a `timeline` array is rebuilt entry by entry.  (The conversion of the date
keys `startDate`, `expectedCompletionDate` and `actualCompletionDate` acts on paths kept in
`extra`.) -/
def projectUpdateData (body : ProjectBody) : ProjectBody :=
  let updateData := body
  match updateData.timeline with
  | some timeline => { updateData with timeline := some (timeline.map cleanedItem) }
  | none => updateData

/-- The handler `router.put('/:id')` of `routes/projects.js` (UpdateProject), after the
`protect` and `authorize('admin')` middleware.  The message of a refused update is the one
of the Mongoose error and is left out. -/
def projectsPut (c : String → JVal → PathCast) (db : Db) (id : ObjectId) (body : ProjectBody) :
    Response Project × Db :=
  match Project.findById db.projects id with
  | none => ({ status := 404, success := false, message := some "Project not found" }, db)
  | some _ =>
    let updateData := projectUpdateData body
    match Project.findByIdAndUpdate c db.projects id updateData with
    | .error _ => ({ status := 500, success := false }, db)
    | .ok (project, coll) =>
      ({ status := 200, success := true, data := project }, { db with projects := coll })

/-! ## Client-side validation -/

/-- The property `length` of a JavaScript string: the number of UTF-16 code units. -/
def jsLength (s : String) : Nat :=
  (s.toList.map (fun ch => if 65536 ≤ ch.toNat then 2 else 1)).sum

/-- The function `validateEmployeeId` of `frontend/src/utils/validation.js`: the error
message, or the empty string when the identifier is accepted. -/
def validateEmployeeId (employeeId : String) : String :=
  if employeeId == "" || jsTrim employeeId == "" then
    "Employee ID is required"
  else if jsLength (jsTrim employeeId) < 3 then
    "Employee ID must be at least 3 characters"
  else
    ""

/-! ## Sample data for the progress projection -/

/-- The field user of `scripts/seed.js`, as `req.user`. -/
def seedUser : User := { id := "65a0000000000000000000c2", role := "user" }

/-- Another user without the admin role. -/
def otherUser : User := { id := "65a0000000000000000000c3", role := "user" }

/-- A project that is being planned and has no progress yet. -/
def planningProject : Project :=
  { _id := "65a0000000000000000000b2", projectId := "PJT-002", name := "Site B - Planning",
    location := "Block B, Zakir Nagar", status := "Planning", progress := 0, extra := [] }

/-- A project that is on hold with some progress. -/
def onHoldProject : Project :=
  { _id := "65a0000000000000000000b3", projectId := "PJT-003", name := "Site C - Finishing",
    location := "Block C, Zakir Nagar", status := "On Hold", progress := 85, extra := [] }

/-- A report of `seedUser` on the planning project. -/
def planningReport : Progress :=
  { _id := "65a0000000000000000000d1", project := planningProject._id,
    reportedBy := seedUser.id, workCompleted := 0, status := "Not Started", extra := [] }

/-- A report of `seedUser` whose project is not in the database any more. -/
def orphanReport : Progress :=
  { _id := "65a0000000000000000000d2", project := strayId,
    reportedBy := seedUser.id, workCompleted := 20, status := "Started", extra := [] }

/-- A database with the planning and on-hold projects and the two reports. -/
def progressDb : Db :=
  { projects := [planningProject, onHoldProject], progress := [planningReport, orphanReport] }

/-- A report body for the given project and percentage. -/
def reportBody (project : ObjectId) (workCompleted : Int) : ProgressBody :=
  { project := some (.str project), workCompleted := some workCompleted,
    status := some "Started" }

/-- The database after `seedUser` has reported 45 percent on the planning project. -/
def reportedDb : Db :=
  (progressPost storeAsSent progressDb "65a0000000000000000000d8" seedUser
    (reportBody planningProject._id 45)).2

/-- Every stored project has its `progress` between 0 and 100. -/
def progressInRange (db : Db) : Bool :=
  db.projects.all (fun p => decide (0 ≤ p.progress) && decide (p.progress ≤ 100))

/-! ## Finance summary -/

/-- The expression `x || 0` on an amount that may be missing: a missing amount, a zero
and `NaN` are falsy. -/
def orZero (x : Option Num) : Num :=
  match x with
  | some (.fin a n s) => if n = 0 then 0 else .fin a n s
  | some (.inf a) => .inf a
  | some .nan => 0
  | none => 0

/-- The claim's reading of the efficiency of two whole amounts: the number of hundredths
nearest to the exact quotient `ableToBill * 100 / totalInvested`, the larger one at a
tie. -/
def exactHundredths (ableToBill totalInvested : Nat) : Nat :=
  (200 * (ableToBill * 100) + totalInvested) / (2 * totalInvested)

/-- The object `summary` of the answer of `GET /api/finance/summary`. -/
structure FinanceSummary where
  totalInvested : Num
  ableToBill : Num
  pending : Num
  efficiency : Option String
  projectCount : Nat
  deriving DecidableEq, Repr

/-- The answer of `GET /api/finance/summary`. -/
structure SummaryResponse where
  success : Bool
  summary : FinanceSummary
  data : List Finance
  deriving DecidableEq, Repr

/-- The handler `router.get('/summary')` of `routes/finance.js` (GetFinanceSummary), after
the `protect` and `authorize('admin')` middleware. -/
def financeSummary (db : Db) : SummaryResponse :=
  let finances := db.finance
  let totalInvested := finances.foldl (fun sum f => sum.add (orZero f.totalInvested)) 0
  let totalAbleToBill := finances.foldl (fun sum f => sum.add (orZero f.ableToBill)) 0
  let pending := totalInvested.sub totalAbleToBill
  let efficiency : Num :=
    if totalInvested.isPositive then (totalAbleToBill.div totalInvested).mul 100 else 0
  { success := true
    summary :=
      { totalInvested := totalInvested
        ableToBill := totalAbleToBill
        pending := pending
        efficiency := toFixed2 efficiency
        projectCount := finances.length }
    data := finances }

/-- The call `Finance.create({ project, updatedBy })`: the two ids are cast, `project` is
required, the amounts take their default 0. -/
def Finance.create (coll : List Finance) (newId : ObjectId) (project updatedBy : String) :
    Except WriteError (Finance × List Finance) :=
  match castObjectId (.str project), castObjectId (.str updatedBy) with
  | some (some project), some updatedBy =>
    let doc : Finance :=
      { _id := newId, project := project, totalInvested := some 0, ableToBill := some 0,
        updatedBy := updatedBy }
    if coll.any (fun d => d._id == newId) then
      .error .duplicateKey
    else
      .ok (doc, coll ++ [doc])
  | _, _ => .error .validation

/-- The handler `router.get('/project/:projectId')` of `routes/finance.js`
(GetOrCreateProjectFinance), after the `protect` middleware; `projectId` is
`req.params.projectId`, which the query casts to an ObjectId. -/
def financeGetProject (db : Db) (newId : ObjectId) (user : User) (projectId : String) :
    Response Finance × Db :=
  match castObjectId (.str projectId) with
  | none => ({ status := 500, success := false, message := some "Server error" }, db)
  | some ref =>
    match db.finance.find? (fun f => some f.project == ref) with
    | some finance => ({ status := 200, success := true, data := some finance }, db)
    | none =>
      -- Create default finance record if doesn't exist
      match Finance.create db.finance newId projectId user.id with
      | .error _ => ({ status := 500, success := false, message := some "Server error" }, db)
      | .ok (finance, coll) =>
        ({ status := 200, success := true, data := some finance }, { db with finance := coll })

/-! ## Materials -/

/-- The validation chain of `router.post('/')` in `routes/materials.js`. -/
def materialsPostErrors (body : MaterialBody) : List String :=
  (if notEmpty body.project then [] else ["Project ID is required"]) ++
  (if jsTrim (body.name.getD "") == "" then ["Material name is required"] else []) ++
  (if jsTrim (body.quantity.getD "") == "" then ["Quantity is required"] else []) ++
  (if materialTypeEnum.contains (body.type.getD "") then []
    else ["Type must be Available or Required"])

/-- The call `Material.create(doc)`: casting and validation against `MaterialSchema`
(`required` on `project`, `name`, `quantity` and `type`, the three `enum`s, the defaults
`Medium` and `Pending`), then the insert. -/
def Material.create (c : String → JVal → PathCast) (coll : List Material) (newId : ObjectId)
    (body : MaterialBody) : Except WriteError (Material × List Material) :=
  let status := body.status.getD "Pending"
  let priority := body.priority.getD "Medium"
  match castKey castObjectId body.project, castRequiredText (body.name.getD ""),
      castRequiredText (body.quantity.getD ""), body.type, castFields c body.extra with
  | some (some (some project)), some name, some quantity, some type, some extra =>
    if !materialTypeEnum.contains type || !materialStatusEnum.contains status
        || !materialPriorityEnum.contains priority then
      .error .validation
    else
      let doc : Material :=
        { _id := newId, project := project, name := name, quantity := quantity, type := type,
          status := status, priority := priority, extra := extra }
      if coll.any (fun d => d._id == newId) then
        .error .duplicateKey
      else
        .ok (doc, coll ++ [doc])
  | _, _, _, _, _ => .error .validation

/-- The handler `router.post('/')` of `routes/materials.js` (CreateMaterial), after the
`protect` middleware; `user` is `req.user`. -/
def materialsPost (c : String → JVal → PathCast) (db : Db) (newId : ObjectId) (user : User)
    (body : MaterialBody) : Response Material × Db :=
  let errors := materialsPostErrors body
  if !errors.isEmpty then
    ({ status := 400, success := false, errors := errors }, db)
  else
    -- the trim() sanitizers have written the trimmed values back to req.body
    let body := { body with name := some (jsTrim (body.name.getD "")),
                            quantity := some (jsTrim (body.quantity.getD "")) }
    match Material.create c db.materials newId
        { body with extra := setKey "reportedBy" (.str user.id) body.extra } with
    | .error _ => ({ status := 500, success := false, message := some "Server error" }, db)
    | .ok (material, coll) =>
      ({ status := 201, success := true, data := some material }, { db with materials := coll })

/-- The query `Material.findById`. -/
def Material.findById (coll : List Material) (id : ObjectId) : Option Material :=
  coll.find? (fun d => d._id == id)

/-- Replaces the first material with the given id. -/
def replaceMaterial (id : ObjectId) (doc : Material) : List Material → List Material
  | [] => []
  | d :: ds => if d._id == id then doc :: ds else d :: replaceMaterial id doc ds

/-- The call `Material.findByIdAndUpdate(id, update, { new: true, runValidators: true })`:
each path of the update is cast and validated on its own (`required`, `trim`, the three
`enum`s), then set (`none` inside when no material has the id). -/
def Material.findByIdAndUpdate (c : String → JVal → PathCast) (coll : List Material)
    (id : ObjectId) (upd : MaterialBody) : Except WriteError (Option Material × List Material) :=
  match castRequiredRef upd.project, castKey castRequiredText upd.name,
      castKey castRequiredText upd.quantity, castFields c upd.extra with
  | some project, some name, some quantity, some extra =>
    if (match upd.type with
        | some t => !materialTypeEnum.contains t
        | none => false)
      || (match upd.status with
        | some s => !materialStatusEnum.contains s
        | none => false)
      || (match upd.priority with
        | some p => !materialPriorityEnum.contains p
        | none => false) then
      .error .validation
    else
      match Material.findById coll id with
      | none => .ok (none, coll)
      | some doc =>
        let doc1 : Material :=
          { _id := doc._id
            project := project.getD doc.project
            name := name.getD doc.name
            quantity := quantity.getD doc.quantity
            type := upd.type.getD doc.type
            status := upd.status.getD doc.status
            priority := upd.priority.getD doc.priority
            extra := mergeFields extra doc.extra }
        .ok (some doc1, replaceMaterial id doc1 coll)
  | _, _, _, _ => .error .validation

/-- The handler `router.put('/:id')` of `routes/materials.js` (UpdateMaterial), after the
`protect` middleware. -/
def materialsPut (c : String → JVal → PathCast) (db : Db) (id : ObjectId) (body : MaterialBody) :
    Response Material × Db :=
  match Material.findById db.materials id with
  | none => ({ status := 404, success := false, message := some "Material not found" }, db)
  | some _ =>
    match Material.findByIdAndUpdate c db.materials id body with
    | .error _ => ({ status := 500, success := false, message := some "Server error" }, db)
    | .ok (material, coll) =>
      ({ status := 200, success := true, data := material }, { db with materials := coll })

/-- The state of the form of `frontend/src/screens/admin/AddMaterialScreen.js`. -/
structure MaterialForm where
  name : String
  quantity : String
  type : String
  project : String
  location : String
  priority : String
  status : String
  neededBy : String
  deriving DecidableEq, Repr

/-- The status choices that the form of `AddMaterialScreen.js` offers for a type. -/
def statusOptions (type : String) : List String :=
  if type == "Available" then ["Pending", "In Stock"] else ["Pending", "Ordered", "Delivered"]

/-- The object `materialData` that `handleSubmit` of `AddMaterialScreen.js` sends; a key
whose value is `undefined` is absent. -/
def materialData (form : MaterialForm) : MaterialBody :=
  { name := some (jsTrim form.name)
    quantity := some (jsTrim form.quantity)
    type := some form.type
    project := some (.str form.project)
    priority := if form.type == "Required" then some form.priority else none
    status := some (if form.type == "Available" then "In Stock" else form.status)
    extra :=
      (if jsTrim form.location != "" then [("location", .str (jsTrim form.location))] else []) ++
      (if form.type == "Required" && form.neededBy != "" then
        [("neededBy", .str form.neededBy)] else []) }

/-! ## Project listings -/

/-- The query of `router.get('/status/started')` in `routes/projects.js`:
`status` in `In Progress`, `Planning` and `progress > 0`. -/
def startedFilter (p : Project) : Bool :=
  ["In Progress", "Planning"].contains p.status && decide (p.progress > 0)

/-- The query of `router.get('/status/not-started')` in `routes/projects.js`:
`status` is `Planning` or `progress` is 0. -/
def notStartedFilter (p : Project) : Bool :=
  p.status == "Planning" || p.progress == 0

/-- The projects listed by `GET /api/projects/status/started` (the sort order aside). -/
def projectsStarted (db : Db) : List Project := db.projects.filter startedFilter

/-- The projects listed by `GET /api/projects/status/not-started` (the sort order aside). -/
def projectsNotStarted (db : Db) : List Project := db.projects.filter notStartedFilter

/-! ## The project identifier on the client -/

/-- The function `validateProjectId` of `frontend/src/utils/validation.js`: the error
message, or the empty string when the identifier is accepted.  The method
`String.prototype.toUpperCase` of the runtime follows the case mappings of Unicode, a table
that is no part of the repository (it maps `ß` to `SS`, for one); it is the parameter
`up`. -/
def validateProjectId (up : String → String) (projectId : String) : String :=
  if projectId == "" || jsTrim projectId == "" then
    "Project ID is required"
  else if !matchesProjectIdPattern (up (jsTrim projectId)) then
    "Project ID must be in format: XXX-000 (e.g., PJT-001)"
  else
    ""

/-- The `projectId` that `handleSubmit` of `AddProjectScreen.js` puts into `projectData`:
`projectId.toUpperCase()`, with `up` as in `validateProjectId`. -/
def sentProjectId (up : String → String) (projectId : String) : String := up projectId

/-! ## The two steps of a manpower update -/

/-- The part of `router.put('/:id')` of `routes/manpower.js` that runs after the `await` of
`Manpower.findById`: it works on the document `read` by that query and on the database as
it is when `findByIdAndUpdate` is reached. -/
def manpowerPutWrite (c : String → JVal → PathCast) (db : Db) (id : ObjectId)
    (read : Option Manpower) (body : ManpowerBody) : Response Manpower × Db :=
  match read with
  | none => ({ status := 404, success := false, message := some "Manpower not found" }, db)
  | some manpower =>
    match updateData manpower body with
    | none => ({ status := 500, success := false, message := some "Server error" }, db)
    | some updateData =>
      match Manpower.findByIdAndUpdate c db.manpower id updateData with
      | .error _ => ({ status := 500, success := false, message := some "Server error" }, db)
      | .ok (manpower, coll) =>
        ({ status := 200, success := true, data := manpower }, { db with manpower := coll })

/-! ## Sample data for finance, materials and listings -/

/-- The two finance records `(100, 40)` and `(200, 150)`. -/
def financeDb : Db :=
  { projects := [seedProject, planningProject]
    finance :=
      [{ _id := "65a0000000000000000000e1", project := seedProject._id,
         totalInvested := some 100, ableToBill := some 40, updatedBy := none },
       { _id := "65a0000000000000000000e2", project := planningProject._id,
         totalInvested := some 200, ableToBill := some 150, updatedBy := none }] }

/-- Two finance records whose `totalInvested` are `2 ^ 53` and 1. -/
def largeFinanceDb : Db :=
  { finance :=
      [{ _id := "65a0000000000000000000e3", project := seedProject._id,
         totalInvested := some (.fin false 9007199254740992 0), ableToBill := some 0,
         updatedBy := none },
       { _id := "65a0000000000000000000e4", project := planningProject._id,
         totalInvested := some 1, ableToBill := some 0, updatedBy := none }] }

/-- One finance record with 160 invested and 23 able to bill. -/
def tieFinanceDb : Db :=
  { finance :=
      [{ _id := "65a0000000000000000000e5", project := seedProject._id,
         totalInvested := some 160, ableToBill := some 23, updatedBy := none }] }

/-- One finance record whose quotient times 100 is close to the middle between 95.16 and
95.17, and nearer to 95.16. -/
def nearTieFinanceDb : Db :=
  { finance :=
      [{ _id := "65a0000000000000000000e6", project := seedProject._id,
         totalInvested := some (.fin false 5635986970875526 0),
         ableToBill := some (.fin false 5363487000833694 0), updatedBy := none }] }

/-- A material that is available and in stock. -/
def stockMaterial : Material :=
  { _id := "65a000000000000000000071", project := seedProject._id, name := "Cement",
    quantity := "50 bags", type := "Available", status := "In Stock", priority := "Medium",
    extra := [] }

/-- A database with the seed project and that material. -/
def materialDb : Db := { projects := [seedProject], materials := [stockMaterial] }

/-- A create body for a material of the given type and status. -/
def materialBody (type status : String) : MaterialBody :=
  { project := some (.str seedProject._id), name := some "Steel rods", quantity := some "2 tons",
    type := some type, status := some status }

/-- The project `PJT-002` of `scripts/seed.js`: `Planning` with progress 10. -/
def seedPlanningProject : Project :=
  { _id := "65a0000000000000000000b4", projectId := "PJT-002", name := "Site B - Planning",
    location := "Block B, Zakir Nagar", status := "Planning", progress := 10, extra := [] }

/-- The seed worker once assigned to a project. -/
def assignedWorker : Manpower :=
  { seedWorker with assignedProject := some strayId, isAvailable := some false }

/-- A timeline of two entries as a client sends it: the first is a stored entry sent back
with its `_id`, the second is new and has neither description nor icon. -/
def sentTimeline : List TimelineItem :=
  [{ title := some "Foundation", description := some "Excavation complete",
     icon := some "construct", date := some (.str "2024-01-01"),
     extra := [("_id", .str "65a000000000000000000091")] },
   { title := some "Roofing", date := some (.str "2024-06-01") }]

/-- A database with a project that has one stored timeline entry. -/
def timelineDb : Db :=
  { projects :=
      [{ planningProject with
          timeline := [{ title := "Survey", description := some "", date := .str "2023-12-01",
                         icon := "checkmark-circle" }] }] }

/-! # Theorems -/

/-! ## Lists of documents -/

theorem findById_id {coll : List Manpower} {id : ObjectId} {m : Manpower}
    (h : Manpower.findById coll id = some m) : m._id = id := by
  have := List.find?_some h
  simpa using this

theorem findById_replaceManpower {coll : List Manpower} {id : ObjectId} {m doc : Manpower}
    (h : Manpower.findById coll id = some m) (hid : doc._id = id) :
    Manpower.findById (replaceManpower id doc coll) id = some doc := by
  induction coll with
  | nil => simp [Manpower.findById] at h
  | cons d ds ih =>
    by_cases hd : d._id = id
    · simp [replaceManpower, Manpower.findById, hd, hid]
    · have h2 : Manpower.findById ds id = some m := by
        simpa [Manpower.findById, List.find?_cons, hd] using h
      simpa [replaceManpower, Manpower.findById, List.find?_cons, hd] using ih h2

theorem replaceManpower_idem (coll : List Manpower) (id : ObjectId) (doc : Manpower)
    (hid : doc._id = id) :
    replaceManpower id doc (replaceManpower id doc coll) = replaceManpower id doc coll := by
  induction coll with
  | nil => rfl
  | cons d ds ih =>
    by_cases hd : d._id = id
    · simp [replaceManpower, hd, hid]
    · simp [replaceManpower, hd, ih]

theorem any_other_replaceManpower (coll : List Manpower) (id : ObjectId) (doc : Manpower)
    (hid : doc._id = id) (q : Manpower → Bool) :
    (replaceManpower id doc coll).any (fun d => d._id != id && q d)
      = coll.any (fun d => d._id != id && q d) := by
  induction coll with
  | nil => rfl
  | cons d ds ih =>
    by_cases hd : d._id = id
    · simp [replaceManpower, hd, hid]
    · simp [replaceManpower, hd, ih]

theorem mergeFields_idem (upd doc : Fields) :
    mergeFields upd (mergeFields upd doc) = mergeFields upd doc := by
  unfold mergeFields
  have h1 : upd.filter (fun kv => !(upd.any (fun u => u.1 == kv.1))) = [] := by
    rw [List.filter_eq_nil_iff]
    intro a ha
    simp only [Bool.not_eq_true, Bool.not_eq_false_eq_eq_true, List.any_eq_true]
    simp
    exact ⟨a.2, ha⟩
  rw [List.filter_append, h1, List.nil_append, List.filter_filter]
  simp

/-! ## Trimming and upper-casing -/

theorem dropWhile_rdropWhile_dropWhile (p : Char → Bool) (l : List Char) :
    List.dropWhile p (List.rdropWhile p (List.dropWhile p l))
      = List.rdropWhile p (List.dropWhile p l) := by
  obtain ⟨r, hr⟩ : List.rdropWhile p (List.dropWhile p l) <+: List.dropWhile p l :=
    List.rdropWhile_prefix p (List.dropWhile p l)
  cases ht : List.rdropWhile p (List.dropWhile p l) with
  | nil => rfl
  | cons a t =>
    rw [ht] at hr
    have hpos : 0 < (List.dropWhile p l).length := by rw [← hr]; simp
    have hnot := List.dropWhile_get_zero_not p l hpos
    have ha : (List.dropWhile p l).get ⟨0, hpos⟩ = a := by
      simp [← hr]
    rw [ha] at hnot
    simp [List.dropWhile_cons, hnot]

theorem jsTrim_idem (s : String) : jsTrim (jsTrim s) = jsTrim s := by
  unfold jsTrim
  have h1 := dropWhile_rdropWhile_dropWhile isJsSpace s.toList
  have h2 := List.rdropWhile_idempotent isJsSpace (List.dropWhile isJsSpace s.toList)
  simp only [List.rdropWhile] at h1 h2
  simp only [String.toList] at h1 h2 ⊢
  rw [h1, h2]

theorem castRequiredText_jsTrim {s : String} (h : (jsTrim s == "") = false) :
    castRequiredText (jsTrim s) = some (jsTrim s) := by
  unfold castRequiredText
  rw [jsTrim_idem, h]
  simp

/-! ## The update path -/

theorem castManpowerUpdate_some {c : String → JVal → PathCast} {upd : ManpowerBody}
    {u : ManpowerSet} (h : castManpowerUpdate c upd = some u) :
    castKey castRequiredText (setSugar upd).employeeId = some u.employeeId ∧
    castKey castRequiredText (setSugar upd).name = some u.name ∧
    castKey castRequiredText (setSugar upd).role = some u.role ∧
    castKey castObjectId (setSugar upd).assignedProject = some u.assignedProject ∧
    castKey castBoolean (setSugar upd).isAvailable = some u.isAvailable ∧
    castFields c (setSugar upd).extra = some u.extra := by
  unfold castManpowerUpdate at h
  simp only at h
  split at h
  · simp only [Option.some.injEq] at h
    subst h
    simp [*]
  · simp at h

theorem setSugar_of_none {upd : ManpowerBody} (h : upd.setOperator = none) :
    setSugar upd =
      { employeeId := upd.employeeId, name := upd.name, role := upd.role,
        assignedProject := upd.assignedProject, isAvailable := upd.isAvailable,
        extra := upd.extra } := by
  unfold setSugar
  rw [h]

theorem setSugar_assignedProject (upd : ManpowerBody) {v : JVal}
    (h : upd.assignedProject = some v) : (setSugar upd).assignedProject = some v := by
  unfold setSugar
  cases upd.setOperator <;> simp [h]

theorem setSugar_isAvailable (upd : ManpowerBody) {v : JVal}
    (h : upd.isAvailable = some v) : (setSugar upd).isAvailable = some v := by
  unfold setSugar
  cases upd.setOperator <;> simp [h]

/-- The ways through the branches of `updateData`, by the value under `assignedProject`
and by whether the body has a key `hasOwnProperty`. -/
theorem updateData_cases (m : Manpower) (body : ManpowerBody) :
    (jsTruthy body.assignedProject = true ∧
      updateData m body = some { body with isAvailable := some (.bool false) }) ∨
    ((body.assignedProject = some .null ∨ body.assignedProject = some (.str "")) ∧
      updateData m body =
        some { body with isAvailable := some (.bool true), assignedProject := some .null }) ∨
    ((body.assignedProject = none ∨ body.assignedProject = some (.bool false) ∨
        body.assignedProject = some (.num 0)) ∧
      ownKey body.extra "hasOwnProperty" = true ∧ updateData m body = none) ∨
    (body.assignedProject = none ∧ ownKey body.extra "hasOwnProperty" = false ∧
      updateData m body =
        some { body with isAvailable := some (.bool (!m.assignedProject.isSome)) }) ∨
    ((body.assignedProject = some (.bool false) ∨ body.assignedProject = some (.num 0)) ∧
      ownKey body.extra "hasOwnProperty" = false ∧ updateData m body = some body) := by
  rcases body with ⟨e, n, r, ap, av, ex, so⟩
  cases ap with
  | none =>
    cases hk : ownKey ex "hasOwnProperty"
    · right; right; right; left
      cases hm : m.assignedProject <;>
        simp [updateData, jsTruthy, isNull, isEmptyString, hasOwnProperty, hm, hk]
    · right; right; left
      simp [updateData, jsTruthy, isNull, isEmptyString, hk]
  | some v =>
    cases v with
    | null => right; left; simp [updateData, jsTruthy, isNull, isEmptyString]
    | bool b =>
      cases b
      · cases hk : ownKey ex "hasOwnProperty"
        · right; right; right; right
          simp [updateData, jsTruthy, isNull, isEmptyString, hasOwnProperty, hk]
        · right; right; left
          simp [updateData, jsTruthy, isNull, isEmptyString, hk]
      · left; simp [updateData, jsTruthy, isNull, isEmptyString]
    | num k =>
      by_cases hk0 : k = 0
      · cases hk : ownKey ex "hasOwnProperty"
        · right; right; right; right
          simp [updateData, jsTruthy, isNull, isEmptyString, hasOwnProperty, hk, hk0]
        · right; right; left
          simp [updateData, jsTruthy, isNull, isEmptyString, hk, hk0]
      · left; simp [updateData, jsTruthy, isNull, isEmptyString, hk0]
    | str s =>
      by_cases hs : s = ""
      · right; left; simp [updateData, jsTruthy, isNull, isEmptyString, hs]
      · left; simp [updateData, jsTruthy, isNull, isEmptyString, hs]
    | obj i => left; simp [updateData, jsTruthy, isNull, isEmptyString]

theorem manpowerPut_ok {c : String → JVal → PathCast} {db : Db} {id : ObjectId}
    {body : ManpowerBody} (h : (manpowerPut c db id body).1.status = 200) :
    ∃ m ud u, Manpower.findById db.manpower id = some m ∧
      updateData m body = some ud ∧
      castManpowerUpdate c ud = some u ∧
      manpowerPut c db id body =
        ({ status := 200, success := true, data := some (applyManpowerSet m u) },
         { db with manpower := replaceManpower id (applyManpowerSet m u) db.manpower }) := by
  unfold manpowerPut at h ⊢
  cases hf : Manpower.findById db.manpower id with
  | none => simp [hf] at h
  | some m =>
    simp only [hf] at h ⊢
    cases hud : updateData m body with
    | none => simp [hud] at h
    | some ud =>
      simp only [hud] at h ⊢
      unfold Manpower.findByIdAndUpdate at h ⊢
      cases hc : castManpowerUpdate c ud with
      | none => simp [hc] at h
      | some u =>
        simp only [hc, hf] at h ⊢
        by_cases hdup : (u.employeeId.isSome && db.manpower.any (fun d =>
            d._id != id && d.employeeId == (applyManpowerSet m u).employeeId)) = true
        · simp [hdup] at h
        · refine ⟨m, ud, u, rfl, hud, hc, ?_⟩
          simp [hdup]

/-! ## The create path -/

theorem preSave_assignedProject (doc : Manpower) :
    (preSave doc).assignedProject = doc.assignedProject := by
  unfold preSave
  split <;> rfl

theorem preSave_isAvailable (doc : Manpower) :
    (preSave doc).isAvailable = some (!doc.assignedProject.isSome) := by
  unfold preSave
  split
  · rename_i h; simp [h]
  · rename_i h; simp [h]

theorem manpowerCreate_ok {c : String → JVal → PathCast} {coll : List Manpower}
    {newId : ObjectId} {body : ManpowerBody} {r : Manpower × List Manpower}
    (h : Manpower.create c coll newId body = .ok r) :
    ∃ ap, castKey castObjectId body.assignedProject = some ap ∧
      r.1.assignedProject = ap.getD none ∧
      r.1.isAvailable = some (!r.1.assignedProject.isSome) ∧
      r.1._id = newId ∧
      r.2 = coll ++ [r.1] := by
  unfold Manpower.create at h
  split at h
  · rename_i employeeId name role assignedProject isAvailable extra h1 h2 h3 h4 h5 h6
    simp only at h
    split at h
    · simp at h
    · simp only [Except.ok.injEq] at h
      subst h
      refine ⟨assignedProject, h4, ?_, ?_, ?_, rfl⟩
      · simp [preSave_assignedProject]
      · simp [preSave_isAvailable, preSave_assignedProject]
      · unfold preSave; split <;> rfl
  · simp at h

theorem manpowerPost_created {c : String → JVal → PathCast} {db : Db} {newId userId : ObjectId}
    {body : ManpowerBody} (h : (manpowerPost c db newId userId body).1.status = 201) :
    ∃ doc ap, castKey castObjectId body.assignedProject = some ap ∧
      doc.assignedProject = ap.getD none ∧
      doc.isAvailable = some (!doc.assignedProject.isSome) ∧
      manpowerPost c db newId userId body =
        ({ status := 201, success := true, data := some doc },
         { db with manpower := db.manpower ++ [doc] }) := by
  unfold manpowerPost at h ⊢
  simp only at h ⊢
  by_cases herr : (!(manpowerPostErrors body).isEmpty) = true
  · simp [herr] at h
  · rw [if_neg herr] at h ⊢
    cases hfind : Manpower.findOne db.manpower (jsTrim (body.employeeId.getD "")) with
    | some d => simp [hfind] at h
    | none =>
      simp only [hfind] at h ⊢
      split at h
      · rename_i manpower coll hcreate
        obtain ⟨ap, h1, h2, h3, _, h5⟩ := manpowerCreate_ok hcreate
        simp only at h5 h1 h2 h3
        subst h5
        refine ⟨manpower, ap, h1, h2, h3, ?_⟩
        simp [hcreate]
      · simp at h
      · simp at h

/-! ## What the store receives in each branch -/

theorem castObjectId_truthy {v : JVal} {x : Option ObjectId} (hv : jsTruthy (some v) = true)
    (hx : castObjectId v = some x) : ∃ i, x = some i := by
  cases v with
  | null => simp [jsTruthy] at hv
  | bool b => simp [castObjectId] at hx
  | num n => simp [castObjectId] at hx
  | str s =>
    simp only [castObjectId] at hx
    split at hx
    · exact ⟨toHexString s, by simpa using hx.symm⟩
    · simp at hx
  | obj i =>
    cases i with
    | none => simp [castObjectId] at hx
    | some j =>
      simp only [castObjectId] at hx
      split at hx
      · exact ⟨toHexString j, by simpa using hx.symm⟩
      · simp at hx

theorem cast_assign {c : String → JVal → PathCast} {m : Manpower} {body ud : ManpowerBody}
    {u : ManpowerSet} (ht : jsTruthy body.assignedProject = true)
    (hud : updateData m body = some ud) (hc : castManpowerUpdate c ud = some u) :
    (∃ v i, body.assignedProject = some v ∧ castObjectId v = some (some i) ∧
      u.assignedProject = some (some i)) ∧ u.isAvailable = some (some false) := by
  rcases updateData_cases m body with ⟨_, h⟩ | ⟨h0, _⟩ | ⟨h0, _⟩ | ⟨h0, _⟩ | ⟨h0, _⟩
  · rw [h] at hud
    cases hud
    obtain ⟨_, _, _, h4, h5, _⟩ := castManpowerUpdate_some hc
    constructor
    · cases hap : body.assignedProject with
      | none => simp [hap, jsTruthy] at ht
      | some v =>
        rw [setSugar_assignedProject { body with isAvailable := some (.bool false) } hap] at h4
        rw [hap] at ht
        cases hv : castObjectId v with
        | none => simp [castKey, hv] at h4
        | some x =>
          obtain ⟨i, hi⟩ := castObjectId_truthy ht hv
          subst hi
          refine ⟨v, i, rfl, hv, ?_⟩
          simpa [castKey, hv] using h4.symm
    · rw [setSugar_isAvailable { body with isAvailable := some (.bool false) } rfl] at h5
      simpa [castKey, castBoolean] using h5.symm
  · rcases h0 with h0 | h0 <;> simp [h0, jsTruthy] at ht
  · rcases h0 with h0 | h0 | h0 <;> simp [h0, jsTruthy] at ht
  · simp [h0, jsTruthy] at ht
  · rcases h0 with h0 | h0 <;> simp [h0, jsTruthy] at ht

theorem cast_unassign {c : String → JVal → PathCast} {m : Manpower} {body ud : ManpowerBody}
    {u : ManpowerSet}
    (hn : body.assignedProject = some .null ∨ body.assignedProject = some (.str ""))
    (hud : updateData m body = some ud) (hc : castManpowerUpdate c ud = some u) :
    u.assignedProject = some none ∧ u.isAvailable = some (some true) := by
  rcases updateData_cases m body with ⟨ht, _⟩ | ⟨_, h⟩ | ⟨h0, _⟩ | ⟨h0, _⟩ | ⟨h0, _⟩
  · rcases hn with h0 | h0 <;> simp [h0, jsTruthy] at ht
  · rw [h] at hud
    cases hud
    obtain ⟨_, _, _, h4, h5, _⟩ := castManpowerUpdate_some hc
    rw [setSugar_assignedProject
      { body with isAvailable := some (.bool true), assignedProject := some .null } rfl] at h4
    rw [setSugar_isAvailable
      { body with isAvailable := some (.bool true), assignedProject := some .null } rfl] at h5
    exact ⟨by simpa [castKey, castObjectId] using h4.symm,
      by simpa [castKey, castBoolean] using h5.symm⟩
  · rcases hn with h1 | h1 <;> rcases h0 with h0 | h0 | h0 <;> simp [h1] at h0
  · rcases hn with h1 | h1 <;> simp [h1] at h0
  · rcases hn with h1 | h1 <;> rcases h0 with h0 | h0 <;> simp [h1] at h0

/-- Without an `assignedProject` key in the body the update has the `isAvailable` derived
from the document that was read, and the `assignedProject` that the `$set` object of the
body names, if any. -/
theorem cast_absent {c : String → JVal → PathCast} {m : Manpower} {body ud : ManpowerBody}
    {u : ManpowerSet} (hn : body.assignedProject = none)
    (hud : updateData m body = some ud) (hc : castManpowerUpdate c ud = some u) :
    castKey castObjectId (setSugar body).assignedProject = some u.assignedProject ∧
    u.isAvailable = some (some (!m.assignedProject.isSome)) := by
  rcases updateData_cases m body with ⟨ht, _⟩ | ⟨h0, _⟩ | ⟨_, _, h⟩ | ⟨_, _, h⟩ | ⟨h0, _⟩
  · simp [hn, jsTruthy] at ht
  · rcases h0 with h0 | h0 <;> simp [hn] at h0
  · rw [h] at hud
    cases hud
  · rw [h] at hud
    cases hud
    obtain ⟨_, _, _, h4, h5, _⟩ := castManpowerUpdate_some hc
    rw [setSugar_isAvailable
      { body with isAvailable := some (.bool (!m.assignedProject.isSome)) } rfl] at h5
    refine ⟨?_, by simpa [castKey, castBoolean] using h5.symm⟩
    rw [← h4]
    unfold setSugar
    cases body.setOperator <;> rfl
  · rcases h0 with h0 | h0 <;> simp [hn] at h0

theorem cast_falsy_rejected (c : String → JVal → PathCast) (m : Manpower)
    (body ud : ManpowerBody)
    (hf : body.assignedProject = some (.bool false) ∨ body.assignedProject = some (.num 0))
    (hud : updateData m body = some ud) :
    castManpowerUpdate c ud = none := by
  rcases updateData_cases m body with ⟨ht, _⟩ | ⟨h0, _⟩ | ⟨_, _, h⟩ | ⟨h0, _⟩ | ⟨_, _, h⟩
  · rcases hf with h0 | h0 <;> simp [h0, jsTruthy] at ht
  · rcases hf with h1 | h1 <;> rcases h0 with h0 | h0 <;> simp [h1] at h0
  · rw [h] at hud
    cases hud
  · rcases hf with h1 | h1 <;> simp [h1] at h0
  · rw [h] at hud
    cases hud
    cases hc : castManpowerUpdate c body with
    | none => rfl
    | some u =>
      obtain ⟨_, _, _, h4, _, _⟩ := castManpowerUpdate_some hc
      rcases hf with h1 | h1
      · rw [setSugar_assignedProject body h1] at h4
        simp [castKey, castObjectId] at h4
      · rw [setSugar_assignedProject body h1] at h4
        simp [castKey, castObjectId] at h4

/-- After an accepted update whose `$set` object, if any, names no `assignedProject` the
body does not name, the document satisfies the availability invariant. -/
theorem update_invariant {c : String → JVal → PathCast} {m : Manpower} {body ud : ManpowerBody}
    {u : ManpowerSet} (hs : (setSugar body).assignedProject = body.assignedProject)
    (hud : updateData m body = some ud) (hc : castManpowerUpdate c ud = some u) :
    availabilityInvariant (applyManpowerSet m u) = true := by
  rcases updateData_cases m body with ⟨ht, _⟩ | ⟨h0, _⟩ | ⟨_, _, h⟩ | ⟨h0, _⟩ | ⟨h0, _⟩
  · obtain ⟨⟨v, i, _, _, h1⟩, h2⟩ := cast_assign ht hud hc
    simp [availabilityInvariant, applyManpowerSet, h1, h2]
  · obtain ⟨h1, h2⟩ := cast_unassign h0 hud hc
    simp [availabilityInvariant, applyManpowerSet, h1, h2]
  · rw [h] at hud
    cases hud
  · obtain ⟨h1, h2⟩ := cast_absent h0 hud hc
    rw [hs, h0] at h1
    have h3 : u.assignedProject = none := by simpa [castKey] using h1.symm
    cases hm : m.assignedProject <;>
      simp [availabilityInvariant, applyManpowerSet, h3, h2, hm]
  · rw [cast_falsy_rejected c m body ud h0 hud] at hc
    simp at hc

/-! ## The availability rule -/

theorem manpowerPut_stored {c : String → JVal → PathCast} {db : Db} {id : ObjectId}
    {body : ManpowerBody} (h : (manpowerPut c db id body).1.status = 200) :
    ∃ m ud u, Manpower.findById db.manpower id = some m ∧
      updateData m body = some ud ∧
      castManpowerUpdate c ud = some u ∧
      (manpowerPut c db id body).1.data = some (applyManpowerSet m u) ∧
      Manpower.findById (manpowerPut c db id body).2.manpower id = some (applyManpowerSet m u) ∧
      (manpowerPut c db id body).2.projects = db.projects := by
  obtain ⟨m, ud, u, hf, hud, hc, heq⟩ := manpowerPut_ok h
  refine ⟨m, ud, u, hf, hud, hc, ?_, ?_, ?_⟩
  · rw [heq]
  · rw [heq]
    exact findById_replaceManpower hf (by simpa [applyManpowerSet] using findById_id hf)
  · rw [heq]

/-- Every write of a Manpower record through the hook, through a `POST /api/manpower`
answered with 201, or through a `PUT /api/manpower/:id` answered with 200 whose `$set`
object, if any, names no `assignedProject` the body does not name, leaves it with
`isAvailable == (assignedProject == null)`. -/
theorem availability_invariant_of_plain_write (c : String → JVal → PathCast) (db : Db) :
    (∀ doc : Manpower, availabilityInvariant (preSave doc) = true) ∧
    (∀ (id : ObjectId) (body : ManpowerBody),
      (setSugar body).assignedProject = body.assignedProject →
      (manpowerPut c db id body).1.status = 200 →
      ∃ doc, (manpowerPut c db id body).1.data = some doc ∧
        Manpower.findById (manpowerPut c db id body).2.manpower id = some doc ∧
        availabilityInvariant doc = true) ∧
    (∀ (newId userId : ObjectId) (body : ManpowerBody),
      (manpowerPost c db newId userId body).1.status = 201 →
      ∃ doc, (manpowerPost c db newId userId body).1.data = some doc ∧
        (manpowerPost c db newId userId body).2.manpower = db.manpower ++ [doc] ∧
        availabilityInvariant doc = true) := by
  refine ⟨?_, ?_, ?_⟩
  · intro doc
    cases hd : doc.assignedProject <;>
      simp [availabilityInvariant, preSave_isAvailable, preSave_assignedProject, hd]
  · intro id body hs h
    obtain ⟨m, ud, u, _, hud, hc, hdata, hfind, _⟩ := manpowerPut_stored h
    exact ⟨_, hdata, hfind, update_invariant hs hud hc⟩
  · intro newId userId body h
    obtain ⟨doc, ap, _, _, h3, heq⟩ := manpowerPost_created h
    refine ⟨doc, by rw [heq], by rw [heq], ?_⟩
    cases hd : doc.assignedProject <;> simp [availabilityInvariant, h3, hd]

/-- C1 (the code at the failing input): the body `{"$set": {"assignedProject": P}}` has no
`assignedProject` key of its own, so the handler takes the branch that derives
`isAvailable` from the document it has read, here an unassigned worker, and Mongoose
applies the `$set` object with that `isAvailable` written into it.  The update is answered
with 200 and the stored record is assigned to `P` with `isAvailable = true`, against
`isAvailable == (assignedProject == null)`. -/
theorem set_operator_breaks_invariant :
    availabilityInvariant seedWorker = true ∧
    setAssignBody.assignedProject = none ∧
    updateData seedWorker setAssignBody =
      some { setAssignBody with isAvailable := some (.bool true) } ∧
    (manpowerPut storeAsSent seedDb seedWorker._id setAssignBody).1.status = 200 ∧
    (manpowerPut storeAsSent seedDb seedWorker._id setAssignBody).1.data.map
        (fun m => (m.assignedProject, m.isAvailable, availabilityInvariant m)) =
      some (some strayId, some true, false) ∧
    (Manpower.findById
        (manpowerPut storeAsSent seedDb seedWorker._id setAssignBody).2.manpower
        seedWorker._id).map
        (fun m => (m.assignedProject, m.isAvailable, availabilityInvariant m)) =
      some (some strayId, some true, false) := by
  decide

/-- C2: when the body carries a non-empty (truthy) value `P` under `assignedProject`, the
update data keeps `assignedProject = P` and has `isAvailable = false`, whatever the body
carries under `isAvailable`; and when the store accepts the update (status 200) the stored
document is assigned to the id that `P` denotes and has `isAvailable = false`. -/
theorem updateData_assign (c : String → JVal → PathCast) (db : Db) (id : ObjectId)
    (manpower : Manpower) (body : ManpowerBody) (P : JVal)
    (hP : body.assignedProject = some P) (hne : jsTruthy (some P) = true) :
    updateData manpower body = some { body with isAvailable := some (.bool false) } ∧
    (updateData manpower body).map (fun d => d.assignedProject) = some (some P) ∧
    (updateData manpower body).map (fun d => d.isAvailable) = some (some (.bool false)) ∧
    ((manpowerPut c db id body).1.status = 200 →
      ∃ doc i, Manpower.findById (manpowerPut c db id body).2.manpower id = some doc ∧
        castObjectId P = some (some i) ∧ doc.assignedProject = some i ∧
        doc.isAvailable = some false) := by
  have ht : jsTruthy body.assignedProject = true := by rw [hP]; exact hne
  have hu : updateData manpower body = some { body with isAvailable := some (.bool false) } := by
    rcases updateData_cases manpower body with ⟨_, h⟩ | ⟨h0, _⟩ | ⟨h0, _⟩ | ⟨h0, _⟩ | ⟨h0, _⟩
    · exact h
    · rcases h0 with h0 | h0 <;> simp [h0, jsTruthy] at ht
    · rcases h0 with h0 | h0 | h0 <;> simp [h0, jsTruthy] at ht
    · simp [h0, jsTruthy] at ht
    · rcases h0 with h0 | h0 <;> simp [h0, jsTruthy] at ht
  refine ⟨hu, by rw [hu]; simp [hP], by rw [hu]; rfl, ?_⟩
  intro h
  obtain ⟨m, ud, u, _, hud, hc, _, hfind, _⟩ := manpowerPut_stored h
  obtain ⟨⟨v, i, hv, hcast, h1⟩, h2⟩ := cast_assign ht hud hc
  rw [hP] at hv
  cases hv
  exact ⟨_, i, hfind, hcast, by simp [applyManpowerSet, h1], by simp [applyManpowerSet, h2]⟩

theorem updateData_assign_witness :
    jsTruthy (some (JVal.str strayId)) = true ∧
    (manpowerPut storeAsSent seedDb seedWorker._id
        { assignedProject := some (.str strayId), isAvailable := some (.bool true) }).1.status = 200 ∧
    (updateData seedWorker
        { assignedProject := some (.str strayId), isAvailable := some (.bool true) }).map
          (fun d => d.isAvailable)
      = some (some (.bool false)) ∧
    (∃ doc i, Manpower.findById (manpowerPut storeAsSent seedDb seedWorker._id
        { assignedProject := some (.str strayId), isAvailable := some (.bool true) }).2.manpower
          seedWorker._id = some doc ∧
      castObjectId (JVal.str strayId) = some (some i) ∧ doc.assignedProject = some i ∧
      doc.isAvailable = some false) :=
  ⟨by decide, by decide,
   (updateData_assign storeAsSent seedDb seedWorker._id seedWorker
      { assignedProject := some (.str strayId), isAvailable := some (.bool true) }
      (.str strayId) rfl (by decide)).2.2.1,
   (updateData_assign storeAsSent seedDb seedWorker._id seedWorker
      { assignedProject := some (.str strayId), isAvailable := some (.bool true) }
      (.str strayId) rfl (by decide)).2.2.2 (by decide)⟩

/-- C3: when the body carries `null` or the empty string under `assignedProject`, the update
data has `assignedProject = null` and `isAvailable = true`, whatever the body carries
under `isAvailable`; and when the store accepts the update (status 200) the stored
document has no project and `isAvailable = true`. -/
theorem updateData_unassign (c : String → JVal → PathCast) (db : Db) (id : ObjectId)
    (manpower : Manpower) (body : ManpowerBody)
    (hn : body.assignedProject = some .null ∨ body.assignedProject = some (.str "")) :
    updateData manpower body =
      some { body with isAvailable := some (.bool true), assignedProject := some .null } ∧
    ((manpowerPut c db id body).1.status = 200 →
      ∃ doc, Manpower.findById (manpowerPut c db id body).2.manpower id = some doc ∧
        doc.assignedProject = none ∧ doc.isAvailable = some true) := by
  constructor
  · rcases updateData_cases manpower body with ⟨ht, _⟩ | ⟨_, h⟩ | ⟨h0, _⟩ | ⟨h0, _⟩ | ⟨h0, _⟩
    · rcases hn with h0 | h0 <;> simp [h0, jsTruthy] at ht
    · exact h
    · rcases hn with h1 | h1 <;> rcases h0 with h0 | h0 | h0 <;> simp [h1] at h0
    · rcases hn with h1 | h1 <;> simp [h1] at h0
    · rcases hn with h1 | h1 <;> rcases h0 with h0 | h0 <;> simp [h1] at h0
  · intro h
    obtain ⟨m, ud, u, _, hud, hc, _, hfind, _⟩ := manpowerPut_stored h
    obtain ⟨h1, h2⟩ := cast_unassign hn hud hc
    exact ⟨_, hfind, by simp [applyManpowerSet, h1], by simp [applyManpowerSet, h2]⟩

theorem updateData_unassign_witness :
    ((some JVal.null : Option JVal) = some JVal.null ∨
      (some JVal.null : Option JVal) = some (JVal.str "")) ∧
    (Manpower.findById
        (manpowerPost storeAsSent {} strayId "65a0000000000000000000aa" unassignedBody).2.manpower
        strayId).map (fun d => d.isAvailable) = some (some true) ∧
    (Manpower.findById roundTripDb.manpower strayId).map (fun d => d.isAvailable)
      = some (some false) ∧
    (manpowerPut storeAsSent roundTripDb strayId
        { assignedProject := some .null, isAvailable := some (.bool false) }).1.status = 200 ∧
    (∃ doc, Manpower.findById (manpowerPut storeAsSent roundTripDb strayId
        { assignedProject := some .null, isAvailable := some (.bool false) }).2.manpower strayId
          = some doc ∧
      doc.assignedProject = none ∧ doc.isAvailable = some true) :=
  ⟨Or.inl rfl, by decide, by decide, by decide,
   (updateData_unassign storeAsSent roundTripDb strayId seedWorker
      { assignedProject := some .null, isAvailable := some (.bool false) } (Or.inl rfl)).2
      (by decide)⟩

/-- When the body has neither an `assignedProject` key, nor a key `hasOwnProperty`, nor an
`assignedProject` in its `$set` object, the update data has no `assignedProject` and its
`isAvailable` is recomputed from the document that was read; when the store accepts the
update (status 200) the stored `assignedProject` is the one persisted before and
`isAvailable` says whether it is absent. -/
theorem plain_update_keeps_assignment (c : String → JVal → PathCast) (db : Db) (id : ObjectId)
    (manpower : Manpower) (body : ManpowerBody) (hn : body.assignedProject = none)
    (hk : ownKey body.extra "hasOwnProperty" = false)
    (hs : (setSugar body).assignedProject = none) :
    updateData manpower body =
      some { body with isAvailable := some (.bool (manpower.assignedProject == none)) } ∧
    ((manpowerPut c db id body).1.status = 200 →
      ∃ m doc, Manpower.findById db.manpower id = some m ∧
        Manpower.findById (manpowerPut c db id body).2.manpower id = some doc ∧
        doc.assignedProject = m.assignedProject ∧
        doc.isAvailable = some (m.assignedProject == none)) := by
  have hu : updateData manpower body =
      some { body with isAvailable := some (.bool (manpower.assignedProject == none)) } := by
    rcases updateData_cases manpower body with
      ⟨ht, _⟩ | ⟨h0, _⟩ | ⟨_, h0, _⟩ | ⟨_, _, h⟩ | ⟨h0, _⟩
    · simp [hn, jsTruthy] at ht
    · rcases h0 with h0 | h0 <;> simp [hn] at h0
    · rw [hk] at h0
      cases h0
    · rw [h]; cases manpower.assignedProject <;> rfl
    · rcases h0 with h0 | h0 <;> simp [hn] at h0
  refine ⟨hu, ?_⟩
  intro h
  obtain ⟨m, ud, u, hf, hud, hc, _, hfind, _⟩ := manpowerPut_stored h
  obtain ⟨h1, h2⟩ := cast_absent hn hud hc
  rw [hs] at h1
  have h3 : u.assignedProject = none := by simpa [castKey] using h1.symm
  refine ⟨m, _, hf, hfind, by simp [applyManpowerSet, h3], ?_⟩
  cases hm : m.assignedProject <;> simp [applyManpowerSet, h2, hm]

/-- C4 (the code at the failing input): the body `{"$set": {"assignedProject": P}}` has no
`assignedProject` key; the update is answered with 200 and the stored `assignedProject`
of the worker, absent before, is `P` afterwards, with `isAvailable = true`.  A body with
a key `hasOwnProperty` and no `assignedProject` makes the handler throw: it is answered
with 500 and nothing is written. -/
theorem set_operator_changes_assignment :
    setAssignBody.assignedProject = none ∧
    (Manpower.findById seedDb.manpower seedWorker._id).map (fun m => m.assignedProject) =
      some none ∧
    (manpowerPut storeAsSent seedDb seedWorker._id setAssignBody).1.status = 200 ∧
    (Manpower.findById
        (manpowerPut storeAsSent seedDb seedWorker._id setAssignBody).2.manpower
        seedWorker._id).map (fun m => m.assignedProject) = some (some strayId) ∧
    (Manpower.findById
        (manpowerPut storeAsSent seedDb seedWorker._id setAssignBody).2.manpower
        seedWorker._id).map (fun m => m.isAvailable) = some (some true) ∧
    manpowerPut storeAsSent seedDb seedWorker._id
        { name := some "Arun K.", extra := [("hasOwnProperty", .bool true)] } =
      ({ status := 500, success := false, message := some "Server error" }, seedDb) := by
  decide

/-- C5 (the code at the failing input): with `assignedProject: false` in the body no branch
of the handler fires, so the `isAvailable` sent by the client reaches
`findByIdAndUpdate` unchanged, and two bodies that differ only in `isAvailable` give
update data that differ in `isAvailable`.  (The store then refuses both updates, since
`false` does not cast to an ObjectId.) -/
theorem updateData_passes_client_isAvailable :
    (updateData seedWorker
        { assignedProject := some (.bool false), isAvailable := some (.bool true) }).map
          (fun d => d.isAvailable)
      = some (some (.bool true)) ∧
    (updateData seedWorker
        { assignedProject := some (.bool false), isAvailable := some (.bool false) }).map
          (fun d => d.isAvailable)
      = some (some (.bool false)) ∧
    (manpowerPut storeAsSent seedDb seedWorker._id
        { assignedProject := some (.bool false), isAvailable := some (.bool false) })
      = ({ status := 500, success := false, message := some "Server error" }, seedDb) := by
  decide

/-! ## Repeating an update -/

theorem manpowerPut_refused {c : String → JVal → PathCast} {db : Db} {id : ObjectId}
    {body : ManpowerBody} (h : (manpowerPut c db id body).1.status ≠ 200) :
    (manpowerPut c db id body).2 = db := by
  unfold manpowerPut at h ⊢
  cases hf : Manpower.findById db.manpower id with
  | none => simp
  | some m =>
    simp only [hf] at h ⊢
    cases hud : updateData m body with
    | none => simp
    | some ud =>
      simp only [hud] at h ⊢
      cases hr : Manpower.findByIdAndUpdate c db.manpower id ud with
      | error e => simp
      | ok r => simp [hr] at h

theorem applyManpowerSet_idem (m : Manpower) (u : ManpowerSet) :
    applyManpowerSet (applyManpowerSet m u) u = applyManpowerSet m u := by
  rcases u with ⟨e, n, r, ap, av, ex⟩
  cases e <;> cases n <;> cases r <;> cases ap <;> cases av <;>
    simp [applyManpowerSet, mergeFields_idem]

theorem updateData_congr (m1 m2 : Manpower) (body : ManpowerBody)
    (h : body.assignedProject = none → m1.assignedProject.isSome = m2.assignedProject.isSome) :
    updateData m1 body = updateData m2 body := by
  rcases body with ⟨e, n, r, ap, av, ex, so⟩
  cases ap with
  | none =>
    have h1 := h rfl
    simp [updateData, jsTruthy, isNull, isEmptyString, hasOwnProperty, h1]
  | some v => simp [updateData, hasOwnProperty]

/-- Sending the same body a second time leaves the database as the first request left it,
when the `$set` object of the body, if any, names no `assignedProject` the body does not
name. -/
theorem plain_update_idempotent (c : String → JVal → PathCast) (db : Db) (id : ObjectId)
    (body : ManpowerBody) (hs : (setSugar body).assignedProject = body.assignedProject) :
    (manpowerPut c (manpowerPut c db id body).2 id body).2 = (manpowerPut c db id body).2 := by
  by_cases h : (manpowerPut c db id body).1.status = 200
  · obtain ⟨m, ud, u, hf, hud, hc, heq⟩ := manpowerPut_ok h
    have hid : (applyManpowerSet m u)._id = id := by
      simpa [applyManpowerSet] using findById_id hf
    rw [heq]
    simp only
    generalize hdb1 : ({ db with manpower := replaceManpower id (applyManpowerSet m u) db.manpower } : Db) = db1
    have hcoll : db1.manpower = replaceManpower id (applyManpowerSet m u) db.manpower := by
      rw [← hdb1]
    by_cases h2 : (manpowerPut c db1 id body).1.status = 200
    · obtain ⟨m2, ud2, u2, hf2, hud2, hc2, heq2⟩ := manpowerPut_ok h2
      rw [hcoll, findById_replaceManpower hf hid] at hf2
      cases hf2
      have hsame : updateData (applyManpowerSet m u) body = updateData m body := by
        apply updateData_congr
        intro hn
        obtain ⟨h1, _⟩ := cast_absent hn hud hc
        rw [hs, hn] at h1
        have h3 : u.assignedProject = none := by simpa [castKey] using h1.symm
        simp [applyManpowerSet, h3]
      rw [hsame, hud] at hud2
      cases hud2
      rw [hc] at hc2
      cases hc2
      rw [heq2, hcoll]
      simp only [applyManpowerSet_idem, replaceManpower_idem _ _ _ hid]
      rw [← hdb1]
    · exact manpowerPut_refused h2
  · rw [manpowerPut_refused h]
    exact manpowerPut_refused h

/-- C6 (the code at the failing input): the body `{"$set": {"assignedProject": P}}` sent
to an unassigned worker stores `isAvailable = true` the first time, since the handler
read the worker unassigned, and `isAvailable = false` the second time, since it then read
the worker assigned: the database after two requests is not the database after one. -/
theorem set_operator_not_idempotent :
    (manpowerPut storeAsSent seedDb seedWorker._id setAssignBody).1.status = 200 ∧
    (Manpower.findById
        (manpowerPut storeAsSent seedDb seedWorker._id setAssignBody).2.manpower
        seedWorker._id).map (fun m => (m.assignedProject, m.isAvailable)) =
      some (some strayId, some true) ∧
    (manpowerPut storeAsSent
        (manpowerPut storeAsSent seedDb seedWorker._id setAssignBody).2
        seedWorker._id setAssignBody).1.status = 200 ∧
    (Manpower.findById
        (manpowerPut storeAsSent
          (manpowerPut storeAsSent seedDb seedWorker._id setAssignBody).2
          seedWorker._id setAssignBody).2.manpower
        seedWorker._id).map (fun m => (m.assignedProject, m.isAvailable)) =
      some (some strayId, some false) ∧
    (manpowerPut storeAsSent
        (manpowerPut storeAsSent seedDb seedWorker._id setAssignBody).2
        seedWorker._id setAssignBody).2 ≠
      (manpowerPut storeAsSent seedDb seedWorker._id setAssignBody).2 := by
  decide

theorem preSave_employeeId (doc : Manpower) : (preSave doc).employeeId = doc.employeeId := by
  unfold preSave
  split <;> rfl

theorem manpowerPostErrors_nil {body : ManpowerBody} (h : manpowerPostErrors body = []) :
    (jsTrim (body.employeeId.getD "") == "") = false ∧
    (jsTrim (body.name.getD "") == "") = false ∧
    (jsTrim (body.role.getD "") == "") = false := by
  unfold manpowerPostErrors at h
  by_cases h1 : (jsTrim (body.employeeId.getD "") == "") = true
  · simp [h1] at h
  · by_cases h2 : (jsTrim (body.name.getD "") == "") = true
    · simp [h2] at h
    · by_cases h3 : (jsTrim (body.role.getD "") == "") = true
      · simp [h3] at h
      · exact ⟨by simpa using h1, by simpa using h2, by simpa using h3⟩

/-- A request that passes validation, uses a free employee id and is accepted by the schema
is answered with 201. -/
theorem manpowerPost_succeeds {c : String → JVal → PathCast} {db : Db} {newId userId : ObjectId}
    {body : ManpowerBody} (hv : manpowerPostErrors body = [])
    (hfree : Manpower.findOne db.manpower (jsTrim (body.employeeId.getD "")) = none)
    (hfresh : db.manpower.any (fun d => d._id == newId) = false)
    (hap : (castKey castObjectId body.assignedProject).isSome = true)
    (hav : (castKey castBoolean body.isAvailable).isSome = true)
    (hex : (castFields c (setKey "createdBy" (.str userId) body.extra)).isSome = true) :
    (manpowerPost c db newId userId body).1.status = 201 := by
  obtain ⟨h1, h2, h3⟩ := manpowerPostErrors_nil hv
  obtain ⟨ap, hap⟩ := Option.isSome_iff_exists.mp hap
  obtain ⟨av, hav⟩ := Option.isSome_iff_exists.mp hav
  obtain ⟨ex, hex⟩ := Option.isSome_iff_exists.mp hex
  have hdup : db.manpower.any (fun d => d._id == newId ||
      d.employeeId == jsTrim (body.employeeId.getD "")) = false := by
    rw [List.any_eq_false] at hfresh ⊢
    intro d hd
    have hf := List.find?_eq_none.mp hfree d hd
    have hn := hfresh d hd
    simp only [Bool.or_eq_true, not_or]
    exact ⟨hn, hf⟩
  unfold manpowerPost
  simp only [hv, List.isEmpty_nil, Bool.not_true, Bool.false_eq_true, if_false, hfree]
  unfold Manpower.create
  simp only [Option.getD_some, castRequiredText_jsTrim h1, castRequiredText_jsTrim h2,
    castRequiredText_jsTrim h3, hap, hav, hex, preSave_employeeId, hdup, Bool.false_eq_true,
    if_false]

/-- C7: on `POST /api/manpower` the stored `isAvailable` follows from `assignedProject`
alone.  A worker created without `assignedProject` is stored with `isAvailable = true`
and one created with a (truthy) `assignedProject` with `isAvailable = false`, whatever the
body carries under `isAvailable`; and a request that passes validation, uses a free
employee id and is accepted by the schema is indeed answered with 201. -/
theorem create_derives_isAvailable (c : String → JVal → PathCast) (db : Db)
    (newId userId : ObjectId) (body : ManpowerBody) :
    (body.assignedProject = none → (manpowerPost c db newId userId body).1.status = 201 →
      ∃ doc, (manpowerPost c db newId userId body).1.data = some doc ∧
        (manpowerPost c db newId userId body).2.manpower = db.manpower ++ [doc] ∧
        doc.assignedProject = none ∧ doc.isAvailable = some true) ∧
    (∀ P, body.assignedProject = some P → jsTruthy (some P) = true →
      (manpowerPost c db newId userId body).1.status = 201 →
      ∃ doc i, (manpowerPost c db newId userId body).1.data = some doc ∧
        (manpowerPost c db newId userId body).2.manpower = db.manpower ++ [doc] ∧
        castObjectId P = some (some i) ∧
        doc.assignedProject = some i ∧ doc.isAvailable = some false) ∧
    (manpowerPostErrors body = [] →
      Manpower.findOne db.manpower (jsTrim (body.employeeId.getD "")) = none →
      db.manpower.any (fun d => d._id == newId) = false →
      (castKey castObjectId body.assignedProject).isSome = true →
      (castKey castBoolean body.isAvailable).isSome = true →
      (castFields c (setKey "createdBy" (.str userId) body.extra)).isSome = true →
      (manpowerPost c db newId userId body).1.status = 201) := by
  refine ⟨?_, ?_, ?_⟩
  · intro hn h
    obtain ⟨doc, ap, h1, h2, h3, heq⟩ := manpowerPost_created h
    rw [hn] at h1
    have hap : ap = none := by simpa [castKey] using h1.symm
    subst hap
    refine ⟨doc, by rw [heq], by rw [heq], by simpa using h2, ?_⟩
    rw [h3, h2]; rfl
  · intro P hP ht h
    obtain ⟨doc, ap, h1, h2, h3, heq⟩ := manpowerPost_created h
    rw [hP] at h1
    cases hc : castObjectId P with
    | none => simp [castKey, hc] at h1
    | some x =>
      obtain ⟨i, hi⟩ := castObjectId_truthy ht hc
      subst hi
      have hap : ap = some (some i) := by simpa [castKey, hc] using h1.symm
      subst hap
      refine ⟨doc, i, by rw [heq], by rw [heq], rfl, by simpa using h2, ?_⟩
      rw [h3, h2]; rfl
  · intro hv hfree hfresh hap hav hex
    exact manpowerPost_succeeds hv hfree hfresh hap hav hex

theorem create_derives_isAvailable_witness :
    (unassignedBody.assignedProject = none ∧
      (manpowerPost storeAsSent seedDb strayId "65a0000000000000000000aa"
        unassignedBody).1.status = 201 ∧
      ∃ doc, (manpowerPost storeAsSent seedDb strayId "65a0000000000000000000aa"
          unassignedBody).1.data = some doc ∧
        (manpowerPost storeAsSent seedDb strayId "65a0000000000000000000aa"
          unassignedBody).2.manpower = seedDb.manpower ++ [doc] ∧
        doc.assignedProject = none ∧ doc.isAvailable = some true) ∧
    (seedAssignedBody.assignedProject = some (.str strayId) ∧
      jsTruthy (some (JVal.str strayId)) = true ∧
      ∃ doc i, (manpowerPost storeAsSent seedDb strayId "65a0000000000000000000aa"
          seedAssignedBody).1.data = some doc ∧
        (manpowerPost storeAsSent seedDb strayId "65a0000000000000000000aa"
          seedAssignedBody).2.manpower = seedDb.manpower ++ [doc] ∧
        castObjectId (JVal.str strayId) = some (some i) ∧
        doc.assignedProject = some i ∧ doc.isAvailable = some false) ∧
    (manpowerPost storeAsSent seedDb strayId "65a0000000000000000000aa"
      seedAssignedBody).1.status = 201 :=
  ⟨⟨rfl, by decide,
    (create_derives_isAvailable storeAsSent seedDb strayId "65a0000000000000000000aa"
      unassignedBody).1 rfl (by decide)⟩,
   ⟨rfl, by decide,
    (create_derives_isAvailable storeAsSent seedDb strayId "65a0000000000000000000aa"
      seedAssignedBody).2.1 _ rfl (by decide) (by decide)⟩,
   (create_derives_isAvailable storeAsSent seedDb strayId "65a0000000000000000000aa"
      seedAssignedBody).2.2 (by decide) (by decide) (by decide) (by decide) (by decide)
      (by decide)⟩

/-! ## Assignment and the Project collection -/

theorem updateData_of_truthy (m : Manpower) {body : ManpowerBody}
    (ht : jsTruthy body.assignedProject = true) :
    updateData m body = some { body with isAvailable := some (.bool false) } := by
  rcases updateData_cases m body with ⟨_, h⟩ | ⟨h0, _⟩ | ⟨h0, _⟩ | ⟨h0, _⟩ | ⟨h0, _⟩
  · exact h
  · rcases h0 with h0 | h0 <;> simp [h0, jsTruthy] at ht
  · rcases h0 with h0 | h0 | h0 <;> simp [h0, jsTruthy] at ht
  · simp [h0, jsTruthy] at ht
  · rcases h0 with h0 | h0 <;> simp [h0, jsTruthy] at ht

theorem setSugar_with_isAvailable (body : ManpowerBody) (x : JVal) :
    setSugar { body with isAvailable := some x } =
      { setSugar body with isAvailable := some x } := by
  unfold setSugar
  cases body.setOperator <;> rfl

theorem jsTruthy_objectIdString {P : String} (hid : isObjectIdString P = true) :
    jsTruthy (some (.str P)) = true := by
  have hne : P ≠ "" := by
    intro h
    subst h
    simp [isObjectIdString] at hid
  simp [jsTruthy, hne]

/-- C8 (as the code has it): an update whose `assignedProject` is a well-formed ObjectId is
answered with 200 and stores the id that `P` denotes and `isAvailable = false` although no
Project has that id; the handler never reads the Project collection, so the hypothesis
`hmissing` plays no part in the outcome.  The update, which is the body with its keys
written into its `$set` object, is one that does not change `employeeId` and whose other
paths the schema accepts. -/
theorem assignment_not_checked_against_projects (c : String → JVal → PathCast) (db : Db)
    (id : ObjectId) (m : Manpower) (body : ManpowerBody) (P : String)
    (hf : Manpower.findById db.manpower id = some m)
    (hP : body.assignedProject = some (.str P)) (hid : isObjectIdString P = true)
    (_hmissing : Project.findById db.projects (toHexString P) = none)
    (he : (setSugar body).employeeId = none)
    (hname : (castKey castRequiredText (setSugar body).name).isSome = true)
    (hrole : (castKey castRequiredText (setSugar body).role).isSome = true)
    (hextra : (castFields c (setSugar body).extra).isSome = true) :
    (manpowerPut c db id body).1.status = 200 ∧
    ∃ doc, (manpowerPut c db id body).1.data = some doc ∧
      Manpower.findById (manpowerPut c db id body).2.manpower id = some doc ∧
      doc.assignedProject = some (toHexString P) ∧ doc.isAvailable = some false ∧
      (manpowerPut c db id body).2.projects = db.projects := by
  have ht : jsTruthy body.assignedProject = true := by
    rw [hP]; exact jsTruthy_objectIdString hid
  obtain ⟨n, hname⟩ := Option.isSome_iff_exists.mp hname
  obtain ⟨r, hrole⟩ := Option.isSome_iff_exists.mp hrole
  obtain ⟨ex, hextra⟩ := Option.isSome_iff_exists.mp hextra
  have h200 : (manpowerPut c db id body).1.status = 200 := by
    unfold manpowerPut
    simp only [hf, updateData_of_truthy m ht]
    have h1 : castKey castRequiredText (none : Option String) = some none := rfl
    have h2 : castKey castObjectId (some (JVal.str P)) =
        some (some (some (toHexString P))) := by
      simp [castKey, castObjectId, hid]
    have h3 : castKey castBoolean (some (JVal.bool false)) = some (some (some false)) := rfl
    have h4 := setSugar_assignedProject body hP
    unfold Manpower.findByIdAndUpdate castManpowerUpdate
    simp only [setSugar_with_isAvailable]
    simp [he, hname, hrole, hextra, h4, h1, h2, h3, hf]
  refine ⟨h200, ?_⟩
  obtain ⟨m2, ud, u, hf2, hud, hc, hdata, hfind, hproj⟩ := manpowerPut_stored h200
  obtain ⟨⟨v, i, hv, hcast, h1⟩, h2⟩ := cast_assign ht hud hc
  rw [hP] at hv
  cases hv
  have hi : i = toHexString P := by
    simp [castObjectId, hid] at hcast
    exact hcast.symm
  subst hi
  exact ⟨_, hdata, hfind, by simp [applyManpowerSet, h1], by simp [applyManpowerSet, h2], hproj⟩

theorem assignment_not_checked_against_projects_witness :
    Manpower.findById seedDb.manpower seedWorker._id = some seedWorker ∧
    isObjectIdString strayId = true ∧
    Project.findById seedDb.projects strayId = none ∧
    (manpowerPut storeAsSent seedDb seedWorker._id
        { assignedProject := some (.str strayId) }).1.status = 200 ∧
    ∃ doc, (manpowerPut storeAsSent seedDb seedWorker._id
          { assignedProject := some (.str strayId) }).1.data = some doc ∧
      Manpower.findById (manpowerPut storeAsSent seedDb seedWorker._id
          { assignedProject := some (.str strayId) }).2.manpower seedWorker._id = some doc ∧
      doc.assignedProject = some strayId ∧ doc.isAvailable = some false ∧
      (manpowerPut storeAsSent seedDb seedWorker._id
          { assignedProject := some (.str strayId) }).2.projects = seedDb.projects :=
  ⟨by decide, by decide, by decide,
   assignment_not_checked_against_projects storeAsSent seedDb seedWorker._id seedWorker
     { assignedProject := some (.str strayId) } strayId (by decide) rfl (by decide) (by decide)
     rfl (by decide) (by decide) (by decide)⟩

/-- C8 (a counterexample to the statement as written): in a database without any project, assigning the seed worker to
an id that no Project has is answered with 200, not 404, and the record is changed. -/
theorem assign_missing_project_example :
    Project.findById seedDb.projects strayId = none ∧
    (manpowerPut storeAsSent seedDb seedWorker._id
        { assignedProject := some (.str strayId) }).1.status = 200 ∧
    (manpowerPut storeAsSent seedDb seedWorker._id
        { assignedProject := some (.str strayId) }).1.status ≠ 404 ∧
    Manpower.findById (manpowerPut storeAsSent seedDb seedWorker._id
        { assignedProject := some (.str strayId) }).2.manpower seedWorker._id
      = some { seedWorker with assignedProject := some strayId, isAvailable := some false } ∧
    (manpowerPut storeAsSent seedDb seedWorker._id
        { assignedProject := some (.str strayId) }).2 ≠ seedDb := by
  decide

/-! ## Project identifiers -/

theorem upperChar_of_lt {ch : Char} (h : ch.toNat < 97) : upperChar ch = ch := by
  unfold upperChar
  rw [if_neg]
  omega

theorem toUpperCase_of_matches {s : String} (h : matchesProjectIdPattern s = true) :
    toUpperCase s = s := by
  rcases s with ⟨l⟩
  unfold matchesProjectIdPattern at h
  simp only [String.toList] at h
  split at h
  · rename_i l0 a b c d e f g
    simp only [Bool.and_eq_true, decide_eq_true_eq, beq_iff_eq] at h
    obtain ⟨⟨⟨⟨⟨⟨⟨_, ha⟩, ⟨_, hb⟩⟩, ⟨_, hc⟩⟩, hd⟩, ⟨_, he⟩⟩, ⟨_, hf⟩⟩, ⟨_, hg⟩⟩ := h
    subst hd
    simp only [toUpperCase, String.toList, List.map]
    rw [upperChar_of_lt (by omega), upperChar_of_lt (by omega), upperChar_of_lt (by omega),
      upperChar_of_lt (by decide), upperChar_of_lt (by omega), upperChar_of_lt (by omega),
      upperChar_of_lt (by omega)]
  · simp at h

theorem projectsPostErrors_nil {body : ProjectBody} :
    projectsPostErrors body = [] ↔
      matchesProjectIdPattern (body.projectId.getD "") = true ∧
      (jsTrim (body.name.getD "") == "") = false ∧
      (jsTrim (body.location.getD "") == "") = false := by
  unfold projectsPostErrors
  by_cases h1 : matchesProjectIdPattern (body.projectId.getD "") = true <;>
  by_cases h2 : (jsTrim (body.name.getD "") == "") = true <;>
  by_cases h3 : (jsTrim (body.location.getD "") == "") = true <;>
  simp [h1, h2, h3]

theorem projectCreate_ok {c : String → JVal → PathCast} {coll : List Project}
    {newId : ObjectId} {body : ProjectBody} {r : Project × List Project}
    (h : Project.create c coll newId body = .ok r) :
    r.1.projectId = toUpperCase (body.projectId.getD "") ∧ r.2 = coll ++ [r.1] := by
  unfold Project.create at h
  simp only at h
  split at h
  · split at h
    · simp at h
    · split at h
      · simp at h
      · simp only [Except.ok.injEq] at h
        subst h
        exact ⟨rfl, rfl⟩
  · simp at h

theorem projectsPost_created {c : String → JVal → PathCast} {db : Db} {newId userId : ObjectId}
    {body : ProjectBody} (h : (projectsPost c db newId userId body).1.status = 201) :
    projectsPostErrors body = [] ∧
    ∃ doc, doc.projectId = toUpperCase (toUpperCase (body.projectId.getD "")) ∧
      projectsPost c db newId userId body =
        ({ status := 201, success := true, data := some doc },
         { db with projects := db.projects ++ [doc] }) := by
  unfold projectsPost at h ⊢
  simp only at h ⊢
  by_cases herr : (!(projectsPostErrors body).isEmpty) = true
  · simp [herr] at h
  · rw [if_neg herr] at h ⊢
    refine ⟨by simpa using herr, ?_⟩
    cases hfind : Project.findOne db.projects (toUpperCase (body.projectId.getD "")) with
    | some d => simp [hfind] at h
    | none =>
      simp only [hfind] at h ⊢
      split at h
      · rename_i project coll hcreate
        obtain ⟨h1, h2⟩ := projectCreate_ok hcreate
        simp only at h1 h2
        subst h2
        refine ⟨project, by simpa using h1, ?_⟩
        simp [hcreate]
      · simp at h
      · simp at h

/-- A project request that passes validation, uses a free identifier and is accepted by
the schema is answered with 201. -/
theorem projectsPost_succeeds {c : String → JVal → PathCast} {db : Db} {newId userId : ObjectId}
    {body : ProjectBody} (hv : projectsPostErrors body = [])
    (hfree : Project.findOne db.projects (body.projectId.getD "") = none)
    (hfresh : db.projects.any (fun d => d._id == newId) = false)
    (hstatus : projectStatusEnum.contains (body.status.getD "Planning") = true)
    (hprogress : 0 ≤ body.progress.getD 0 ∧ body.progress.getD 0 ≤ 100)
    (hex : (castFields c (setKey "createdBy" (.str userId) body.extra)).isSome = true)
    (htl : (castTimeline c (body.timeline.getD [])).isSome = true) :
    (projectsPost c db newId userId body).1.status = 201 := by
  obtain ⟨h1, h2, h3⟩ := projectsPostErrors_nil.mp hv
  have hup := toUpperCase_of_matches h1
  obtain ⟨ex, hex⟩ := Option.isSome_iff_exists.mp hex
  obtain ⟨tl, htl⟩ := Option.isSome_iff_exists.mp htl
  have hdup : db.projects.any (fun d => d._id == newId ||
      d.projectId == body.projectId.getD "") = false := by
    rw [List.any_eq_false] at hfresh ⊢
    intro d hd
    have hf := List.find?_eq_none.mp hfree d hd
    have hn := hfresh d hd
    simp only [Bool.or_eq_true, not_or]
    exact ⟨hn, hf⟩
  have hp1 : ¬ (body.progress.getD 0 < 0) := by omega
  have hp2 : ¬ (100 < body.progress.getD 0) := by omega
  unfold projectsPost
  simp only [hv, List.isEmpty_nil, Bool.not_true, Bool.false_eq_true, if_false, hup, hfree]
  unfold Project.create
  simp only [Option.getD_some, castRequiredText_jsTrim h2, castRequiredText_jsTrim h3, hex,
    htl, hup, h1, hstatus, hp1, hp2, hdup, Bool.not_true, Bool.or_self, decide_False,
    Bool.false_eq_true, if_false]

/-- C9 (as the code has it): `POST /api/projects` tests the identifier as it is sent.  A
body whose `projectId` does not match `^[A-Z]{3}-[0-9]{3}$` is answered with 400 and the
format error, and nothing is written; a 201 is only given for a matching identifier,
which is then stored as sent (upper-casing leaves it as it is); and a matching identifier
in a request with a name and a location, not yet in use and accepted by the schema, is
answered with 201. -/
theorem projectId_accepted_as_sent (c : String → JVal → PathCast) (db : Db)
    (newId userId : ObjectId) (body : ProjectBody) (s : String) (hs : body.projectId = some s) :
    (matchesProjectIdPattern s = false →
      (projectsPost c db newId userId body).1.status = 400 ∧
      "Project ID must be in format: XXX-000" ∈ (projectsPost c db newId userId body).1.errors ∧
      (projectsPost c db newId userId body).2 = db) ∧
    ((projectsPost c db newId userId body).1.status = 201 →
      matchesProjectIdPattern s = true ∧ toUpperCase s = s ∧
      ∃ doc, (projectsPost c db newId userId body).1.data = some doc ∧ doc.projectId = s ∧
        (projectsPost c db newId userId body).2.projects = db.projects ++ [doc]) ∧
    (matchesProjectIdPattern s = true →
      (jsTrim (body.name.getD "") == "") = false →
      (jsTrim (body.location.getD "") == "") = false →
      Project.findOne db.projects s = none →
      db.projects.any (fun d => d._id == newId) = false →
      projectStatusEnum.contains (body.status.getD "Planning") = true →
      (0 ≤ body.progress.getD 0 ∧ body.progress.getD 0 ≤ 100) →
      (castFields c (setKey "createdBy" (.str userId) body.extra)).isSome = true →
      (castTimeline c (body.timeline.getD [])).isSome = true →
      (projectsPost c db newId userId body).1.status = 201) := by
  have hget : body.projectId.getD "" = s := by rw [hs]; rfl
  refine ⟨?_, ?_, ?_⟩
  · intro hno
    have herr : projectsPostErrors body ≠ [] := by
      intro h
      have := (projectsPostErrors_nil.mp h).1
      rw [hget, hno] at this
      simp at this
    have hmem : "Project ID must be in format: XXX-000" ∈ projectsPostErrors body := by
      unfold projectsPostErrors
      rw [hget, hno]
      simp
    have hemp : (!(projectsPostErrors body).isEmpty) = true := by
      cases hl : projectsPostErrors body with
      | nil => exact absurd hl herr
      | cons a t => rfl
    unfold projectsPost
    rw [if_pos hemp]
    exact ⟨rfl, hmem, rfl⟩
  · intro h
    obtain ⟨hv, doc, hd, heq⟩ := projectsPost_created h
    have hm := (projectsPostErrors_nil.mp hv).1
    rw [hget] at hm hd
    have hup := toUpperCase_of_matches hm
    rw [hup, hup] at hd
    exact ⟨hm, hup, doc, by rw [heq], hd, by rw [heq]⟩
  · intro hm hn hl hfree hfresh hstatus hprogress hex htl
    apply projectsPost_succeeds
    · exact projectsPostErrors_nil.mpr ⟨by rw [hget]; exact hm, hn, hl⟩
    · rw [hget]; exact hfree
    · exact hfresh
    · exact hstatus
    · exact hprogress
    · exact hex
    · exact htl

theorem projectId_accepted_as_sent_witness :
    (matchesProjectIdPattern "pj-001" = false ∧
      (projectsPost storeAsSent seedDb strayId "65a0000000000000000000aa"
        (projectBody "pj-001")).1.status = 400 ∧
      "Project ID must be in format: XXX-000" ∈
        (projectsPost storeAsSent seedDb strayId "65a0000000000000000000aa"
          (projectBody "pj-001")).1.errors ∧
      (projectsPost storeAsSent seedDb strayId "65a0000000000000000000aa"
        (projectBody "pj-001")).2 = seedDb) ∧
    (matchesProjectIdPattern "PJT-001" = true ∧
      (projectsPost storeAsSent seedDb strayId "65a0000000000000000000aa"
        (projectBody "PJT-001")).1.status = 201) ∧
    (matchesProjectIdPattern "PJT-001" = true ∧ toUpperCase "PJT-001" = "PJT-001" ∧
      ∃ doc, (projectsPost storeAsSent seedDb strayId "65a0000000000000000000aa"
          (projectBody "PJT-001")).1.data = some doc ∧ doc.projectId = "PJT-001" ∧
        (projectsPost storeAsSent seedDb strayId "65a0000000000000000000aa"
          (projectBody "PJT-001")).2.projects = seedDb.projects ++ [doc]) :=
  ⟨⟨by decide,
    (projectId_accepted_as_sent storeAsSent seedDb strayId "65a0000000000000000000aa"
      (projectBody "pj-001") "pj-001" rfl).1 (by decide)⟩,
   ⟨by decide,
    (projectId_accepted_as_sent storeAsSent seedDb strayId "65a0000000000000000000aa"
      (projectBody "PJT-001") "PJT-001" rfl).2.2 (by decide) (by decide) (by decide) (by decide)
      (by decide) (by decide) (by decide) (by decide) (by decide)⟩,
   (projectId_accepted_as_sent storeAsSent seedDb strayId "65a0000000000000000000aa"
      (projectBody "PJT-001") "PJT-001" rfl).2.1 (by decide)⟩

/-- C9 (a counterexample to the statement as written): the upper-cased form of `pjt-001` matches the pattern, yet the
request is answered with 400 and the format error, and nothing is written. -/
theorem lowercase_projectId_rejected :
    matchesProjectIdPattern (toUpperCase "pjt-001") = true ∧
    projectsPost storeAsSent seedDb strayId "65a0000000000000000000aa" (projectBody "pjt-001")
      = ({ status := 400, success := false,
           errors := ["Project ID must be in format: XXX-000"] }, seedDb) := by
  decide

/-- C10 (as the code has it): a create request that passes validation and whose identifier
is the one of a stored document is answered with 400 and the message naming the
identifier, and the database is left as it was: for `POST /api/projects` the identifier
is the `projectId` (upper-cased, which after validation is the value as sent), for
`POST /api/manpower` it is the trimmed `employeeId`. -/
theorem duplicate_identifier_refused (c : String → JVal → PathCast) (db : Db)
    (newId userId : ObjectId) :
    (∀ body : ProjectBody, projectsPostErrors body = [] →
      (∃ d ∈ db.projects, d.projectId = toUpperCase (body.projectId.getD "")) →
      projectsPost c db newId userId body =
        ({ status := 400, success := false, message := some "Project ID already exists" }, db)) ∧
    (∀ body : ManpowerBody, manpowerPostErrors body = [] →
      (∃ d ∈ db.manpower, d.employeeId = jsTrim (body.employeeId.getD "")) →
      manpowerPost c db newId userId body =
        ({ status := 400, success := false, message := some "Employee ID already exists" },
          db)) := by
  constructor
  · intro body hv ⟨d, hd, heq⟩
    have hsome : (Project.findOne db.projects (toUpperCase (body.projectId.getD ""))).isSome
        = true := by
      unfold Project.findOne
      rw [List.find?_isSome]
      exact ⟨d, hd, by simp [heq]⟩
    obtain ⟨e, he⟩ := Option.isSome_iff_exists.mp hsome
    unfold projectsPost
    simp only [hv, List.isEmpty_nil, Bool.not_true, Bool.false_eq_true, if_false, he]
  · intro body hv ⟨d, hd, heq⟩
    have hsome : (Manpower.findOne db.manpower (jsTrim (body.employeeId.getD ""))).isSome
        = true := by
      unfold Manpower.findOne
      rw [List.find?_isSome]
      exact ⟨d, hd, by simp [heq]⟩
    obtain ⟨e, he⟩ := Option.isSome_iff_exists.mp hsome
    unfold manpowerPost
    simp only [hv, List.isEmpty_nil, Bool.not_true, Bool.false_eq_true, if_false, he]

theorem duplicate_identifier_refused_witness :
    (projectsPostErrors (projectBody "PJT-001") = [] ∧
      (∃ d ∈ seedProjectDb.projects,
        d.projectId = toUpperCase ((projectBody "PJT-001").projectId.getD "")) ∧
      projectsPost storeAsSent seedProjectDb strayId "65a0000000000000000000aa"
          (projectBody "PJT-001") =
        ({ status := 400, success := false, message := some "Project ID already exists" },
          seedProjectDb)) ∧
    (manpowerPostErrors { unassignedBody with employeeId := some "MP-03" } = [] ∧
      (∃ d ∈ seedProjectDb.manpower, d.employeeId =
        jsTrim (({ unassignedBody with employeeId := some "MP-03" } : ManpowerBody).employeeId.getD
          "")) ∧
      manpowerPost storeAsSent seedProjectDb strayId "65a0000000000000000000aa"
          { unassignedBody with employeeId := some "MP-03" } =
        ({ status := 400, success := false, message := some "Employee ID already exists" },
          seedProjectDb)) :=
  ⟨⟨by decide, by decide,
    (duplicate_identifier_refused storeAsSent seedProjectDb strayId
      "65a0000000000000000000aa").1 (projectBody "PJT-001") (by decide) (by decide)⟩,
   ⟨by decide, by decide,
    (duplicate_identifier_refused storeAsSent seedProjectDb strayId
      "65a0000000000000000000aa").2 { unassignedBody with employeeId := some "MP-03" }
      (by decide) (by decide)⟩⟩

/-- C10 (a counterexample to the statement as written): `pjt-001` equals the stored `PJT-001` after upper-casing, yet the
answer is the validation error of the format check and not the message that the
identifier already exists. -/
theorem lowercase_duplicate_not_a_conflict :
    (∃ d ∈ seedProjectDb.projects, d.projectId = toUpperCase "pjt-001") ∧
    (projectsPost storeAsSent seedProjectDb strayId "65a0000000000000000000aa"
        (projectBody "pjt-001")).1.message ≠ some "Project ID already exists" ∧
    projectsPost storeAsSent seedProjectDb strayId "65a0000000000000000000aa"
        (projectBody "pjt-001")
      = ({ status := 400, success := false,
           errors := ["Project ID must be in format: XXX-000"] }, seedProjectDb) := by
  decide

/-! ## Projects and reports as lists -/

theorem projectFindById_id {coll : List Project} {id : ObjectId} {p : Project}
    (h : Project.findById coll id = some p) : p._id = id := by
  have := List.find?_some h
  simpa using this

theorem projectFindById_mem {coll : List Project} {id : ObjectId} {p : Project}
    (h : Project.findById coll id = some p) : p ∈ coll :=
  List.mem_of_find?_eq_some h

theorem findById_replaceProject {coll : List Project} {id : ObjectId} {p doc : Project}
    (h : Project.findById coll id = some p) (hid : doc._id = id) :
    Project.findById (replaceProject id doc coll) id = some doc := by
  induction coll with
  | nil => simp [Project.findById] at h
  | cons d ds ih =>
    by_cases hd : d._id = id
    · simp [replaceProject, Project.findById, hd, hid]
    · have h2 : Project.findById ds id = some p := by
        simpa [Project.findById, List.find?_cons, hd] using h
      simpa [replaceProject, Project.findById, List.find?_cons, hd] using ih h2

theorem mem_replaceProject {coll : List Project} {id : ObjectId} {doc x : Project}
    (h : x ∈ replaceProject id doc coll) : x = doc ∨ x ∈ coll := by
  induction coll with
  | nil => simp [replaceProject] at h
  | cons d ds ih =>
    unfold replaceProject at h
    split at h
    · rcases List.mem_cons.mp h with h1 | h1
      · exact Or.inl h1
      · exact Or.inr (List.mem_cons_of_mem _ h1)
    · rcases List.mem_cons.mp h with h1 | h1
      · exact Or.inr (by rw [h1]; exact List.mem_cons_self _ _)
      · rcases ih h1 with h2 | h2
        · exact Or.inl h2
        · exact Or.inr (List.mem_cons_of_mem _ h2)

theorem progressFindById_id {coll : List Progress} {id : ObjectId} {r : Progress}
    (h : Progress.findById coll id = some r) : r._id = id := by
  have := List.find?_some h
  simpa using this

theorem findById_replaceProgress {coll : List Progress} {id : ObjectId} {r doc : Progress}
    (h : Progress.findById coll id = some r) (hid : doc._id = id) :
    Progress.findById (replaceProgress id doc coll) id = some doc := by
  induction coll with
  | nil => simp [Progress.findById] at h
  | cons d ds ih =>
    by_cases hd : d._id = id
    · simp [replaceProgress, Progress.findById, hd, hid]
    · have h2 : Progress.findById ds id = some r := by
        simpa [Progress.findById, List.find?_cons, hd] using h
      simpa [replaceProgress, Progress.findById, List.find?_cons, hd] using ih h2

theorem projectSave_ok {coll coll1 : List Project} {p : Project}
    (h : Project.save coll p = .ok coll1) :
    projectStatusEnum.contains p.status = true ∧ 0 ≤ p.progress ∧ p.progress ≤ 100 ∧
    coll1 = replaceProject p._id p coll := by
  unfold Project.save at h
  split at h
  · simp at h
  · rename_i hc
    simp only [Except.ok.injEq] at h
    simp only [Bool.or_eq_true, Bool.not_eq_true', decide_eq_true_eq, not_or, not_lt,
      Bool.not_eq_false] at hc
    exact ⟨hc.1.1, hc.1.2, hc.2, h.symm⟩

theorem projectSave_of_valid {coll : List Project} {p : Project}
    (hs : projectStatusEnum.contains p.status = true) (h0 : 0 ≤ p.progress)
    (h1 : p.progress ≤ 100) :
    Project.save coll p = .ok (replaceProject p._id p coll) := by
  unfold Project.save
  have a : ¬ (p.progress < 0) := by omega
  have b : ¬ (100 < p.progress) := by omega
  simp [a, b]
  simpa using hs

/-! ## Submitting a report -/

theorem progressPostErrors_nil {body : ProgressBody} :
    progressPostErrors body = [] ↔
      notEmpty body.project = true ∧
      (∃ w, body.workCompleted = some w ∧ 0 ≤ w ∧ w ≤ 100) ∧
      progressStatusEnum.contains (body.status.getD "") = true := by
  unfold progressPostErrors
  by_cases h1 : notEmpty body.project = true <;>
  by_cases h3 : progressStatusEnum.contains (body.status.getD "") = true <;>
  cases hw : body.workCompleted with
  | none => simp [h1, h3]
  | some w =>
    by_cases h2 : 0 ≤ w ∧ w ≤ 100
    · simp [h1, h3, h2]
    · have h2' : ¬ (0 ≤ w ∧ w ≤ 100) := h2
      simp only [h1, h3, h2, if_true, if_false, Option.some.injEq, exists_eq_left']
      simp [h2']

theorem progressCreate_ok {c : String → JVal → PathCast} {coll : List Progress}
    {newId : ObjectId} {body : ProgressBody} {r : Progress × List Progress}
    (h : Progress.create c coll newId body = .ok r) :
    r.1._id = newId ∧ body.workCompleted = some r.1.workCompleted ∧
    castKey castObjectId body.project = some (some (some r.1.project)) ∧
    castKey castObjectId body.reportedBy = some (some (some r.1.reportedBy)) ∧
    r.2 = coll ++ [r.1] := by
  unfold Progress.create at h
  split at h
  · rename_i project reportedBy workCompleted status extra h1 h2 h3 h4 h5
    split at h
    · simp at h
    · simp only at h
      split at h
      · simp at h
      · simp only [Except.ok.injEq] at h
        subst h
        exact ⟨rfl, h3, h1, h2, rfl⟩
  · simp at h

theorem projected_eq (p : Project) (w : Int) :
    (if w > 0 then { ({ p with progress := w } : Project) with status := "In Progress" }
      else { p with progress := w })
    = { p with progress := w, status := if w > 0 then "In Progress" else p.status } := by
  split <;> rfl

/-- What a report answered with 201 has done: the report is appended and the project it
names carries the reported percentage, with status `In Progress` when that is positive. -/
theorem progressPost_created {c : String → JVal → PathCast} {db : Db} {newId : ObjectId}
    {user : User} {body : ProgressBody}
    (h : (progressPost c db newId user body).1.status = 201) :
    ∃ w i p r, body.workCompleted = some w ∧ 0 ≤ w ∧ w ≤ 100 ∧
      castObjectId (body.project.getD .null) = some (some i) ∧
      Project.findById db.projects i = some p ∧
      r.workCompleted = w ∧ r.project = i ∧
      progressPost c db newId user body =
        ({ status := 201, success := true, data := some r },
         { db with
             progress := db.progress ++ [r]
             projects := replaceProject i
               { p with progress := w, status := if w > 0 then "In Progress" else p.status }
               db.projects }) := by
  unfold progressPost at h ⊢
  simp only at h ⊢
  by_cases herr : (!(progressPostErrors body).isEmpty) = true
  · simp [herr] at h
  · rw [if_neg herr] at h ⊢
    have hv : progressPostErrors body = [] := by simpa using herr
    obtain ⟨_, ⟨w, hw, hw0, hw1⟩, _⟩ := progressPostErrors_nil.mp hv
    unfold Project.findByIdValue at h ⊢
    cases hcast : castObjectId (body.project.getD .null) with
    | none => simp [hcast] at h
    | some x =>
      cases x with
      | none => simp [hcast] at h
      | some i =>
        simp only [hcast] at h ⊢
        cases hfind : Project.findById db.projects i with
        | none => simp [hfind] at h
        | some p =>
          simp only [hfind] at h ⊢
          cases hcreate : Progress.create c db.progress newId
              { body with reportedBy := some (.str user.id) } with
          | error e => simp [hcreate] at h
          | ok r =>
            obtain ⟨r, coll⟩ := r
            obtain ⟨_, hrw, hrp, _, hcoll⟩ := progressCreate_ok hcreate
            simp only at hrw hrp hcoll
            subst hcoll
            simp only [hcreate] at h ⊢
            simp only [hw] at h ⊢
            rw [projected_eq] at h ⊢
            cases hsave : Project.save db.projects
                { p with progress := w, status := if w > 0 then "In Progress" else p.status } with
            | error e => simp [hsave] at h
            | ok projects =>
              obtain ⟨_, _, _, hp⟩ := projectSave_ok hsave
              simp only at hp
              have hpid := projectFindById_id hfind
              subst hpid
              subst hp
              simp only [hsave]
              refine ⟨w, p._id, p, r, rfl, hw0, hw1, rfl, hfind, ?_, ?_, rfl⟩
              · rw [hw] at hrw
                exact (Option.some.inj hrw).symm
              · cases hproj : body.project with
                | none => simp [hproj, castKey] at hrp
                | some v =>
                  rw [hproj] at hcast hrp
                  simp only [Option.getD_some] at hcast
                  simp [castKey, hcast] at hrp
                  exact hrp.symm

theorem notEmpty_some {x : Option JVal} (h : notEmpty x = true) : ∃ v, x = some v := by
  cases x with
  | none => simp [notEmpty] at h
  | some v => exact ⟨v, rfl⟩

/-- A report that passes validation, names a stored project and is accepted by the schema
is answered with 201. -/
theorem progressPost_succeeds {c : String → JVal → PathCast} {db : Db} {newId : ObjectId}
    {user : User} {body : ProgressBody} {i : ObjectId} {p : Project}
    (hv : progressPostErrors body = [])
    (hi : castObjectId (body.project.getD .null) = some (some i))
    (hp : Project.findById db.projects i = some p)
    (hs : projectStatusEnum.contains p.status = true)
    (hfresh : db.progress.any (fun d => d._id == newId) = false)
    (huser : isObjectIdString user.id = true)
    (hex : (castFields c body.extra).isSome = true) :
    (progressPost c db newId user body).1.status = 201 := by
  obtain ⟨hne, ⟨w, hw, hw0, hw1⟩, hst⟩ := progressPostErrors_nil.mp hv
  obtain ⟨v, hproj⟩ := notEmpty_some hne
  obtain ⟨ex, hex⟩ := Option.isSome_iff_exists.mp hex
  rw [hproj] at hi
  simp only [Option.getD_some] at hi
  obtain ⟨s, hstatus⟩ : ∃ s, body.status = some s := by
    cases hb : body.status with
    | none => rw [hb] at hst; simp [progressStatusEnum] at hst
    | some s => exact ⟨s, rfl⟩
  rw [hstatus] at hst
  simp only [Option.getD_some] at hst
  obtain ⟨r, hcreate⟩ : ∃ r, Progress.create c db.progress newId
      { body with reportedBy := some (.str user.id) } = .ok (r, db.progress ++ [r]) := by
    refine ⟨{ _id := newId, project := i, reportedBy := toHexString user.id,
              workCompleted := w, status := s, extra := ex }, ?_⟩
    have a : ¬ (w < 0) := by omega
    have b : ¬ (100 < w) := by omega
    have h1 : castKey castObjectId (some v) = some (some (some i)) := by
      simp [castKey, hi]
    have h2 : castKey castObjectId (some (JVal.str user.id)) =
        some (some (some (toHexString user.id))) := by
      simp [castKey, castObjectId, huser]
    unfold Progress.create
    simp only [hproj, hw, hstatus, hex, h1, h2]
    simp only [a, b, hst, hfresh, decide_False, Bool.or_self, Bool.not_true, Bool.false_eq_true,
      if_false]
  have hsave : Project.save db.projects
      { p with progress := w, status := if w > 0 then "In Progress" else p.status } =
      .ok (replaceProject p._id
        { p with progress := w, status := if w > 0 then "In Progress" else p.status }
        db.projects) := by
    apply projectSave_of_valid
    · simp only
      split
      · decide
      · exact hs
    · exact hw0
    · exact hw1
  unfold progressPost
  simp only [hv, List.isEmpty_nil, Bool.not_true, Bool.false_eq_true, if_false, hcreate]
  simp only [hproj, Option.getD_some, Project.findByIdValue, hi, hp]
  simp only [hw]
  have hpe := projected_eq p w
  simp only at hpe
  rw [hpe, hsave]

/-- The project named by a report answered with 201, as it is stored afterwards. -/
theorem progressPost_project {c : String → JVal → PathCast} {db : Db} {newId : ObjectId}
    {user : User} {body : ProgressBody} {i : ObjectId} {p : Project} {w : Int}
    (hw : body.workCompleted = some w)
    (hi : castObjectId (body.project.getD .null) = some (some i))
    (hp : Project.findById db.projects i = some p)
    (h : (progressPost c db newId user body).1.status = 201) :
    Project.findById (progressPost c db newId user body).2.projects i =
      some { p with progress := w, status := if w > 0 then "In Progress" else p.status } := by
  obtain ⟨w1, i1, p1, r, hw1, _, _, hi1, hp1, _, _, heq⟩ := progressPost_created h
  rw [hw] at hw1
  cases hw1
  rw [hi] at hi1
  cases hi1
  rw [hp] at hp1
  cases hp1
  rw [heq]
  exact findById_replaceProject hp (by simpa using projectFindById_id hp)

/-- C12: a report answered with 201 leaves the project it names with `progress` equal to
the reported `workCompleted`, whatever the progress was before (last write wins); and a
report that passes validation, names a stored project and is accepted by the schema is
answered with 201. -/
theorem submitProgress_sets_progress (c : String → JVal → PathCast) (db : Db)
    (newId : ObjectId) (user : User) (body : ProgressBody) (i : ObjectId) (p : Project)
    (w : Int) (hw : body.workCompleted = some w)
    (hi : castObjectId (body.project.getD .null) = some (some i))
    (hp : Project.findById db.projects i = some p) :
    ((progressPost c db newId user body).1.status = 201 →
      ∃ q, Project.findById (progressPost c db newId user body).2.projects i = some q ∧
        q.progress = w) ∧
    (progressPostErrors body = [] →
      projectStatusEnum.contains p.status = true →
      db.progress.any (fun d => d._id == newId) = false →
      isObjectIdString user.id = true →
      (castFields c body.extra).isSome = true →
      (progressPost c db newId user body).1.status = 201) := by
  constructor
  · intro h
    exact ⟨_, progressPost_project hw hi hp h, rfl⟩
  · intro hv hs hfresh huser hex
    exact progressPost_succeeds hv hi hp hs hfresh huser hex

theorem submitProgress_sets_progress_witness :
    (Project.findById progressDb.projects planningProject._id).map (fun q => q.progress)
      = some 0 ∧
    (Project.findById reportedDb.projects planningProject._id).map
      (fun q => (q.status, q.progress)) = some ("In Progress", 45) ∧
    (progressPost storeAsSent reportedDb "65a0000000000000000000d9" seedUser
      (reportBody planningProject._id 10)).1.status = 201 ∧
    (∃ q, Project.findById (progressPost storeAsSent reportedDb "65a0000000000000000000d9"
        seedUser (reportBody planningProject._id 10)).2.projects planningProject._id = some q ∧
      q.progress = 10) :=
  ⟨by decide, by decide,
   (submitProgress_sets_progress storeAsSent reportedDb "65a0000000000000000000d9" seedUser
      (reportBody planningProject._id 10) planningProject._id
      { planningProject with progress := 45, status := "In Progress" } 10 rfl (by decide)
      (by decide)).2 (by decide) (by decide) (by decide) (by decide) (by decide),
   (submitProgress_sets_progress storeAsSent reportedDb "65a0000000000000000000d9" seedUser
      (reportBody planningProject._id 10) planningProject._id
      { planningProject with progress := 45, status := "In Progress" } 10 rfl (by decide)
      (by decide)).1 (by decide)⟩

/-- C13: a report with `workCompleted > 0` that is answered with 201 leaves a project
whose status was `Planning` with status `In Progress` (and the reported progress). -/
theorem planning_becomes_inProgress (c : String → JVal → PathCast) (db : Db)
    (newId : ObjectId) (user : User) (body : ProgressBody) (i : ObjectId) (p : Project)
    (w : Int) (hw : body.workCompleted = some w)
    (hi : castObjectId (body.project.getD .null) = some (some i))
    (hp : Project.findById db.projects i = some p)
    (_hplanning : p.status = "Planning") (hpos : 0 < w)
    (h : (progressPost c db newId user body).1.status = 201) :
    ∃ q, Project.findById (progressPost c db newId user body).2.projects i = some q ∧
      q.status = "In Progress" ∧ q.progress = w := by
  refine ⟨_, progressPost_project hw hi hp h, ?_, rfl⟩
  simp [hpos]

theorem planning_becomes_inProgress_witness :
    planningProject.status = "Planning" ∧ planningProject.progress = 0 ∧ (0 : Int) < 45 ∧
    (progressPost storeAsSent progressDb "65a0000000000000000000d8" seedUser
      (reportBody planningProject._id 45)).1.status = 201 ∧
    (∃ q, Project.findById (progressPost storeAsSent progressDb "65a0000000000000000000d8"
        seedUser (reportBody planningProject._id 45)).2.projects planningProject._id = some q ∧
      q.status = "In Progress" ∧ q.progress = 45) :=
  ⟨by decide, by decide, by decide, by decide,
   planning_becomes_inProgress storeAsSent progressDb "65a0000000000000000000d8" seedUser
     (reportBody planningProject._id 45) planningProject._id planningProject 45 rfl
     (by decide) (by decide) (by decide) (by decide) (by decide)⟩

/-- C14: a report with `workCompleted = 0` that is answered with 201 leaves the status of
the project as it was, whatever it was; a report with `workCompleted = 100` leaves the
status `In Progress`, so it is never `Completed` afterwards. -/
theorem submitProgress_boundaries (c : String → JVal → PathCast) (db : Db)
    (newId : ObjectId) (user : User) (body : ProgressBody) (i : ObjectId) (p : Project)
    (w : Int) (hw : body.workCompleted = some w)
    (hi : castObjectId (body.project.getD .null) = some (some i))
    (hp : Project.findById db.projects i = some p)
    (h : (progressPost c db newId user body).1.status = 201) :
    (w = 0 →
      ∃ q, Project.findById (progressPost c db newId user body).2.projects i = some q ∧
        q.status = p.status ∧ q.progress = 0) ∧
    (w = 100 →
      ∃ q, Project.findById (progressPost c db newId user body).2.projects i = some q ∧
        q.status = "In Progress" ∧ q.status ≠ "Completed" ∧ q.progress = 100) := by
  constructor
  · intro h0
    refine ⟨_, progressPost_project hw hi hp h, ?_, h0⟩
    simp [h0]
  · intro h100
    refine ⟨_, progressPost_project hw hi hp h, ?_, ?_, h100⟩
    · simp [h100]
    · simp [h100]

theorem submitProgress_boundaries_witness :
    (progressPost storeAsSent progressDb "65a0000000000000000000d8" seedUser
      (reportBody onHoldProject._id 0)).1.status = 201 ∧
    (progressPost storeAsSent progressDb "65a0000000000000000000d8" seedUser
      (reportBody planningProject._id 100)).1.status = 201 ∧
    (∃ q, Project.findById (progressPost storeAsSent progressDb "65a0000000000000000000d8"
        seedUser (reportBody onHoldProject._id 0)).2.projects onHoldProject._id = some q ∧
      q.status = onHoldProject.status ∧ q.progress = 0) ∧
    (∃ q, Project.findById (progressPost storeAsSent progressDb "65a0000000000000000000d8"
        seedUser (reportBody planningProject._id 100)).2.projects planningProject._id = some q ∧
      q.status = "In Progress" ∧ q.status ≠ "Completed" ∧ q.progress = 100) :=
  ⟨by decide, by decide,
   (submitProgress_boundaries storeAsSent progressDb "65a0000000000000000000d8" seedUser
      (reportBody onHoldProject._id 0) onHoldProject._id onHoldProject 0 rfl (by decide)
      (by decide) (by decide)).1 rfl,
   (submitProgress_boundaries storeAsSent progressDb "65a0000000000000000000d8" seedUser
      (reportBody planningProject._id 100) planningProject._id planningProject 100 rfl
      (by decide) (by decide) (by decide)).2 rfl⟩

/-- C15 (as the code has it): for a project whose status is `On Hold` or `Completed`, a
report answered with 201 leaves the status as it was when `workCompleted = 0` and sets it
to `In Progress` when `workCompleted > 0`: the handler does not look at the status the
project had. -/
theorem held_or_completed_status_after_report (c : String → JVal → PathCast) (db : Db)
    (newId : ObjectId) (user : User) (body : ProgressBody) (i : ObjectId) (p : Project)
    (w : Int) (hw : body.workCompleted = some w)
    (hi : castObjectId (body.project.getD .null) = some (some i))
    (hp : Project.findById db.projects i = some p)
    (_hstatus : p.status = "On Hold" ∨ p.status = "Completed")
    (h : (progressPost c db newId user body).1.status = 201) :
    ∃ q, Project.findById (progressPost c db newId user body).2.projects i = some q ∧
      (w = 0 → q.status = p.status) ∧ (0 < w → q.status = "In Progress") := by
  refine ⟨_, progressPost_project hw hi hp h, ?_, ?_⟩
  · intro h0
    simp [h0]
  · intro hpos
    simp [hpos]

theorem held_or_completed_status_after_report_witness :
    (onHoldProject.status = "On Hold" ∨ onHoldProject.status = "Completed") ∧
    (progressPost storeAsSent progressDb "65a0000000000000000000d8" seedUser
      (reportBody onHoldProject._id 10)).1.status = 201 ∧
    (∃ q, Project.findById (progressPost storeAsSent progressDb "65a0000000000000000000d8"
        seedUser (reportBody onHoldProject._id 10)).2.projects onHoldProject._id = some q ∧
      ((10 : Int) = 0 → q.status = onHoldProject.status) ∧
      ((0 : Int) < 10 → q.status = "In Progress")) :=
  ⟨by decide, by decide,
   held_or_completed_status_after_report storeAsSent progressDb "65a0000000000000000000d8"
     seedUser (reportBody onHoldProject._id 10) onHoldProject._id onHoldProject 10 rfl
     (by decide) (by decide) (by decide) (by decide)⟩

/-- C15 (a counterexample to the statement as written): a report of 10 percent on a project
that is `On Hold` is answered with 201 and the project is `In Progress` afterwards. -/
theorem onHold_project_becomes_inProgress :
    onHoldProject.status = "On Hold" ∧
    Project.findById progressDb.projects onHoldProject._id = some onHoldProject ∧
    (progressPost storeAsSent progressDb "65a0000000000000000000d8" seedUser
      (reportBody onHoldProject._id 10)).1.status = 201 ∧
    Project.findById (progressPost storeAsSent progressDb "65a0000000000000000000d8" seedUser
      (reportBody onHoldProject._id 10)).2.projects onHoldProject._id
      = some { onHoldProject with progress := 10, status := "In Progress" } := by
  decide

/-- C16 (a counterexample to the statement as written): the reference `not-an-id` passes
the validation chain, which only asks for a non-empty value, and is the id of no stored
project; the query throws on it and the request is answered with 500 `Server error`, not
with 404.  The database is left as it was. -/
theorem malformed_project_reference_is_server_error :
    progressPostErrors { reportBody strayId 10 with project := some (.str "not-an-id") } = [] ∧
    progressDb.projects.all (fun p => p._id != "not-an-id") = true ∧
    progressPost storeAsSent progressDb "65a0000000000000000000d8" seedUser
        { reportBody strayId 10 with project := some (.str "not-an-id") } =
      ({ status := 500, success := false, message := some "Server error" }, progressDb) ∧
    (progressPost storeAsSent progressDb "65a0000000000000000000d8" seedUser
        { reportBody strayId 10 with project := some (.str "not-an-id") }).1.status ≠ 404 := by
  decide

/-- C16 (as amended): a report that passes validation and names, by a well-formed id, a
project that is not stored is answered with 404 `Project not found`; a report that passes
validation and whose reference is not a well-formed id is answered with 500
`Server error`.  In both cases the database is left as it was: no report is created and no
project is modified. -/
theorem submitProgress_missing_project (c : String → JVal → PathCast) (db : Db)
    (newId : ObjectId) (user : User) (body : ProgressBody)
    (hv : progressPostErrors body = []) :
    (∀ i : ObjectId, castObjectId (body.project.getD .null) = some (some i) →
      Project.findById db.projects i = none →
      progressPost c db newId user body =
        ({ status := 404, success := false, message := some "Project not found" }, db)) ∧
    (castObjectId (body.project.getD .null) = none →
      progressPost c db newId user body =
        ({ status := 500, success := false, message := some "Server error" }, db)) := by
  constructor
  · intro i hi hnone
    unfold progressPost
    simp only [hv, List.isEmpty_nil, Bool.not_true, Bool.false_eq_true, if_false,
      Project.findByIdValue, hi, hnone]
  · intro hi
    unfold progressPost
    simp only [hv, List.isEmpty_nil, Bool.not_true, Bool.false_eq_true, if_false,
      Project.findByIdValue, hi]

/-- A reference written with upper-case digits denotes the same id: the report on the
planning project is accepted. -/
theorem uppercase_reference_finds_project :
    (progressPost storeAsSent progressDb "65a0000000000000000000d8" seedUser
      (reportBody "65A0000000000000000000B2" 10)).1.status = 201 := by
  decide

/-- C16 (an instance): the well-formed reference `strayId` matches no project of
`progressDb` and is answered with 404. -/
theorem submitProgress_missing_project_witness :
    progressPostErrors (reportBody strayId 10) = [] ∧
    Project.findById progressDb.projects strayId = none ∧
    progressPost storeAsSent progressDb "65a0000000000000000000d8" seedUser
        (reportBody strayId 10) =
      ({ status := 404, success := false, message := some "Project not found" }, progressDb) :=
  ⟨by decide, by decide,
   (submitProgress_missing_project storeAsSent progressDb "65a0000000000000000000d8" seedUser
     (reportBody strayId 10) (by decide)).1 strayId (by decide) (by decide)⟩

/-! ## The range of `progress` -/

theorem progressInRange_iff (db : Db) :
    progressInRange db = true ↔ ∀ p ∈ db.projects, 0 ≤ p.progress ∧ p.progress ≤ 100 := by
  simp [progressInRange, List.all_eq_true]

theorem inRange_of_save {coll coll1 : List Project} {q : Project}
    (hsave : Project.save coll q = .ok coll1)
    (h : ∀ p ∈ coll, 0 ≤ p.progress ∧ p.progress ≤ 100) :
    ∀ p ∈ coll1, 0 ≤ p.progress ∧ p.progress ≤ 100 := by
  obtain ⟨_, h0, h1, hc⟩ := projectSave_ok hsave
  subst hc
  intro p hp
  rcases mem_replaceProject hp with h2 | h2
  · rw [h2]; exact ⟨h0, h1⟩
  · exact h p h2

/-- The projects after a submitted report: as before, or as one `save` has left them. -/
theorem progressPost_projects (c : String → JVal → PathCast) (db : Db) (newId : ObjectId)
    (user : User) (body : ProgressBody) :
    (progressPost c db newId user body).2.projects = db.projects ∨
    ∃ q, Project.save db.projects q = .ok (progressPost c db newId user body).2.projects := by
  unfold progressPost
  simp only
  split
  · exact Or.inl rfl
  · split
    · exact Or.inl rfl
    · exact Or.inl rfl
    · split
      · exact Or.inl rfl
      · split
        · exact Or.inl rfl
        · split
          · exact Or.inl rfl
          · rename_i hsave
            exact Or.inr ⟨_, hsave⟩

/-- The projects after the update of a report: as before, or as one `save` has left them. -/
theorem progressPut_projects (c : String → JVal → PathCast) (db : Db) (id : ObjectId)
    (user : User) (body : ProgressBody) :
    (progressPut c db id user body).2.projects = db.projects ∨
    ∃ q, Project.save db.projects q = .ok (progressPut c db id user body).2.projects := by
  unfold progressPut
  simp only
  split
  · exact Or.inl rfl
  · split
    · exact Or.inl rfl
    · split
      · exact Or.inl rfl
      · split
        · exact Or.inl rfl
        · split
          · exact Or.inl rfl
          · split
            · exact Or.inl rfl
            · split
              · exact Or.inl rfl
              · rename_i hsave
                exact Or.inr ⟨_, hsave⟩

theorem projectUpdateData_progress (body : ProjectBody) :
    (projectUpdateData body).progress = body.progress := by
  rcases body with ⟨a1, a2, a3, a4, a5, a6, tl, ic⟩
  cases tl <;> rfl

theorem projectUpdateData_status (body : ProjectBody) :
    (projectUpdateData body).status = body.status := by
  rcases body with ⟨a1, a2, a3, a4, a5, a6, tl, ic⟩
  cases tl <;> rfl

theorem projectUpdateData_incProgress (body : ProjectBody) :
    (projectUpdateData body).incProgress = body.incProgress := by
  rcases body with ⟨a1, a2, a3, a4, a5, a6, tl, ic⟩
  cases tl <;> rfl

theorem castProjectUpdate_some {c : String → JVal → PathCast} {upd : ProjectBody}
    {u : ProjectSet} (h : castProjectUpdate c upd = some u) :
    u.progress = upd.progress ∧ u.status = upd.status ∧
    (∀ n, upd.progress = some n → 0 ≤ n ∧ n ≤ 100) ∧
    u.incProgress = upd.incProgress ∧
    (∀ n, upd.progress = some n → upd.incProgress = none) := by
  unfold castProjectUpdate at h
  split at h
  · split at h
    · simp at h
    · rename_i hc
      simp only [Option.some.injEq] at h
      subst h
      refine ⟨rfl, rfl, ?_, rfl, ?_⟩
      · intro n hn
        rw [hn] at hc
        simp only [Bool.or_eq_true, decide_eq_true_eq, not_or, not_lt] at hc
        exact ⟨hc.1.2.1, hc.1.2.2⟩
      · intro n hn
        rw [hn] at hc
        simp only [Bool.or_eq_true, not_or] at hc
        cases hi : upd.incProgress with
        | none => rfl
        | some k => simp [hi] at hc
  · simp at h

theorem projectsPut_ok {c : String → JVal → PathCast} {db : Db} {id : ObjectId}
    {body : ProjectBody} (h : (projectsPut c db id body).1.status = 200) :
    ∃ p u, Project.findById db.projects id = some p ∧
      castProjectUpdate c (projectUpdateData body) = some u ∧
      projectsPut c db id body =
        ({ status := 200, success := true, data := some (applyProjectSet p u) },
         { db with projects := replaceProject id (applyProjectSet p u) db.projects }) := by
  unfold projectsPut at h ⊢
  cases hf : Project.findById db.projects id with
  | none => simp [hf] at h
  | some p =>
    simp only [hf] at h ⊢
    unfold Project.findByIdAndUpdate at h ⊢
    cases hc : castProjectUpdate c (projectUpdateData body) with
    | none => simp [hc] at h
    | some u =>
      simp only [hc, hf] at h ⊢
      by_cases hdup : (u.projectId.isSome && db.projects.any (fun d =>
          d._id != id && d.projectId == (applyProjectSet p u).projectId)) = true
      · simp [hdup] at h
      · refine ⟨p, u, rfl, rfl, ?_⟩
        simp [hdup]

theorem projectsPut_refused {c : String → JVal → PathCast} {db : Db} {id : ObjectId}
    {body : ProjectBody} (h : (projectsPut c db id body).1.status ≠ 200) :
    (projectsPut c db id body).2 = db := by
  unfold projectsPut at h ⊢
  cases hf : Project.findById db.projects id with
  | none => simp
  | some m =>
    simp only [hf] at h ⊢
    cases hr : Project.findByIdAndUpdate c db.projects id (projectUpdateData body) with
    | error e => simp
    | ok r => simp [hr] at h

theorem castProgressUpdate_out_of_range (c : String → JVal → PathCast) {body : ProgressBody}
    {w : Int} (hw : body.workCompleted = some w) (hout : w < 0 ∨ 100 < w) :
    castProgressUpdate c body = none := by
  unfold castProgressUpdate
  split
  · have hd : (decide (w < 0) || decide (100 < w)) = true := by
      simpa using hout
    simp [hw, hd]
  · rfl

theorem castProjectUpdate_out_of_range (c : String → JVal → PathCast) {body : ProjectBody}
    {n : Int} (hn : body.progress = some n) (hout : n < 0 ∨ 100 < n) :
    castProjectUpdate c (projectUpdateData body) = none := by
  cases hc : castProjectUpdate c (projectUpdateData body) with
  | none => rfl
  | some u =>
    obtain ⟨_, _, hr, _, _⟩ := castProjectUpdate_some hc
    have := hr n (by rw [projectUpdateData_progress]; exact hn)
    omega

/-- From a database in which every project has its progress in 0..100, a submitted
report, the update of a report, and the update of a project by a body without a `$inc` of
`progress` all lead to such a database again, whatever they are answered; and a request
that carries a percentage below 0 or above 100 is refused (400 for a submitted report, not
200 for the two updates) with the database left exactly as it was. -/
theorem progress_in_range_of_plain_requests (c : String → JVal → PathCast) (db : Db)
    (hinv : progressInRange db = true) :
    (∀ (newId : ObjectId) (user : User) (body : ProgressBody),
      progressInRange (progressPost c db newId user body).2 = true) ∧
    (∀ (id : ObjectId) (user : User) (body : ProgressBody),
      progressInRange (progressPut c db id user body).2 = true) ∧
    (∀ (id : ObjectId) (body : ProjectBody), body.incProgress = none →
      progressInRange (projectsPut c db id body).2 = true) ∧
    (∀ (newId : ObjectId) (user : User) (body : ProgressBody) (w : Int),
      body.workCompleted = some w → (w < 0 ∨ 100 < w) →
      (progressPost c db newId user body).1.status = 400 ∧
      (progressPost c db newId user body).2 = db) ∧
    (∀ (id : ObjectId) (user : User) (body : ProgressBody) (w : Int),
      body.workCompleted = some w → (w < 0 ∨ 100 < w) →
      (progressPut c db id user body).1.status ≠ 200 ∧
      (progressPut c db id user body).2 = db) ∧
    (∀ (id : ObjectId) (body : ProjectBody) (n : Int),
      body.progress = some n → (n < 0 ∨ 100 < n) →
      (projectsPut c db id body).1.status ≠ 200 ∧
      (projectsPut c db id body).2 = db) := by
  have hall := (progressInRange_iff db).mp hinv
  refine ⟨?_, ?_, ?_, ?_, ?_, ?_⟩
  · intro newId user body
    rw [progressInRange_iff]
    rcases progressPost_projects c db newId user body with h | ⟨q, hq⟩
    · rw [h]; exact hall
    · exact inRange_of_save hq hall
  · intro id user body
    rw [progressInRange_iff]
    rcases progressPut_projects c db id user body with h | ⟨q, hq⟩
    · rw [h]; exact hall
    · exact inRange_of_save hq hall
  · intro id body hinc
    rw [progressInRange_iff]
    by_cases h : (projectsPut c db id body).1.status = 200
    · obtain ⟨p, u, hf, hc, heq⟩ := projectsPut_ok h
      obtain ⟨hprog, _, hr, hi, _⟩ := castProjectUpdate_some hc
      rw [projectUpdateData_progress] at hprog hr
      rw [projectUpdateData_incProgress, hinc] at hi
      rw [heq]
      intro x hx
      rcases mem_replaceProject hx with h2 | h2
      · rw [h2]
        simp only [applyProjectSet, hprog, hi]
        cases hb : body.progress with
        | none => exact hall p (projectFindById_mem hf)
        | some n => exact hr n hb
      · exact hall x h2
    · rw [projectsPut_refused h]
      exact hall
  · intro newId user body w hw hout
    have herr : progressPostErrors body ≠ [] := by
      intro h
      obtain ⟨_, ⟨w1, hw1, h0, h1⟩, _⟩ := progressPostErrors_nil.mp h
      rw [hw] at hw1
      cases hw1
      omega
    have hemp : (!(progressPostErrors body).isEmpty) = true := by
      cases hl : progressPostErrors body with
      | nil => exact absurd hl herr
      | cons a t => rfl
    unfold progressPost
    simp only
    rw [if_pos hemp]
    exact ⟨rfl, rfl⟩
  · intro id user body w hw hout
    have hc := castProgressUpdate_out_of_range c hw hout
    unfold progressPut
    cases hf : Progress.findById db.progress id with
    | none => simp
    | some r =>
      simp only
      split
      · simp
      · simp [Progress.findByIdAndUpdate, hc]
  · intro id body n hn hout
    have hc := castProjectUpdate_out_of_range c hn hout
    have hne : (projectsPut c db id body).1.status ≠ 200 := by
      intro h
      obtain ⟨_, u, _, hc2, _⟩ := projectsPut_ok h
      rw [hc] at hc2
      cases hc2
    exact ⟨hne, projectsPut_refused hne⟩

/-- C19 (the code at the failing input): the seed project has progress 45.  The body
`{"$inc": {"progress": 60}}` of `PUT /api/projects/:id` names no path that the update
validators look at, so the `min` and `max` of the schema are not applied to the result:
the update is answered with 200 and the stored progress is 105.  The same percentage sent
as `progress` is refused. -/
theorem inc_operator_leaves_range :
    progressInRange seedProjectDb = true ∧
    (Project.findById seedProjectDb.projects seedProject._id).map (fun p => p.progress) =
      some 45 ∧
    (projectsPut storeAsSent seedProjectDb seedProject._id
      { incProgress := some 60 }).1.status = 200 ∧
    (Project.findById (projectsPut storeAsSent seedProjectDb seedProject._id
      { incProgress := some 60 }).2.projects seedProject._id).map (fun p => p.progress) =
        some 105 ∧
    progressInRange (projectsPut storeAsSent seedProjectDb seedProject._id
      { incProgress := some 60 }).2 = false ∧
    (projectsPut storeAsSent seedProjectDb seedProject._id
      { progress := some 105 }).1.status ≠ 200 := by
  decide

/-- C20: `PUT /api/projects/:id` does not run the progress projection.  When the body has
a `progress` and no `status` and the update is answered with 200, the stored status is
the one the project had and the stored progress is the one of the body. -/
theorem updateProject_keeps_status (c : String → JVal → PathCast) (db : Db) (id : ObjectId)
    (body : ProjectBody) (n : Int) (hn : body.progress = some n) (hs : body.status = none)
    (h : (projectsPut c db id body).1.status = 200) :
    ∃ p q, Project.findById db.projects id = some p ∧
      Project.findById (projectsPut c db id body).2.projects id = some q ∧
      (projectsPut c db id body).1.data = some q ∧
      q.status = p.status ∧ q.progress = n := by
  obtain ⟨p, u, hf, hc, heq⟩ := projectsPut_ok h
  obtain ⟨hprog, hstat, _, hi, hno⟩ := castProjectUpdate_some hc
  rw [projectUpdateData_progress] at hprog hno
  rw [projectUpdateData_status] at hstat
  rw [hno n hn] at hi
  refine ⟨p, applyProjectSet p u, hf, ?_, ?_, ?_, ?_⟩
  · rw [heq]
    exact findById_replaceProject hf (by simpa [applyProjectSet] using projectFindById_id hf)
  · rw [heq]
  · simp [applyProjectSet, hstat, hs]
  · simp [applyProjectSet, hprog, hn, hi]

theorem updateProject_keeps_status_witness :
    planningProject.status = "Planning" ∧
    (projectsPut storeAsSent progressDb planningProject._id { progress := some 45 }).1.status
      = 200 ∧
    (∃ p q, Project.findById progressDb.projects planningProject._id = some p ∧
      Project.findById (projectsPut storeAsSent progressDb planningProject._id
        { progress := some 45 }).2.projects planningProject._id = some q ∧
      (projectsPut storeAsSent progressDb planningProject._id { progress := some 45 }).1.data
        = some q ∧
      q.status = p.status ∧ q.progress = 45) :=
  ⟨by decide, by decide,
   updateProject_keeps_status storeAsSent progressDb planningProject._id
     { progress := some 45 } 45 rfl rfl (by decide)⟩

/-! ## Amending a report -/

/-- C17 (the code at the failing input): on a project that is `Planning` with progress 0, a
submitted report of 45 percent leaves the project `In Progress` with progress 45, while
the update of a report of that project to 45 percent, also answered with success, leaves
it `Planning` with progress 45: the update handler sets `progress` only. -/
theorem report_update_skips_status_transition :
    Project.findById progressDb.projects planningProject._id = some planningProject ∧
    planningReport.project = planningProject._id ∧
    (progressPost storeAsSent progressDb "65a0000000000000000000d8" seedUser
      (reportBody planningProject._id 45)).1.status = 201 ∧
    Project.findById (progressPost storeAsSent progressDb "65a0000000000000000000d8" seedUser
      (reportBody planningProject._id 45)).2.projects planningProject._id
      = some { planningProject with progress := 45, status := "In Progress" } ∧
    (progressPut storeAsSent progressDb planningReport._id seedUser
      { workCompleted := some 45 }).1.status = 200 ∧
    Project.findById (progressPut storeAsSent progressDb planningReport._id seedUser
      { workCompleted := some 45 }).2.projects planningProject._id
      = some { planningProject with progress := 45, status := "Planning" } := by
  decide

/-- C18 (as the code has it): when a report is amended with a `workCompleted` by its
reporter or an admin, the schema accepts the update, and the project the report names is
not stored, the report is updated and the answer is 200 with the updated report; the
projection is skipped and the projects are left as they were. -/
theorem report_update_without_project (c : String → JVal → PathCast) (db : Db)
    (id : ObjectId) (user : User) (body : ProgressBody) (r : Progress) (u : ProgressSet)
    (w : Int)
    (hr : Progress.findById db.progress id = some r)
    (hauth : r.reportedBy = user.id ∨ user.role = "admin")
    (hw : body.workCompleted = some w)
    (hc : castProgressUpdate c body = some u)
    (hgone : Project.findById db.projects (applyProgressSet r u).project = none) :
    progressPut c db id user body =
      ({ status := 200, success := true, data := some (applyProgressSet r u) },
       { db with progress := replaceProgress id (applyProgressSet r u) db.progress }) := by
  have hno : ¬ ((r.reportedBy != user.id && user.role != "admin") = true) := by
    rcases hauth with h | h <;> simp [h]
  unfold progressPut
  simp only [hr]
  rw [if_neg hno]
  simp only [Progress.findByIdAndUpdate, hc, hr, hw, hgone]

theorem report_update_without_project_witness :
    Progress.findById progressDb.progress orphanReport._id = some orphanReport ∧
    (orphanReport.reportedBy = seedUser.id ∨ seedUser.role = "admin") ∧
    Project.findById progressDb.projects orphanReport.project = none ∧
    progressPut storeAsSent progressDb orphanReport._id seedUser { workCompleted := some 45 } =
      ({ status := 200, success := true,
         data := some { orphanReport with workCompleted := 45 } },
       { progressDb with
           progress := [planningReport, { orphanReport with workCompleted := 45 }] }) :=
  ⟨by decide, by decide, by decide,
   report_update_without_project storeAsSent progressDb orphanReport._id seedUser
     { workCompleted := some 45 } orphanReport
     { project := none, reportedBy := none, workCompleted := some 45, status := none,
       extra := [] }
     45 (by decide) (by decide) rfl (by decide) (by decide)⟩

/-- C18 (a counterexample to the statement as written): the report `orphanReport` names a
project that is not stored; amending its `workCompleted` is answered with 200 and
`success: true`, not with 404. -/
theorem orphan_report_update_reports_success :
    Project.findById progressDb.projects orphanReport.project = none ∧
    (progressPut storeAsSent progressDb orphanReport._id seedUser
      { workCompleted := some 45 }).1.status = 200 ∧
    (progressPut storeAsSent progressDb orphanReport._id seedUser
      { workCompleted := some 45 }).1.success = true ∧
    (progressPut storeAsSent progressDb orphanReport._id seedUser
      { workCompleted := some 45 }).1.status ≠ 404 := by
  decide

/-! ## The employee identifier -/

/-- C11 (the code at the failing input): the employee identifier `A1` has trimmed length
2; the form validator of the client refuses it, but `POST /api/manpower` only checks
that it is not empty, answers 201 and stores the worker. -/
theorem short_employeeId_is_stored :
    jsLength (jsTrim "A1") = 2 ∧
    validateEmployeeId "A1" = "Employee ID must be at least 3 characters" ∧
    manpowerPostErrors { unassignedBody with employeeId := some "A1" } = [] ∧
    (manpowerPost storeAsSent seedDb strayId "65a0000000000000000000aa"
      { unassignedBody with employeeId := some "A1" }).1.status = 201 ∧
    ((manpowerPost storeAsSent seedDb strayId "65a0000000000000000000aa"
      { unassignedBody with employeeId := some "A1" }).2.manpower.map
        (fun d => d.employeeId)) = ["MP-03", "A1"] := by
  decide

/-! ## The timeline of a project update -/

theorem castTimeline_length {c : String → JVal → PathCast} {items : List TimelineItem}
    {stored : List StoredMilestone} (h : castTimeline c items = some stored) :
    stored.length = items.length := by
  induction items generalizing stored with
  | nil =>
    simp [castTimeline] at h
    subst h
    rfl
  | cons item rest ih =>
    unfold castTimeline at h
    cases hm : castMilestone c item with
    | none => simp [hm] at h
    | some m =>
      cases hr : castTimeline c rest with
      | none => simp [hm, hr] at h
      | some ms =>
        simp [hm, hr] at h
        subst h
        simp [ih hr]

theorem projectUpdateData_timeline (body : ProjectBody) (items : List TimelineItem)
    (h : body.timeline = some items) :
    (projectUpdateData body).timeline = some (items.map cleanedItem) := by
  rcases body with ⟨a1, a2, a3, a4, a5, a6, tl⟩
  simp only at h
  subst h
  rfl

theorem castProjectUpdate_timeline {c : String → JVal → PathCast} {upd : ProjectBody}
    {u : ProjectSet} {items : List TimelineItem} (h : castProjectUpdate c upd = some u)
    (ht : upd.timeline = some items) :
    ∃ stored, castTimeline c items = some stored ∧ u.timeline = some stored := by
  unfold castProjectUpdate at h
  rw [ht] at h
  cases hc : castTimeline c items with
  | none =>
    simp [castKey, hc] at h
  | some stored =>
    refine ⟨stored, rfl, ?_⟩
    simp only [castKey, hc] at h
    split at h
    · split at h
      · exact absurd h (by simp)
      · simp only [Option.some.injEq] at h
        subst h
        simp_all
    · exact absurd h (by simp)

/-- C21: when the body of `PUT /api/projects/:id` has a `timeline` array, the array handed
to the store is the payload mapped entry by entry through `cleanedItem`: same length, same
order, each entry keeping the title and a truthy date of the payload, with the description
defaulting to the empty string and the icon to `checkmark-circle`, and without the `_id`
or any other extra key of the payload.  When the update is answered with 200, the stored
timeline is the cast of exactly that array, whatever the timeline stored before, and has
as many entries as the payload. -/
theorem updateProject_replaces_timeline (c : String → JVal → PathCast) (db : Db)
    (id : ObjectId) (body : ProjectBody) (items : List TimelineItem)
    (htl : body.timeline = some items) :
    (projectUpdateData body).timeline = some (items.map cleanedItem) ∧
    (items.map cleanedItem).length = items.length ∧
    (∀ i : Nat, (items.map cleanedItem)[i]? = (items[i]?).map cleanedItem) ∧
    (∀ item : TimelineItem,
      (cleanedItem item).title = item.title ∧
      (jsTruthy item.date = true → (cleanedItem item).date = item.date) ∧
      (cleanedItem item).description = some (orText item.description "") ∧
      (item.description = none → (cleanedItem item).description = some "") ∧
      (cleanedItem item).icon = some (orText item.icon "checkmark-circle") ∧
      (item.icon = none → (cleanedItem item).icon = some "checkmark-circle") ∧
      (cleanedItem item).extra = []) ∧
    ((projectsPut c db id body).1.status = 200 →
      ∃ stored, castTimeline c (items.map cleanedItem) = some stored ∧
        stored.length = items.length ∧
        (projectsPut c db id body).1.data.map (fun p => p.timeline) = some stored ∧
        (Project.findById (projectsPut c db id body).2.projects id).map
          (fun p => p.timeline) = some stored) := by
  refine ⟨projectUpdateData_timeline body items htl, by simp, ?_, ?_, ?_⟩
  · intro i
    simp
  · intro item
    refine ⟨rfl, ?_, rfl, ?_, rfl, ?_, rfl⟩
    · intro h
      simp [cleanedItem, h]
    · intro h
      simp [cleanedItem, h, orText]
    · intro h
      simp [cleanedItem, h, orText]
  · intro h
    obtain ⟨p, u, hf, hc, heq⟩ := projectsPut_ok h
    obtain ⟨stored, hs, hu⟩ :=
      castProjectUpdate_timeline hc (projectUpdateData_timeline body items htl)
    refine ⟨stored, hs, ?_, ?_, ?_⟩
    · rw [castTimeline_length hs]
      simp
    · rw [heq]
      simp [applyProjectSet, hu]
    · rw [heq]
      have hp : p._id = id := projectFindById_id hf
      have hid : (applyProjectSet p u)._id = id := hp
      simp only
      rw [findById_replaceProject hf hid]
      simp [applyProjectSet, hu]

/-- C21 (an instance): a timeline of two entries, the first sent back with its `_id`, the
second without description and icon, replaces the stored timeline of one entry. -/
theorem updateProject_replaces_timeline_witness :
    (projectsPut storeAsSent timelineDb planningProject._id
        { timeline := some sentTimeline }).1.status = 200 ∧
    (Project.findById (projectsPut storeAsSent timelineDb planningProject._id
        { timeline := some sentTimeline }).2.projects planningProject._id).map
          (fun p => p.timeline) =
      some [{ title := "Foundation", description := some "Excavation complete",
              date := .str "2024-01-01", icon := "construct" },
            { title := "Roofing", description := some "", date := .str "2024-06-01",
              icon := "checkmark-circle" }] :=
  ⟨by decide,
   by
    obtain ⟨stored, hs, -, -, hst⟩ :=
      (updateProject_replaces_timeline storeAsSent timelineDb planningProject._id
        { timeline := some sentTimeline } sentTimeline rfl).2.2.2.2 (by decide)
    rw [hst]
    have : castTimeline storeAsSent (sentTimeline.map cleanedItem) =
        some [{ title := "Foundation", description := some "Excavation complete",
                date := .str "2024-01-01", icon := "construct" },
              { title := "Roofing", description := some "", date := .str "2024-06-01",
                icon := "checkmark-circle" }] := by decide
    rw [this] at hs
    exact hs.symm⟩

/-! ## The finance summary -/

theorem signed_natAbs (a : Int) : signed (decide (a < 0)) a.natAbs = a := by
  unfold signed
  by_cases h : a < 0
  · simp only [h, decide_True, if_true]
    omega
  · simp only [h, decide_False, Bool.false_eq_true, if_false]
    omega

theorem signed_not_natAbs (a : Int) : signed (!decide (a < 0)) a.natAbs = -a := by
  unfold signed
  by_cases h : a < 0
  · simp only [h, decide_True, Bool.not_true, Bool.false_eq_true, if_false]
    omega
  · simp only [h, decide_False, Bool.not_false, if_true]
    omega

theorem ofInt_small {a : Int} (h : a.natAbs < 2 ^ 53) :
    Num.ofInt a = .fin (decide (a < 0)) a.natAbs 0 := by
  unfold Num.ofInt roundToDouble
  by_cases h0 : a.natAbs = 0
  · rw [if_pos h0, h0]
  · rw [if_neg h0, if_pos ⟨rfl, h⟩]

theorem zero_eq_ofInt : (0 : Num) = Num.ofInt 0 := rfl

theorem add_ofInt {a b : Int} (ha : a.natAbs < 2 ^ 53) (hb : b.natAbs < 2 ^ 53)
    (hab : (a + b).natAbs < 2 ^ 53) :
    (Num.ofInt a).add (Num.ofInt b) = Num.ofInt (a + b) := by
  rw [ofInt_small ha, ofInt_small hb]
  unfold Num.add
  simp only [max_self, Nat.sub_self, pow_zero, mul_one, signed_natAbs]
  by_cases hz : a + b = 0
  · rw [if_pos hz, hz]
    have hs : (decide (a < 0) && decide (b < 0)) = false := by
      by_cases h1 : a < 0
      · have h2 : ¬ b < 0 := by omega
        simp [h2]
      · simp [h1]
    rw [hs]
    rfl
  · rw [if_neg hz]
    rfl

theorem sub_ofInt {a b : Int} (ha : a.natAbs < 2 ^ 53) (hb : b.natAbs < 2 ^ 53)
    (hab : (a - b).natAbs < 2 ^ 53) :
    (Num.ofInt a).sub (Num.ofInt b) = Num.ofInt (a - b) := by
  rw [ofInt_small ha, ofInt_small hb]
  unfold Num.sub Num.neg Num.add
  simp only [max_self, Nat.sub_self, pow_zero, mul_one, signed_natAbs, signed_not_natAbs]
  have he : a + -b = a - b := by omega
  rw [he]
  by_cases hz : a - b = 0
  · rw [if_pos hz, hz]
    have hs : (decide (a < 0) && !decide (b < 0)) = false := by
      by_cases h1 : a < 0
      · have h2 : b < 0 := by omega
        simp [h2]
      · simp [h1]
    rw [hs]
    rfl
  · rw [if_neg hz]
    rfl

theorem foldl_add_ofInt (l : List Int) (acc : Int)
    (h : acc.natAbs + (l.map Int.natAbs).sum < 2 ^ 53) :
    (l.map Num.ofInt).foldl Num.add (Num.ofInt acc) = Num.ofInt (acc + l.sum) := by
  induction l generalizing acc with
  | nil => simp
  | cons x xs ih =>
    simp only [List.map_cons, List.sum_cons, List.foldl_cons] at h ⊢
    have h1 := Int.natAbs_add_le acc x
    rw [add_ofInt (by omega) (by omega) (by omega), ih (acc + x) (by omega)]
    congr 1
    omega

theorem summary_totalInvested (db : Db) :
    (financeSummary db).summary.totalInvested =
      (db.finance.map (fun f => orZero f.totalInvested)).foldl Num.add 0 := by
  simp [financeSummary, List.foldl_map]

theorem summary_ableToBill (db : Db) :
    (financeSummary db).summary.ableToBill =
      (db.finance.map (fun f => orZero f.ableToBill)).foldl Num.add 0 := by
  simp [financeSummary, List.foldl_map]

theorem natAbs_sum_le (l : List Int) : l.sum.natAbs ≤ (l.map Int.natAbs).sum := by
  induction l with
  | nil => simp
  | cons x xs ih =>
    simp only [List.sum_cons, List.map_cons]
    have := Int.natAbs_add_le x xs.sum
    omega

/-- C22 (a counterexample to the statement as written): of the two records of
`largeFinanceDb` the first has `2 ^ 53` invested and the second 1; the summary gives
`2 ^ 53` as `totalInvested`, the sum of the two less 1, since the sum is not a double and
the addition rounds it. -/
theorem summary_total_is_rounded :
    largeFinanceDb.finance.map (fun f => f.totalInvested) =
      [some (Num.ofInt (2 ^ 53)), some (Num.ofInt 1)] ∧
    (financeSummary largeFinanceDb).summary.totalInvested = Num.ofInt (2 ^ 53) ∧
    (financeSummary largeFinanceDb).summary.totalInvested = .fin false 9007199254740992 0 ∧
    (2 : Int) ^ 53 + 1 = 9007199254740993 := by
  decide

/-- C22 (as amended): the summary of `GET /api/finance/summary` is a fold over all finance
records with the addition of doubles: `totalInvested` and `ableToBill` are the sums, from
the left, of the two amounts of the records, a missing amount counting as 0; `pending` is
their difference and `projectCount` the number of records.  When the amounts are whole
numbers `ti` and `ab` whose absolute values add up to less than `2 ^ 53`, no addition
rounds: the totals are the exact sums and `pending` is their exact difference. -/
theorem financeSummary_is_fold (db : Db) (ti ab : List Int)
    (hti : db.finance.map (fun f => orZero f.totalInvested) = ti.map Num.ofInt)
    (hab : db.finance.map (fun f => orZero f.ableToBill) = ab.map Num.ofInt)
    (hbound : (ti.map Int.natAbs).sum + (ab.map Int.natAbs).sum < 2 ^ 53) :
    (financeSummary db).summary.totalInvested =
      (db.finance.map (fun f => orZero f.totalInvested)).foldl Num.add 0 ∧
    (financeSummary db).summary.ableToBill =
      (db.finance.map (fun f => orZero f.ableToBill)).foldl Num.add 0 ∧
    orZero none = 0 ∧
    (financeSummary db).summary.pending =
      (financeSummary db).summary.totalInvested.sub (financeSummary db).summary.ableToBill ∧
    (financeSummary db).summary.projectCount = db.finance.length ∧
    (financeSummary db).summary.totalInvested = Num.ofInt ti.sum ∧
    (financeSummary db).summary.ableToBill = Num.ofInt ab.sum ∧
    (financeSummary db).summary.pending = Num.ofInt (ti.sum - ab.sum) := by
  have h1 : (financeSummary db).summary.totalInvested = Num.ofInt ti.sum := by
    rw [summary_totalInvested, hti, zero_eq_ofInt, foldl_add_ofInt ti 0 (by simp; omega)]
    simp
  have h2 : (financeSummary db).summary.ableToBill = Num.ofInt ab.sum := by
    rw [summary_ableToBill, hab, zero_eq_ofInt, foldl_add_ofInt ab 0 (by simp; omega)]
    simp
  have hp : (financeSummary db).summary.pending =
      (financeSummary db).summary.totalInvested.sub
        (financeSummary db).summary.ableToBill := rfl
  refine ⟨summary_totalInvested db, summary_ableToBill db, rfl, hp, rfl, h1, h2, ?_⟩
  rw [hp, h1, h2]
  have a1 := natAbs_sum_le ti
  have a2 := natAbs_sum_le ab
  have a3 := Int.natAbs_sub_le ti.sum ab.sum
  exact sub_ofInt (by omega) (by omega) (by omega)

/-- C22 (an instance): the records `(100, 40)` and `(200, 150)` give 300, 190, 110 and
`63.33`. -/
theorem financeSummary_is_fold_witness :
    (financeSummary financeDb).summary.totalInvested = Num.ofInt 300 ∧
    (financeSummary financeDb).summary.ableToBill = Num.ofInt 190 ∧
    (financeSummary financeDb).summary.pending = Num.ofInt 110 ∧
    (financeSummary financeDb).summary =
      { totalInvested := 300, ableToBill := 190, pending := 110, efficiency := some "63.33",
        projectCount := 2 } :=
  ⟨(financeSummary_is_fold financeDb [100, 200] [40, 150] (by decide) (by decide)
      (by decide)).2.2.2.2.2.1,
   (financeSummary_is_fold financeDb [100, 200] [40, 150] (by decide) (by decide)
      (by decide)).2.2.2.2.2.2.1,
   (financeSummary_is_fold financeDb [100, 200] [40, 150] (by decide) (by decide)
      (by decide)).2.2.2.2.2.2.2,
   by decide⟩

theorem hundredths_nearest (n s : Nat) :
    2 * 2 ^ s * hundredths n s ≤ 200 * n + 2 ^ s ∧
    200 * n + 2 ^ s < 2 * 2 ^ s * (hundredths n s + 1) := by
  have hd : 0 < 2 * 2 ^ s := by positivity
  unfold hundredths
  exact ⟨Nat.mul_div_le _ _, Nat.lt_mul_div_succ _ hd⟩

/-- C23 (a counterexample to the statement as written): with 160 invested and 23 able to
bill the quotient times 100 is 14.375 exactly, which rounds to 14.38; the division of
doubles gives a number just below it and the summary prints `14.37`.  With the amounts of
`nearTieFinanceDb` the quotient times 100 is nearer to 95.16 than to 95.17, and the
summary prints `95.17`. -/
theorem efficiency_rounds_the_double :
    (23 * 100 * 1000 = 14375 * 160 ∧ exactHundredths 23 160 = 1438) ∧
    (Num.div 23 160).mul 100 = .fin false 8092405580431359 49 ∧
    (financeSummary tieFinanceDb).summary.efficiency = some "14.37" ∧
    exactHundredths 5363487000833694 5635986970875526 = 9516 ∧
    (((10000 * 5363487000833694 - 9516 * 5635986970875526 : Int)).natAbs <
      ((10000 * 5363487000833694 - 9517 * 5635986970875526 : Int)).natAbs) ∧
    (financeSummary nearTieFinanceDb).summary.efficiency = some "95.17" := by
  decide

/-- C23 (as amended): when the summed `totalInvested` is greater than 0, the efficiency is
the double `(totalAbleToBill / totalInvested) * 100`, each operation rounded, printed by
`toFixed(2)`; when the sum is not greater than 0 (it is 0, negative or `NaN`, or there is
no record), nothing is divided and `0.00` is printed.  What `toFixed(2)` prints for a
finite number below `10 ^ 21` is its sign, and the hundredth nearest to the number itself,
the larger one at a tie. -/
theorem efficiency_two_decimals (db : Db) :
    ((financeSummary db).summary.totalInvested.isPositive = true →
      (financeSummary db).summary.efficiency =
        toFixed2 (((financeSummary db).summary.ableToBill.div
          (financeSummary db).summary.totalInvested).mul 100)) ∧
    ((financeSummary db).summary.totalInvested.isPositive = false →
      (financeSummary db).summary.efficiency = some "0.00") ∧
    (db.finance = [] → (financeSummary db).summary.efficiency = some "0.00") ∧
    (Num.isPositive 0 = false ∧ Num.isPositive .nan = false ∧
      ∀ n s : Nat, Num.isPositive (.fin true n s) = false) ∧
    (∀ (a : Bool) (n s : Nat), n < 10 ^ 21 * 2 ^ s →
      toFixed2 (.fin a n s) =
        some ((if a && decide (n ≠ 0) then "-" else "") ++
          toString (hundredths n s / 100) ++ "." ++ twoDigits (hundredths n s % 100)) ∧
      2 * 2 ^ s * hundredths n s ≤ 200 * n + 2 ^ s ∧
      200 * n + 2 ^ s < 2 * 2 ^ s * (hundredths n s + 1)) := by
  refine ⟨?_, ?_, ?_, ⟨by decide, rfl, fun n s => rfl⟩, ?_⟩
  · intro h
    simp only [financeSummary] at h ⊢
    rw [if_pos h]
  · intro h
    simp only [financeSummary] at h ⊢
    rw [h, if_neg Bool.false_ne_true]
    decide
  · intro h
    simp only [financeSummary, h]
    decide
  · intro a n s h
    refine ⟨?_, hundredths_nearest n s⟩
    simp only [toFixed2, if_neg (Nat.not_le.mpr h)]

/-- C23 (instances): the records `(100, 40)` and `(200, 150)` have a positive total and the
efficiency `(190 / 300) * 100`, printed `63.33`; a database without finance records has
`0.00`. -/
theorem efficiency_two_decimals_witness :
    (financeSummary financeDb).summary.totalInvested.isPositive = true ∧
    (financeSummary financeDb).summary.efficiency =
      toFixed2 (((financeSummary financeDb).summary.ableToBill.div
        (financeSummary financeDb).summary.totalInvested).mul 100) ∧
    toFixed2 ((Num.div 190 300).mul 100) = some "63.33" ∧
    (financeSummary seedDb).summary.totalInvested.isPositive = false ∧
    (financeSummary seedDb).summary.efficiency = some "0.00" :=
  ⟨by decide, (efficiency_two_decimals financeDb).1 (by decide), by decide, by decide,
   (efficiency_two_decimals seedDb).2.1 (by decide)⟩

/-! ## The finance record of a project -/

theorem financeCreate_ok {coll : List Finance} {newId : ObjectId} {project updatedBy : String}
    (hp : isObjectIdString project = true) (hu : isObjectIdString updatedBy = true)
    (hfresh : coll.any (fun d => d._id == newId) = false) :
    Finance.create coll newId project updatedBy =
      .ok ({ _id := newId, project := toHexString project, totalInvested := some 0,
             ableToBill := some 0, updatedBy := some (toHexString updatedBy) },
           coll ++ [{ _id := newId, project := toHexString project, totalInvested := some 0,
                      ableToBill := some 0, updatedBy := some (toHexString updatedBy) }]) := by
  simp [Finance.create, castObjectId, hp, hu, hfresh]

theorem castObjectId_str {s : String} {r : Option ObjectId}
    (h : castObjectId (.str s) = some r) :
    r = some (toHexString s) ∧ isObjectIdString s = true := by
  unfold castObjectId at h
  by_cases hs : isObjectIdString s = true
  · simp [hs] at h
    exact ⟨h.symm, hs⟩
  · simp [hs] at h

theorem financeCreate_inv {coll coll2 : List Finance} {newId : ObjectId}
    {project updatedBy : String} {doc : Finance}
    (h : Finance.create coll newId project updatedBy = .ok (doc, coll2)) :
    doc = { _id := newId, project := toHexString project, totalInvested := some 0,
            ableToBill := some 0, updatedBy := some (toHexString updatedBy) } ∧
    coll2 = coll ++ [doc] := by
  unfold Finance.create at h
  split at h
  · rename_i p u hp hu
    have h1 := (castObjectId_str hp).1
    have h2 := (castObjectId_str hu).1
    simp only [Option.some.injEq] at h1
    subst h1
    subst h2
    split at h
    · exact absurd h (by simp)
    · simp only [Except.ok.injEq, Prod.mk.injEq] at h
      obtain ⟨h3, h4⟩ := h
      subst h3
      exact ⟨rfl, h4.symm⟩
  · exact absurd h (by simp)

theorem financeGetProject_eq {db : Db} {newId : ObjectId} {user : User} {projectId : String}
    (hp : isObjectIdString projectId = true) :
    financeGetProject db newId user projectId =
      match db.finance.find? (fun f => f.project == toHexString projectId) with
      | some finance => ({ status := 200, success := true, data := some finance }, db)
      | none =>
        match Finance.create db.finance newId projectId user.id with
        | .error _ => ({ status := 500, success := false, message := some "Server error" }, db)
        | .ok (finance, coll) =>
          ({ status := 200, success := true, data := some finance },
           { db with finance := coll }) := by
  simp [financeGetProject, castObjectId, hp]

theorem financeGetProject_found {db : Db} {newId : ObjectId} {user : User} {projectId : String}
    {f : Finance} (hp : isObjectIdString projectId = true)
    (h : db.finance.find? (fun f => f.project == toHexString projectId) = some f) :
    financeGetProject db newId user projectId =
      ({ status := 200, success := true, data := some f }, db) := by
  rw [financeGetProject_eq hp, h]

theorem financeGetProject_ok {db : Db} {newId : ObjectId} {user : User} {projectId : String}
    (h : (financeGetProject db newId user projectId).1.status = 200) :
    isObjectIdString projectId = true ∧
    ∃ f, (financeGetProject db newId user projectId).1.data = some f ∧
      f.project = toHexString projectId ∧ f ∈ (financeGetProject db newId user projectId).2.finance ∧
      (db.finance.find? (fun f => f.project == toHexString projectId) = none →
        (financeGetProject db newId user projectId).2.finance = db.finance ++ [f]) := by
  by_cases hp : isObjectIdString projectId = true
  · refine ⟨hp, ?_⟩
    rw [financeGetProject_eq hp] at h ⊢
    cases hf : db.finance.find? (fun f => f.project == toHexString projectId) with
    | some f =>
      simp only [hf]
      refine ⟨f, rfl, ?_, List.mem_of_find?_eq_some hf, ?_⟩
      · have := List.find?_some hf
        simpa using this
      · intro hn
        exact absurd hn (by simp)
    | none =>
      simp only [hf] at h ⊢
      cases hc : Finance.create db.finance newId projectId user.id with
      | error e => simp [hc] at h
      | ok r =>
        obtain ⟨doc, coll⟩ := r
        simp only [hc]
        obtain ⟨hdoc, hcoll⟩ := financeCreate_inv hc
        refine ⟨doc, rfl, ?_, ?_, fun _ => hcoll⟩
        · rw [hdoc]
        · rw [hcoll]
          simp
  · simp [financeGetProject, castObjectId, hp] at h

/-- C24: `GET /api/finance/project/:projectId` creates lazily and at most once.  A stored
record of the project is returned and the database is unchanged.  When there is none, and
the ids are well formed and the new id unused, exactly one record is appended, with both
amounts 0 and `updatedBy` the requesting user.  After an answered first call a second call
for the same project returns the same record and changes nothing, so that a project
without a record before has exactly one after both calls. -/
theorem financeGetProject_creates_once (db : Db) (newId newId2 : ObjectId) (user user2 : User)
    (projectId : String) :
    (∀ f, isObjectIdString projectId = true →
      db.finance.find? (fun f => f.project == toHexString projectId) = some f →
      financeGetProject db newId user projectId =
        ({ status := 200, success := true, data := some f }, db)) ∧
    (isObjectIdString projectId = true → isObjectIdString user.id = true →
      db.finance.find? (fun f => f.project == toHexString projectId) = none →
      db.finance.any (fun d => d._id == newId) = false →
      financeGetProject db newId user projectId =
        ({ status := 200, success := true,
           data := some { _id := newId, project := toHexString projectId,
                          totalInvested := some 0, ableToBill := some 0,
                          updatedBy := some (toHexString user.id) } },
         { db with finance := db.finance ++
            [{ _id := newId, project := toHexString projectId, totalInvested := some 0,
               ableToBill := some 0, updatedBy := some (toHexString user.id) }] })) ∧
    ((financeGetProject db newId user projectId).1.status = 200 →
      financeGetProject (financeGetProject db newId user projectId).2 newId2 user2 projectId =
        ({ status := 200, success := true,
           data := (financeGetProject (financeGetProject db newId user projectId).2 newId2
                      user2 projectId).1.data },
         (financeGetProject db newId user projectId).2) ∧
      (db.finance.find? (fun f => f.project == toHexString projectId) = none →
        ((financeGetProject (financeGetProject db newId user projectId).2 newId2 user2
            projectId).2.finance.filter (fun f => f.project == toHexString projectId)).length = 1)) := by
  refine ⟨fun f hp h => financeGetProject_found hp h, ?_, ?_⟩
  · intro hp hu hnone hfresh
    rw [financeGetProject_eq hp, hnone]
    simp only [financeCreate_ok hp hu hfresh]
  · intro h
    obtain ⟨hp, f, hdata, hproj, hmem, happ⟩ := financeGetProject_ok h
    have hex : ∃ g, (financeGetProject db newId user projectId).2.finance.find?
        (fun f => f.project == toHexString projectId) = some g := by
      cases hfind : (financeGetProject db newId user projectId).2.finance.find?
          (fun f => f.project == toHexString projectId) with
      | some g => exact ⟨g, rfl⟩
      | none =>
        have := List.find?_eq_none.mp hfind f hmem
        simp [hproj] at this
    obtain ⟨g, hg⟩ := hex
    have hsecond := @financeGetProject_found _ newId2 user2 _ _ hp hg
    refine ⟨?_, ?_⟩
    · rw [hsecond]
    · intro hnone
      rw [hsecond]
      simp only
      have hfilter : db.finance.filter (fun f => f.project == toHexString projectId) = [] := by
        rw [List.filter_eq_nil_iff]
        intro a ha
        have := List.find?_eq_none.mp hnone a ha
        simpa using this
      rw [happ hnone, List.filter_append, hfilter]
      simp [hproj]

/-- C24 (an instance): the seed project has no finance record in `seedProjectDb`; the first
read creates one with both amounts 0 for the requesting user, the second read by another
user leaves that single record. -/
theorem financeGetProject_creates_once_witness :
    (financeGetProject seedProjectDb "65a0000000000000000000e9" seedUser
      seedProject._id).1.status = 200 ∧
    (financeGetProject (financeGetProject seedProjectDb "65a0000000000000000000e9" seedUser
      seedProject._id).2 "65a0000000000000000000ea" otherUser seedProject._id).2.finance =
      [{ _id := "65a0000000000000000000e9", project := seedProject._id,
         totalInvested := some 0, ableToBill := some 0, updatedBy := some seedUser.id }] ∧
    ((financeGetProject (financeGetProject seedProjectDb "65a0000000000000000000e9" seedUser
        seedProject._id).2 "65a0000000000000000000ea" otherUser
        seedProject._id).2.finance.filter
      (fun f => f.project == seedProject._id)).length = 1 :=
  ⟨by decide, by decide,
   ((financeGetProject_creates_once seedProjectDb "65a0000000000000000000e9"
      "65a0000000000000000000ea" seedUser otherUser seedProject._id).2.2 (by decide)).2
      (by decide)⟩

/-! ## Materials: type and status -/

/-- C25 (the code at the failing input): creating a material with type `Available` and
status `Ordered` passes the validation chain and is answered 201 with the pair stored as
sent, although `Ordered` is not among the statuses the form offers for `Available` and the
form itself sends `In Stock` for that type; likewise `Required` with `In Stock` is stored
as sent. -/
theorem available_ordered_is_stored :
    materialsPostErrors (materialBody "Available" "Ordered") = [] ∧
    (materialsPost storeAsSent materialDb strayId seedUser
      (materialBody "Available" "Ordered")).1.status = 201 ∧
    (materialsPost storeAsSent materialDb strayId seedUser
      (materialBody "Available" "Ordered")).1.data.map (fun m => (m.type, m.status)) =
      some ("Available", "Ordered") ∧
    ((materialsPost storeAsSent materialDb strayId seedUser
      (materialBody "Available" "Ordered")).2.materials.map (fun m => (m.type, m.status))) =
      [("Available", "In Stock"), ("Available", "Ordered")] ∧
    (statusOptions "Available").contains "Ordered" = false ∧
    (materialData { name := "Steel rods", quantity := "2 tons", type := "Available",
                    project := seedProject._id, location := "", priority := "Medium",
                    status := "Ordered", neededBy := "" }).status = some "In Stock" ∧
    (materialsPost storeAsSent materialDb strayId seedUser
      (materialBody "Required" "In Stock")).1.status = 201 ∧
    (materialsPost storeAsSent materialDb strayId seedUser
      (materialBody "Required" "In Stock")).1.data.map (fun m => (m.type, m.status)) =
      some ("Required", "In Stock") ∧
    (statusOptions "Required").contains "In Stock" = false := by
  decide

/-- C26 (the code at the failing input): a material stored as `Available` and `In Stock`,
updated with only `type: Required`, is answered 200 and stays `In Stock`, a status that is
not among those of the type `Required`. -/
theorem type_change_keeps_status :
    (statusOptions stockMaterial.type).contains stockMaterial.status = true ∧
    (materialsPut storeAsSent materialDb stockMaterial._id
      { type := some "Required" }).1.status = 200 ∧
    (materialsPut storeAsSent materialDb stockMaterial._id
      { type := some "Required" }).1.data.map (fun m => (m.type, m.status)) =
      some ("Required", "In Stock") ∧
    ((materialsPut storeAsSent materialDb stockMaterial._id
      { type := some "Required" }).2.materials.map (fun m => (m.type, m.status))) =
      [("Required", "In Stock")] ∧
    (statusOptions "Required").contains "In Stock" = false := by
  decide

/-! ## Two interleaved manpower updates -/

theorem manpowerPut_read_write (c : String → JVal → PathCast) (db : Db) (id : ObjectId)
    (body : ManpowerBody) :
    manpowerPut c db id body =
      manpowerPutWrite c db id (Manpower.findById db.manpower id) body := by
  unfold manpowerPut manpowerPutWrite
  cases Manpower.findById db.manpower id <;> rfl

/-- C27 (the code at the failing interleaving): request B, whose body has no
`assignedProject`, reads the unassigned worker; request A then assigns a project, read and
write together; B then writes with the `isAvailable` it derived from what it had read.
Both writes are answered 200 and the record stored by the write of B has the project of A
with `isAvailable = true`, against `isAvailable == (assignedProject == null)`. -/
theorem stale_read_breaks_invariant :
    Manpower.findById seedDb.manpower seedWorker._id = some seedWorker ∧
    manpowerPut storeAsSent seedDb seedWorker._id { name := some "Arun K." } =
      manpowerPutWrite storeAsSent seedDb seedWorker._id
        (Manpower.findById seedDb.manpower seedWorker._id) { name := some "Arun K." } ∧
    (manpowerPut storeAsSent seedDb seedWorker._id
      { assignedProject := some (.str strayId) }).1.status = 200 ∧
    (Manpower.findById (manpowerPut storeAsSent seedDb seedWorker._id
      { assignedProject := some (.str strayId) }).2.manpower seedWorker._id).map
        availabilityInvariant = some true ∧
    (manpowerPutWrite storeAsSent
      (manpowerPut storeAsSent seedDb seedWorker._id
        { assignedProject := some (.str strayId) }).2
      seedWorker._id (Manpower.findById seedDb.manpower seedWorker._id)
      { name := some "Arun K." }).1.status = 200 ∧
    (Manpower.findById (manpowerPutWrite storeAsSent
      (manpowerPut storeAsSent seedDb seedWorker._id
        { assignedProject := some (.str strayId) }).2
      seedWorker._id (Manpower.findById seedDb.manpower seedWorker._id)
      { name := some "Arun K." }).2.manpower seedWorker._id).map
        (fun m => (m.assignedProject, m.isAvailable, availabilityInvariant m)) =
      some (some strayId, some true, false) := by
  decide

/-! ## Who may amend a report -/

/-- C28: a stored progress report can be amended only by its reporter or an admin.  When
the requesting user is neither, `PUT /api/progress/:id` answers 403 and leaves the whole
database, reports and projects, as it was; when the user is the reporter or has the role
`admin`, the answer is not 403. -/
theorem report_update_authorization (c : String → JVal → PathCast) (db : Db) (id : ObjectId)
    (user : User) (body : ProgressBody) (r : Progress)
    (hf : Progress.findById db.progress id = some r) :
    (r.reportedBy ≠ user.id → user.role ≠ "admin" →
      (progressPut c db id user body).1.status = 403 ∧
      (progressPut c db id user body).1.success = false ∧
      (progressPut c db id user body).2 = db) ∧
    (r.reportedBy = user.id ∨ user.role = "admin" →
      (progressPut c db id user body).1.status ≠ 403) := by
  constructor
  · intro h1 h2
    have hcond : (r.reportedBy != user.id && user.role != "admin") = true := by
      simp [h1, h2]
    unfold progressPut
    simp only [hf]
    rw [if_pos hcond]
    exact ⟨rfl, rfl, rfl⟩
  · intro h
    have hcond : ¬ (r.reportedBy != user.id && user.role != "admin") = true := by
      rcases h with h | h
      · simp [h]
      · simp [h]
    unfold progressPut
    simp only [hf]
    rw [if_neg hcond]
    repeat' split
    all_goals simp

/-- C28 (instances): `otherUser` is refused on the report of `seedUser` and nothing
changes; `seedUser` itself is let through. -/
theorem report_update_authorization_witness :
    ((progressPut storeAsSent progressDb planningReport._id otherUser
        { workCompleted := some 45 }).1.status = 403 ∧
      (progressPut storeAsSent progressDb planningReport._id otherUser
        { workCompleted := some 45 }).1.success = false ∧
      (progressPut storeAsSent progressDb planningReport._id otherUser
        { workCompleted := some 45 }).2 = progressDb) ∧
    (progressPut storeAsSent progressDb planningReport._id seedUser
      { workCompleted := some 45 }).1.status ≠ 403 :=
  ⟨(report_update_authorization storeAsSent progressDb planningReport._id otherUser
      { workCompleted := some 45 } planningReport (by decide)).1 (by decide) (by decide),
   (report_update_authorization storeAsSent progressDb planningReport._id seedUser
      { workCompleted := some 45 } planningReport (by decide)).2 (Or.inl (by decide))⟩

/-! ## The started and not-started listings -/

/-- C29 (a counterexample to the statement as written): the project `PJT-002` of the seed
script, `Planning` with progress 10, satisfies the started filter and the not-started
filter, and is in both listings. -/
theorem planning_project_in_both_listings :
    projectStatusEnum.contains seedPlanningProject.status = true ∧
    seedPlanningProject.progress = 10 ∧
    startedFilter seedPlanningProject = true ∧
    notStartedFilter seedPlanningProject = true ∧
    seedPlanningProject ∈ projectsStarted { projects := [seedProject, seedPlanningProject] } ∧
    seedPlanningProject ∈
      projectsNotStarted { projects := [seedProject, seedPlanningProject] } := by
  decide

/-- C29 (as amended): a project satisfies both the started filter and the not-started
filter exactly when its status is `Planning` and its progress is greater than 0; so a
project is in both listings exactly when it is stored with that status and such a
progress, and every other project is in at most one of them. -/
theorem listings_overlap_on_planning (db : Db) (p : Project) :
    ((startedFilter p = true ∧ notStartedFilter p = true) ↔
      (p.status = "Planning" ∧ 0 < p.progress)) ∧
    ((p ∈ projectsStarted db ∧ p ∈ projectsNotStarted db) ↔
      (p ∈ db.projects ∧ p.status = "Planning" ∧ 0 < p.progress)) := by
  have key : (startedFilter p = true ∧ notStartedFilter p = true) ↔
      (p.status = "Planning" ∧ 0 < p.progress) := by
    unfold startedFilter notStartedFilter
    simp only [List.contains_cons, List.contains_nil, Bool.or_false, Bool.and_eq_true,
      Bool.or_eq_true, beq_iff_eq, decide_eq_true_eq, gt_iff_lt]
    constructor
    · rintro ⟨⟨h1, h2⟩, h3⟩
      rcases h3 with h3 | h3
      · exact ⟨h3, h2⟩
      · omega
    · rintro ⟨h1, h2⟩
      exact ⟨⟨Or.inr h1, h2⟩, Or.inl h1⟩
  refine ⟨key, ?_⟩
  unfold projectsStarted projectsNotStarted
  simp only [List.mem_filter]
  constructor
  · rintro ⟨⟨hm, h1⟩, -, h2⟩
    exact ⟨hm, key.mp ⟨h1, h2⟩⟩
  · rintro ⟨hm, h⟩
    exact ⟨⟨hm, (key.mpr h).1⟩, hm, (key.mpr h).2⟩

/-! ## The project identifier on client and server -/

theorem validateProjectId_ok {up : String → String} {s : String}
    (h : validateProjectId up s = "") :
    matchesProjectIdPattern (up (jsTrim s)) = true := by
  unfold validateProjectId at h
  split at h
  · exact absurd h (by decide)
  · split at h
    · exact absurd h (by decide)
    · rename_i hm
      simpa using hm

/-- C30 (a counterexample to the statement as written): the string ` PJT-001`, with a
leading blank, is accepted by `validateProjectId`, which trims before testing; the value
the screen sends, the string upper-cased and not trimmed, fails the pattern of the server,
and the create request carrying it is answered 400.  On this string of ASCII characters
upper-casing changes nothing. -/
theorem padded_projectId_passes_client_only :
    validateProjectId toUpperCase " PJT-001" = "" ∧
    sentProjectId toUpperCase " PJT-001" = " PJT-001" ∧
    matchesProjectIdPattern (sentProjectId toUpperCase " PJT-001") = false ∧
    projectsPostErrors (projectBody (sentProjectId toUpperCase " PJT-001")) ≠ [] ∧
    (projectsPost storeAsSent seedDb strayId seedUser.id
      (projectBody (sentProjectId toUpperCase " PJT-001"))).1.status = 400 := by
  decide

/-- C30 (as amended): whatever the case mapping of the runtime, for every string without
leading or trailing white space that `validateProjectId` accepts, the value the screen
sends passes the pattern of the server, and the validation chain of the server has no
complaint about the identifier. -/
theorem client_server_projectId_agree (up : String → String) (s : String)
    (h : validateProjectId up s = "") (ht : jsTrim s = s) :
    matchesProjectIdPattern (sentProjectId up s) = true ∧
    ∀ body : ProjectBody, body.projectId = some (sentProjectId up s) →
      "Project ID must be in format: XXX-000" ∉ projectsPostErrors body := by
  have hm := validateProjectId_ok h
  rw [ht] at hm
  refine ⟨hm, ?_⟩
  intro body hb
  have hm2 : matchesProjectIdPattern (up s) = true := hm
  unfold projectsPostErrors
  rw [hb]
  simp only [Option.getD_some, sentProjectId, hm2, if_true, List.nil_append, List.mem_append]
  rintro (h1 | h1)
  · split at h1
    · simp at h1
    · simp at h1
  · split at h1
    · simp at h1
    · simp at h1

/-- C30 (an instance): `pjt-001` is accepted by the client and sent as `PJT-001`, which the
server pattern accepts. -/
theorem client_server_projectId_agree_witness :
    validateProjectId toUpperCase "pjt-001" = "" ∧ jsTrim "pjt-001" = "pjt-001" ∧
    sentProjectId toUpperCase "pjt-001" = "PJT-001" ∧
    matchesProjectIdPattern (sentProjectId toUpperCase "pjt-001") = true :=
  ⟨by decide, by decide, by decide,
   (client_server_projectId_agree toUpperCase "pjt-001" (by decide) (by decide)).1⟩

end Sathi
